import Mathlib

/-!
Aura engine of `src/game/Spells/SpellAuras.cpp`.

A shallow embedding of the effect instance (`Aura`), the effect holder
(`SpellAuraHolder`) and the target's aura update fields, followed by the
properties proved about them.

Conventions of the embedding

* `int32` values are integers, `uint32`/`uint8` values are naturals; every
  C++ operation that can leave the range of its type is followed by the
  conversion the language performs (`toInt32`, `% 4294967296`, `% 256`).
* A `Unit*` is `Option Nat`: `none` is the null pointer, `some g` the live
  unit whose object guid is `g`.
* Calls into collaborators that live outside this file (damage bonuses,
  packets, diminishing returns, the object directory) are parameters of the
  functions (`Env`, `Consts`) or are recorded as `Event`s in call order.
-/

namespace SpellAuras

/-! ## Machine arithmetic -/

/-- The `int32` a C++ conversion yields for the mathematical value `z`
(two's complement, modulo 2^32). -/
def toInt32 (z : Int) : Int := (z + 2147483648) % 4294967296 - 2147483648

/-- The `uint32` a C++ conversion yields for the mathematical value `z`. -/
def toUInt32 (z : Int) : Nat := (z % 4294967296).toNat

/-- Bitwise complement of a `uint32`. -/
def not32 (x : Nat) : Nat := 4294967295 ^^^ (x % 4294967296)

/-- Left shift of a `uint32`, bits shifted out are lost. -/
def shl32 (x s : Nat) : Nat := (x <<< s) % 4294967296

/-! ## Data model -/

/-- `AuraRemoveMode`, the values this file uses. -/
inductive AuraRemoveMode
  | AURA_REMOVE_BY_DEFAULT
  | AURA_REMOVE_BY_STACK
  | AURA_REMOVE_BY_DISPEL
  | AURA_REMOVE_BY_DEATH
  | AURA_REMOVE_BY_DELETE
  | AURA_REMOVE_BY_EXPIRE
  | AURA_REMOVE_BY_GAINED_STACK
  deriving DecidableEq, Repr

open AuraRemoveMode

/-- `Modifier`: the value object an `Aura` owns. -/
structure Modifier where
  m_auraname : Nat
  m_amount : Int
  m_baseAmount : Int
  m_recentAmount : Int
  m_miscvalue : Int
  periodictime : Nat
  deriving DecidableEq, Repr

/-- `AreaAuraType` of an `AreaAura`. -/
inductive AreaAuraType
  | AREA_AURA_PARTY
  | AREA_AURA_PET
  deriving DecidableEq, Repr

/-- `SpellModifier`, the field of it that this file writes. -/
structure SpellModifier where
  charges : Nat
  deriving DecidableEq, Repr

/-- The data members of `Aura` that the modelled functions read or write;
`m_areaAuraType` and `m_originalRankSpellId` are the members `AreaAura` adds
(used only when `m_isAreaAura` is set). `m_spellmod` is the spell modifier
the instance points to, `none` for a null pointer. -/
structure Aura where
  m_modifier : Modifier
  m_spellmod : Option SpellModifier
  m_periodicTimer : Int
  m_periodicTick : Nat
  m_removeMode : AuraRemoveMode
  m_effIndex : Nat
  m_positive : Bool
  m_isPeriodic : Bool
  m_isAreaAura : Bool
  m_isPersistent : Bool
  m_currentBasePoints : Int
  m_areaAuraType : AreaAuraType
  m_originalRankSpellId : Nat
  deriving DecidableEq, Repr

/-- Calls that leave the modelled state, in the order the code makes them.
`periodicTick a` is a call of `Aura::PeriodicTick` on the instance in state
`a`; `applyModifier a apply real` is a call of `Aura::ApplyModifier(apply,
real)` on the instance in state `a` (the state before the handler ran). -/
inductive Event
  | periodicTick (a : Aura)
  | applyModifier (a : Aura) (apply real : Bool)
  | updateAuraDuration (slot : Nat) (duration : Int)
  | updateAuraForGroup (slot : Nat)
  | setStandStateSit
  | applyDiminishingAura (group : Nat) (apply : Bool)
  | modifyAuraState (state : Nat) (apply : Bool)
  | removeAurasDueToSpell (spellId : Nat)
  | dynObjRemoveAffected (spellId : Nat)
  | addCooldown (spellId : Nat)
  | modifyHealth (caster : Nat) (delta : Int)
  | modifyPower (caster : Nat) (power : Nat) (delta : Int)
  | removeSingleAura (spellId effIndex : Nat) (mode : AuraRemoveMode)
  | removeSingleAuraOfCaster (spellId effIndex casterGuid : Nat)
  | areaAuraApplyTo (target : Nat)
  | removeAuraCharge (caster spellId : Nat)
  deriving DecidableEq, Repr

/-- `Aura::SetModifier`. -/
def Aura.SetModifier (a : Aura) (t : Nat) (amount : Int) (pt : Nat) (miscValue : Int) : Aura :=
  { a with m_modifier :=
      { a.m_modifier with
          m_auraname := t, m_amount := amount, m_baseAmount := amount,
          m_miscvalue := miscValue, periodictime := pt } }

/-- `Aura::Update(uint32 diff)`: the instance afterwards and the
`PeriodicTick` calls made. `m_periodicTimer` is an `int32` and `diff` a
`uint32`, so `-=` and `+=` are computed modulo 2^32 and converted back. -/
def Aura.Update (a : Aura) (diff : Nat) : Aura × List Event :=
  if a.m_isPeriodic then
    let a1 := { a with m_periodicTimer := toInt32 (a.m_periodicTimer - (diff : Int)) }
    if a1.m_periodicTimer ≤ 0 then
      let a2 := { a1 with
        m_periodicTimer := toInt32 (a1.m_periodicTimer + (a1.m_modifier.periodictime : Int)) }
      let a3 := { a2 with m_periodicTick := (a2.m_periodicTick + 1) % 4294967296 }
      (a3, [Event.periodicTick a3])
    else (a1, [])
  else (a, [])

/-! ## Spell definitions, constants and collaborators -/

/-- The attributes of a spell definition that this file queries through
`SpellEntry::HasAttribute`. -/
inductive SpellAttr
  | SPELL_ATTR_CANT_CANCEL
  | SPELL_ATTR_NOT_SHAPESHIFT
  | SPELL_ATTR_EX2_NOT_NEED_SHAPESHIFT
  | SPELL_ATTR_DISABLED_WHILE_ACTIVE
  | SPELL_ATTR_EX3_TARGET_ONLY_PLAYER
  deriving DecidableEq, Repr

/-- The fields of `SpellEntry` that the modelled functions read. Arrays of
`MAX_EFFECT_INDEX` entries are functions of the effect index. -/
structure SpellEntry where
  Id : Nat
  StackAmount : Nat
  procCharges : Nat
  DurationIndex : Nat
  SpellVisual : Nat
  powerType : Nat
  manaPerSecond : Nat
  manaPerSecondPerLevel : Nat
  AuraInterruptFlags : Nat
  Stances : Nat
  SpellFamilyName : Nat
  Mechanic : Nat
  Effect : Nat → Nat
  EffectApplyAuraName : Nat → Nat
  EffectAmplitude : Nat → Nat
  EffectMiscValue : Nat → Int
  EffectTriggerSpell : Nat → Nat
  EffectMechanic : Nat → Nat
  HasAttribute : SpellAttr → Bool

/-- Enumerators and limits that the file takes from headers which are not
part of the sources. `NULL_AURA_SLOT` (0xFF) and the aura type numbers are
given by the file itself (line 51 and the comments of the `AuraHandler`
table). -/
structure Consts where
  MAX_POSITIVE_AURAS : Nat
  MAX_AURAS : Nat
  TOTAL_AURAS : Nat
  SPELL_EFFECT_APPLY_AREA_AURA_PARTY : Nat
  SPELL_EFFECT_APPLY_AREA_AURA_PET : Nat
  AFLAG_CANCELABLE : Nat
  AFLAG_UNK3 : Nat
  AFLAG_UNK4 : Nat
  AFLAG_MASK_ALL : Nat
  AURA_INTERRUPT_FLAG_NOT_SEATED : Nat
  DIMINISHING_NONE : Nat
  AURA_STATE_JUDGEMENT : Nat
  SPELLFAMILY_PALADIN : Nat
  SPELLFAMILY_DRUID : Nat
  IN_MILLISECONDS : Nat
  POWER_HEALTH : Nat

/-- `NULL_AURA_SLOT`, line 51 of the file. -/
def NULL_AURA_SLOT : Nat := 255

/-- `MAX_EFFECT_INDEX`: a holder has three effect slots (`EFFECT_INDEX_0..2`). -/
def MAX_EFFECT_INDEX : Nat := 3

/-- Aura type numbers, from the comments of the `AuraHandler` table. -/
def SPELL_AURA_NONE : Nat := 0

def SPELL_AURA_PERIODIC_DAMAGE : Nat := 3

def SPELL_AURA_PERIODIC_TRIGGER_SPELL : Nat := 23

def SPELL_AURA_MOD_DODGE_PERCENT : Nat := 49

def SPELL_AURA_PERIODIC_LEECH : Nat := 53

/-- What the constraints the code relies on say about the header values: the
positive slot range ends where the negative one starts, slot indices fit the
`uint8` loop counters below `NULL_AURA_SLOT`, and the aura flags of one slot
fit its four-bit group. -/
def Consts.WellFormed (c : Consts) : Prop :=
  c.MAX_POSITIVE_AURAS ≤ c.MAX_AURAS ∧ c.MAX_AURAS ≤ 255 ∧
    c.AFLAG_MASK_ALL = 15 ∧ c.AFLAG_CANCELABLE ≤ 15 ∧ c.AFLAG_UNK3 ≤ 15 ∧ c.AFLAG_UNK4 ≤ 15

instance (c : Consts) : Decidable c.WellFormed := by
  unfold Consts.WellFormed
  infer_instance

/-- Answers of the world to the queries `AreaAura::Update` and
`PersistentAreaAura::Update` make for one instance in one call. -/
structure AreaQuery where
  casterIsolated : Bool
  casterHasAura : Bool
  withinDist : Bool
  canAssist : Bool
  casterMasterIsTarget : Bool
  casterIsTargetMaster : Bool
  casterIsPlayer : Bool
  casterHasGroup : Bool
  targetHasBeneficiary : Bool
  sameSubGroup : Bool
  outOfDynObjectRadius : Bool

/-- Collaborators outside this file, as functions of what the code passes
them. `AuraHandler n apply real a` is the instance after the `n`-th entry of
the `AuraHandler` table ran on instance `a`. -/
structure Env where
  GetUnit : Nat → Bool
  getLevel : Nat → Nat
  IsTotem : Nat → Bool
  targetIsPlayer : Bool
  maxPlayerLevel : Nat
  AuraHandler : Nat → Bool → Bool → Aura → Aura
  IsAuraRemoveOnStacking : SpellEntry → Nat → Bool
  IsSealSpell : SpellEntry → Bool
  IsPassiveSpell : SpellEntry → Bool
  IsDeathPersistentSpell : SpellEntry → Bool
  CalculateSpellDuration : SpellEntry → Option Nat → Int
  GetSpellDuration : SpellEntry → Int
  ApplySpellModCharges : Nat → Nat → Nat → Nat
  LookupEntry : Nat → Option SpellEntry
  GetDynObject : Nat → Nat → Bool
  targetHasFamilyHolder : SpellEntry → Bool
  areaQuery : Nat → Nat → Aura → AreaQuery
  areaCasterSide : Nat → Aura → List Nat

/-! ## The holder and the target's aura fields -/

/-- The update fields of the target unit that the holder reads and writes,
each an array of `uint32` words indexed from its base field, and the
target's stand state as far as `_AddSpellAuraHolder` uses it. -/
structure UnitFields where
  UNIT_FIELD_AURA : Nat → Nat
  UNIT_FIELD_AURAFLAGS : Nat → Nat
  UNIT_FIELD_AURALEVELS : Nat → Nat
  UNIT_FIELD_AURAAPPLICATIONS : Nat → Nat
  IsSitState : Bool

/-- The data members of `SpellAuraHolder` that the modelled functions read or
write. `m_target` is the guid of the target, which the constructor asserts to
be non-null; `m_auras` is the array of `MAX_EFFECT_INDEX` instance pointers. -/
structure SpellAuraHolder where
  m_spellProto : SpellEntry
  m_target : Nat
  m_casterGuid : Nat
  m_auras : Nat → Option Aura
  m_auraSlot : Nat
  m_auraLevel : Nat
  m_procCharges : Nat
  m_stackAmount : Nat
  m_maxDuration : Int
  m_duration : Int
  m_timeCla : Int
  m_removeMode : AuraRemoveMode
  m_AuraDRGroup : Nat
  m_isPassive : Bool
  m_isDeathPersist : Bool
  m_permanent : Bool
  m_isRemovedOnShapeLost : Bool
  m_deleted : Bool
  m_skipUpdate : Bool

/-- `IsRemovedOnShapeshiftLost`. -/
def IsRemovedOnShapeshiftLost (c : Consts) (spellproto : SpellEntry)
    (casterGuid targetGuid : Nat) : Bool :=
  if casterGuid = targetGuid then
    if spellproto.Stances ≠ 0 then
      if spellproto.Id = 11327 ∨ spellproto.Id = 11329 then true
      else if !spellproto.HasAttribute .SPELL_ATTR_EX2_NOT_NEED_SHAPESHIFT &&
          !spellproto.HasAttribute .SPELL_ATTR_NOT_SHAPESHIFT then true
      else false
    else if spellproto.SpellFamilyName = c.SPELLFAMILY_DRUID ∧
        spellproto.EffectApplyAuraName 0 = SPELL_AURA_MOD_DODGE_PERCENT then true
    else false
  else false

/-- `SpellAuraHolder::SpellAuraHolder`, reached through
`CreateSpellAuraHolder`: `caster` is the caster pointer (`none` when null, in
which case the target is the caster). -/
def CreateSpellAuraHolder (c : Consts) (env : Env) (spellproto : SpellEntry) (target : Nat)
    (caster : Option Nat) : SpellAuraHolder :=
  let casterGuid := match caster with
    | none => target
    | some g => g
  let isPassive := env.IsPassiveSpell spellproto
  let maxDuration := env.CalculateSpellDuration spellproto caster
  let charges := match caster with
    | none => spellproto.procCharges
    | some g => env.ApplySpellModCharges g spellproto.Id spellproto.procCharges
  { m_spellProto := spellproto
    m_target := target
    m_casterGuid := casterGuid
    m_auras := fun _ => none
    m_auraSlot := c.MAX_AURAS
    m_auraLevel := 1
    m_procCharges := charges
    m_stackAmount :=
      if spellproto.Id = 24575 ∨ spellproto.Id = 24659 ∨ spellproto.Id = 24662 ∨
          spellproto.Id = 26464 then spellproto.StackAmount
      else 1
    m_maxDuration := maxDuration
    m_duration := maxDuration
    m_timeCla := 1000
    m_removeMode := AURA_REMOVE_BY_DEFAULT
    m_AuraDRGroup := c.DIMINISHING_NONE
    m_isPassive := isPassive
    m_isDeathPersist := env.IsDeathPersistentSpell spellproto
    m_permanent := decide (maxDuration = -1) || (isPassive && decide (spellproto.DurationIndex = 0))
    m_isRemovedOnShapeLost := IsRemovedOnShapeshiftLost c spellproto casterGuid target
    m_deleted := false
    m_skipUpdate := false }

/-- `SpellAuraHolder::AddAura`. -/
def SpellAuraHolder.AddAura (h : SpellAuraHolder) (aura : Aura) (index : Nat) : SpellAuraHolder :=
  { h with m_auras := Function.update h.m_auras index (some aura) }

/-- `SpellAuraHolder::RemoveAura`. -/
def SpellAuraHolder.RemoveAura (h : SpellAuraHolder) (index : Nat) : SpellAuraHolder :=
  { h with m_auras := Function.update h.m_auras index none }

/-- `SpellAuraHolder::GetCaster`. -/
def SpellAuraHolder.GetCaster (env : Env) (h : SpellAuraHolder) : Option Nat :=
  if h.m_casterGuid = h.m_target then some h.m_target
  else if env.GetUnit h.m_casterGuid then some h.m_casterGuid
  else none

/-- `SpellAuraHolder::IsPositive`. -/
def SpellAuraHolder.IsPositive (h : SpellAuraHolder) : Bool :=
  (List.range MAX_EFFECT_INDEX).all fun i =>
    match h.m_auras i with
    | some aur => aur.m_positive
    | none => true

/-- `SpellAuraHolder::IsPersistent`. -/
def SpellAuraHolder.IsPersistent (h : SpellAuraHolder) : Bool :=
  (List.range MAX_EFFECT_INDEX).any fun i =>
    match h.m_auras i with
    | some aur => aur.m_isPersistent
    | none => false

/-- The loop of `SpellAuraHolder::IsNeedVisibleSlot` from effect index `i`
on, `n` iterations left. -/
def IsNeedVisibleSlot_loop (c : Consts) (h : SpellAuraHolder) (caster : Option Nat)
    (totemAura : Bool) : Nat → Nat → Bool
  | 0, _ => !h.m_isPassive || totemAura
  | n + 1, i =>
    match h.m_auras i with
    | none => IsNeedVisibleSlot_loop c h caster totemAura n (i + 1)
    | some aur =>
      if h.m_spellProto.Effect i = c.SPELL_EFFECT_APPLY_AREA_AURA_PET ∨
          h.m_spellProto.Effect i = c.SPELL_EFFECT_APPLY_AREA_AURA_PARTY then
        (decide (some h.m_target ≠ caster) || totemAura || !h.m_isPassive) &&
          decide (aur.m_modifier.m_auraname ≠ SPELL_AURA_NONE)
      else IsNeedVisibleSlot_loop c h caster totemAura n (i + 1)

/-- `SpellAuraHolder::IsNeedVisibleSlot`. -/
def SpellAuraHolder.IsNeedVisibleSlot (c : Consts) (env : Env) (h : SpellAuraHolder)
    (caster : Option Nat) : Bool :=
  let totemAura := match caster with
    | some g => env.IsTotem g
    | none => false
  IsNeedVisibleSlot_loop c h caster totemAura MAX_EFFECT_INDEX 0

/-- Modelled from the spec: `SpellAuraHolder::SetAura` is an inline member of
SpellAuras.h, which is not among the sources. A visibility slot is free for
reuse when its aura field is 0 (the test `_AddSpellAuraHolder` makes), so
occupying a slot writes the holder's spell id into `UNIT_FIELD_AURA + slot`
and freeing it writes 0. -/
def SpellAuraHolder.SetAura (h : SpellAuraHolder) (t : UnitFields) (slot : Nat)
    (remove : Bool) : UnitFields :=
  { t with UNIT_FIELD_AURA :=
      Function.update t.UNIT_FIELD_AURA slot (if remove then 0 else h.m_spellProto.Id) }

/-- `SpellAuraHolder::SetAuraFlag`. -/
def SpellAuraHolder.SetAuraFlag (c : Consts) (h : SpellAuraHolder) (t : UnitFields) (slot : Nat)
    (add : Bool) : UnitFields :=
  let index := slot >>> 3
  let byte := (slot &&& 7) <<< 2
  let val := t.UNIT_FIELD_AURAFLAGS index
  let val := val &&& not32 (shl32 c.AFLAG_MASK_ALL byte)
  let val :=
    if add then
      let flags :=
        if h.IsPositive then
          (if !h.m_spellProto.HasAttribute .SPELL_ATTR_CANT_CANCEL then c.AFLAG_CANCELABLE
            else 0) ||| c.AFLAG_UNK3
        else c.AFLAG_UNK4
      val ||| shl32 flags byte
    else val
  { t with UNIT_FIELD_AURAFLAGS := Function.update t.UNIT_FIELD_AURAFLAGS index val }

/-- `SpellAuraHolder::SetAuraLevel`. -/
def SpellAuraHolder.SetAuraLevel (t : UnitFields) (slot level : Nat) : UnitFields :=
  let index := slot / 4
  let byte := (slot % 4) * 8
  let val := t.UNIT_FIELD_AURALEVELS index
  let val := val &&& not32 (shl32 255 byte)
  let val := val ||| shl32 level byte
  { t with UNIT_FIELD_AURALEVELS := Function.update t.UNIT_FIELD_AURALEVELS index val }

/-- `SpellAuraHolder::UpdateAuraApplication`. -/
def SpellAuraHolder.UpdateAuraApplication (c : Consts) (h : SpellAuraHolder) (t : UnitFields) :
    UnitFields :=
  if h.m_auraSlot ≥ c.MAX_AURAS then t
  else
    let stackCount :=
      if h.m_procCharges > 0 then (h.m_procCharges * h.m_stackAmount) % 4294967296
      else h.m_stackAmount
    let index := h.m_auraSlot / 4
    let byte := (h.m_auraSlot % 4) * 8
    let val := t.UNIT_FIELD_AURAAPPLICATIONS index
    let val := val &&& not32 (shl32 255 byte)
    let count8 := (if stackCount ≤ 255 then (stackCount + 4294967295) % 4294967296 else 254) % 256
    let val := val ||| shl32 count8 byte
    { t with UNIT_FIELD_AURAAPPLICATIONS :=
        Function.update t.UNIT_FIELD_AURAAPPLICATIONS index val }

/-- `SpellAuraHolder::UpdateAuraDuration`: the packet sent, if any. -/
def SpellAuraHolder.UpdateAuraDuration (c : Consts) (env : Env) (h : SpellAuraHolder) :
    List Event :=
  if h.m_auraSlot ≥ c.MAX_AURAS ∨ h.m_isPassive = true then []
  else if env.targetIsPlayer then [Event.updateAuraDuration h.m_auraSlot h.m_duration]
  else []

/-- `SpellAuraHolder::RefreshHolder`. -/
def SpellAuraHolder.RefreshHolder (c : Consts) (env : Env) (h : SpellAuraHolder) :
    SpellAuraHolder × List Event :=
  let h1 := { h with m_duration := h.m_maxDuration }
  (h1, h1.UpdateAuraDuration c env)

/-! ## Attaching and detaching a holder -/

/-- The slot search of `_AddSpellAuraHolder`: the first index of
`start, start + 1, ..., start + n - 1` whose aura field is 0, or
`NULL_AURA_SLOT` when the loop ends without a `break`. -/
def findFreeSlot (t : UnitFields) : Nat → Nat → Nat
  | _, 0 => NULL_AURA_SLOT
  | start, n + 1 =>
    if t.UNIT_FIELD_AURA start = 0 then start else findFreeSlot t (start + 1) n

/-- The field writes of `_AddSpellAuraHolder` once a slot was found
(`SetAura`, `SetAuraFlag`, `SetAuraLevel`, `UpdateAuraApplication`), for the
holder whose `m_auraSlot` is already set. -/
def SpellAuraHolder.writeFoundSlot (c : Consts) (env : Env) (h : SpellAuraHolder)
    (t : UnitFields) (slot : Nat) (caster : Option Nat) : UnitFields :=
  let t := h.SetAura t slot false
  let t := h.SetAuraFlag c t slot true
  let t := SpellAuraHolder.SetAuraLevel t slot
    (match caster with
      | some g => env.getLevel g
      | none => env.maxPlayerLevel)
  h.UpdateAuraApplication c t

/-- `SpellAuraHolder::_AddSpellAuraHolder`: holder, target fields and the
calls made on the target. The early return on a null target is never taken:
the constructor asserts the target. -/
def SpellAuraHolder._AddSpellAuraHolder (c : Consts) (env : Env) (h : SpellAuraHolder)
    (t : UnitFields) : SpellAuraHolder × UnitFields × List Event :=
  if h.m_spellProto.Id = 0 then (h, t, [])
  else
    let caster := h.GetCaster env
    let slot :=
      if h.IsNeedVisibleSlot c env caster then
        if h.IsPositive then findFreeSlot t 0 c.MAX_POSITIVE_AURAS
        else findFreeSlot t c.MAX_POSITIVE_AURAS (c.MAX_AURAS - c.MAX_POSITIVE_AURAS)
      else NULL_AURA_SLOT
    let h1 := { h with m_auraSlot := slot }
    let t1 := if slot < c.MAX_AURAS then h1.writeFoundSlot c env t slot caster else t
    let ev1 :=
      if slot < c.MAX_AURAS then Event.updateAuraForGroup slot :: h1.UpdateAuraDuration c env
      else []
    let sit : Bool :=
      decide (h1.m_spellProto.AuraInterruptFlags &&& c.AURA_INTERRUPT_FLAG_NOT_SEATED ≠ 0) &&
        !t1.IsSitState
    let t2 := if sit then { t1 with IsSitState := true } else t1
    let ev2 := if sit then [Event.setStandStateSit] else []
    let ev3 :=
      if h1.m_AuraDRGroup ≠ c.DIMINISHING_NONE then
        [Event.applyDiminishingAura h1.m_AuraDRGroup true]
      else []
    let ev4 :=
      if env.IsSealSpell h1.m_spellProto then [Event.modifyAuraState c.AURA_STATE_JUDGEMENT true]
      else []
    (h1, t2, ev1 ++ ev2 ++ ev3 ++ ev4)

/-- `SpellAuraHolder::CleanupTriggeredSpells`: the `RemoveAurasDueToSpell`
calls made on the target. -/
def SpellAuraHolder.CleanupTriggeredSpells (env : Env) (h : SpellAuraHolder) : List Event :=
  (List.range MAX_EFFECT_INDEX).flatMap fun i =>
    if h.m_spellProto.EffectApplyAuraName i = 0 then []
    else
      let tSpellId := h.m_spellProto.EffectTriggerSpell i
      if tSpellId = 0 then []
      else
        match env.LookupEntry tSpellId with
        | none => []
        | some tProto =>
          if env.GetSpellDuration tProto ≠ -1 then []
          else if h.m_spellProto.EffectApplyAuraName i = SPELL_AURA_PERIODIC_TRIGGER_SPELL ∧
              env.GetSpellDuration h.m_spellProto = toInt32 (h.m_spellProto.EffectAmplitude i) then []
          else [Event.removeAurasDueToSpell tSpellId]

/-- `SpellAuraHolder::_RemoveSpellAuraHolder`. -/
def SpellAuraHolder._RemoveSpellAuraHolder (c : Consts) (env : Env) (h : SpellAuraHolder)
    (t : UnitFields) : SpellAuraHolder × UnitFields × List Event :=
  let ev0 := if h.m_removeMode ≠ AURA_REMOVE_BY_STACK then h.CleanupTriggeredSpells env else []
  let caster := h.GetCaster env
  let ev1 :=
    match caster with
    | some g =>
      if h.IsPersistent ∧ env.GetDynObject g h.m_spellProto.Id = true then
        [Event.dynObjRemoveAffected h.m_spellProto.Id]
      else []
    | none => []
  let slot := h.m_auraSlot
  if slot ≥ c.MAX_AURAS then (h, t, ev0 ++ ev1)
  else if t.UNIT_FIELD_AURA slot = 0 then (h, t, ev0 ++ ev1)
  else
    let ev2 :=
      if h.m_AuraDRGroup ≠ c.DIMINISHING_NONE then
        [Event.applyDiminishingAura h.m_AuraDRGroup false]
      else []
    let t := h.SetAura t slot true
    let t := h.SetAuraFlag c t slot false
    let t := SpellAuraHolder.SetAuraLevel t slot
      (match caster with
        | some g => env.getLevel g
        | none => env.maxPlayerLevel)
    let h1 := { h with m_procCharges := 0, m_stackAmount := 1 }
    let t := h1.UpdateAuraApplication c t
    let ev3 :=
      if h1.m_removeMode ≠ AURA_REMOVE_BY_DELETE then
        let removeState :=
          if h1.m_spellProto.SpellFamilyName = c.SPELLFAMILY_PALADIN ∧
              env.IsSealSpell h1.m_spellProto = true then c.AURA_STATE_JUDGEMENT
          else 0
        [Event.updateAuraForGroup slot] ++
          (if removeState ≠ 0 ∧ env.targetHasFamilyHolder h1.m_spellProto = false then
            [Event.modifyAuraState removeState false]
          else []) ++
          (match caster with
            | some _ =>
              if h1.m_spellProto.HasAttribute .SPELL_ATTR_DISABLED_WHILE_ACTIVE then
                [Event.addCooldown h1.m_spellProto.Id]
              else []
            | none => [])
      else []
    (h1, t, ev0 ++ ev1 ++ ev2 ++ ev3)

/-! ## Applying modifiers and stacking -/

/-- `Aura::ApplyModifier`: the handler of the instance's aura type runs when
the type is below `TOTAL_AURAS`; the call is recorded with the instance it was
made on. -/
def Aura.ApplyModifier (c : Consts) (env : Env) (a : Aura) (apply real : Bool) :
    Aura × List Event :=
  if a.m_modifier.m_auraname < c.TOTAL_AURAS then
    (env.AuraHandler a.m_modifier.m_auraname apply real a, [Event.applyModifier a apply real])
  else (a, [])

/-- The body of the loop of `SpellAuraHolder::SetStackAmount` for one
non-null instance: `stackAmount` is the argument of `SetStackAmount`,
`oldStackAmount` the `int32` copy of the count before the call, and
`m_stackAmount` the count after it. -/
def SetStackAmount_aura (c : Consts) (env : Env) (proto : SpellEntry)
    (m_stackAmount stackAmount : Nat) (oldStackAmount : Int) (aur : Aura) : Aura × List Event :=
  let baseAmount := aur.m_modifier.m_baseAmount
  let amount := toInt32 ((m_stackAmount : Int) * baseAmount)
  if baseAmount = 0 ∨ amount ≠ aur.m_modifier.m_amount then
    let a1 := { aur with m_removeMode := AURA_REMOVE_BY_GAINED_STACK }
    let (a2, ev1) :=
      if env.IsAuraRemoveOnStacking proto a1.m_effIndex then a1.ApplyModifier c env false true
      else (a1, [])
    let a3 := { a2 with m_modifier := { a2.m_modifier with m_amount := amount } }
    let a4 := { a3 with m_modifier := { a3.m_modifier with
      m_recentAmount := toInt32 (baseAmount * ((stackAmount : Int) - oldStackAmount)) } }
    let (a5, ev2) := a4.ApplyModifier c env true true
    (a5, ev1 ++ ev2)
  else (aur, [])

/-- Runs `f` on the non-null instances of the slots `0, 1, 2` in this order
and collects the calls made. -/
def forEachAura (f : Aura → Aura × List Event) (auras : Nat → Option Aura) :
    (Nat → Option Aura) × List Event :=
  let step := fun (acc : (Nat → Option Aura) × List Event) (i : Nat) =>
    match acc.1 i with
    | none => acc
    | some aur => (Function.update acc.1 i (some (f aur).1), acc.2 ++ (f aur).2)
  (List.range MAX_EFFECT_INDEX).foldl step (auras, [])

/-- `SpellAuraHolder::SetStackAmount`. `none` is the null dereference
`newCaster->GetObjectGuid()` of a null `newCaster` that differs from the old
caster. The early return on a null target is never taken: the constructor
asserts the target. -/
def SpellAuraHolder.SetStackAmount (c : Consts) (env : Env) (h : SpellAuraHolder)
    (t : UnitFields) (stackAmount : Nat) (newCaster : Option Nat) :
    Option (SpellAuraHolder × UnitFields × List Event) :=
  let refreshed : Option (SpellAuraHolder × List Event) :=
    if stackAmount ≥ h.m_stackAmount then
      let oldCaster := h.GetCaster env
      if oldCaster ≠ newCaster then
        match newCaster with
        | none => none
        | some g => some (SpellAuraHolder.RefreshHolder c env { h with m_casterGuid := g })
      else some (h.RefreshHolder c env)
    else some (h, [])
  match refreshed with
  | none => none
  | some (h1, ev1) =>
    let oldStackAmount := toInt32 h1.m_stackAmount
    let h2 := if stackAmount ≠ h1.m_stackAmount then { h1 with m_stackAmount := stackAmount } else h1
    let t2 := if stackAmount ≠ h1.m_stackAmount then h2.UpdateAuraApplication c t else t
    let r := forEachAura
      (SetStackAmount_aura c env h2.m_spellProto h2.m_stackAmount stackAmount oldStackAmount)
      h2.m_auras
    some ({ h2 with m_auras := r.1 }, t2, ev1 ++ r.2)

/-- `SpellAuraHolder::ModStackAmount`: the returned flag ("need remove aura")
with the holder and the target fields afterwards. -/
def SpellAuraHolder.ModStackAmount (c : Consts) (env : Env) (h : SpellAuraHolder)
    (t : UnitFields) (num : Int) (newCaster : Option Nat) :
    Option (Bool × SpellAuraHolder × UnitFields × List Event) :=
  let protoStackAmount := h.m_spellProto.StackAmount
  if protoStackAmount = 0 then some (true, h, t, [])
  else
    let stackAmount := toInt32 ((h.m_stackAmount : Int) + num)
    if stackAmount > toInt32 protoStackAmount then
      (h.SetStackAmount c env t (toUInt32 (toInt32 protoStackAmount)) newCaster).map
        fun r => (false, r)
    else if stackAmount ≤ 0 then some (true, { h with m_stackAmount := 0 }, t, [])
    else (h.SetStackAmount c env t (toUInt32 stackAmount) newCaster).map fun r => (false, r)

/-- `SpellAuraHolder::ApplyAuraModifiers`, for a holder that no handler marks
deleted during the loop. -/
def SpellAuraHolder.ApplyAuraModifiers (c : Consts) (env : Env) (h : SpellAuraHolder)
    (apply real : Bool) : SpellAuraHolder × List Event :=
  if h.m_deleted then (h, [])
  else
    let r := forEachAura (fun aur => aur.ApplyModifier c env apply real) h.m_auras
    ({ h with m_auras := r.1 }, r.2)

/-! ## Per-tick update -/

/-- `AreaAura::Update`, as far as the instance and the calls on its own
target are concerned; `h` is the holder that owns the instance. On the
caster's own copy the satellite holders created on the units of
`env.areaCasterSide` are recorded as `areaAuraApplyTo`. -/
def AreaAura.Update (env : Env) (h : SpellAuraHolder) (a : Aura) (diff : Nat) :
    Aura × List Event :=
  let q := env.areaQuery h.m_casterGuid h.m_target a
  if h.m_casterGuid = h.m_target then
    let ev :=
      if !q.casterIsolated then (env.areaCasterSide h.m_target a).map Event.areaAuraApplyTo
      else []
    let r := a.Update diff
    (r.1, ev ++ r.2)
  else
    let caster := h.GetCaster env
    let r := a.Update diff
    let remove := [Event.removeSingleAuraOfCaster h.m_spellProto.Id a.m_effIndex h.m_casterGuid]
    if caster = none ∨ q.casterIsolated = true ∨ q.casterHasAura = false ∨ q.withinDist = false ∨
        q.canAssist ≠ true then (r.1, r.2 ++ remove)
    else if a.m_areaAuraType = .AREA_AURA_PARTY then
      if q.casterMasterIsTarget = false ∧ q.casterIsTargetMaster = false ∧
          q.casterIsPlayer = true then
        if q.casterHasGroup then
          if q.targetHasBeneficiary = false ∨ q.sameSubGroup = false then (r.1, r.2 ++ remove)
          else r
        else (r.1, r.2 ++ remove)
      else r
    else if q.casterMasterIsTarget = false then (r.1, r.2 ++ remove)
    else r

/-- `PersistentAreaAura::Update`. -/
def PersistentAreaAura.Update (env : Env) (h : SpellAuraHolder) (a : Aura) (diff : Nat) :
    Aura × List Event :=
  let q := env.areaQuery h.m_casterGuid h.m_target a
  let dynObj :=
    match h.GetCaster env with
    | some g => env.GetDynObject g h.m_spellProto.Id
    | none => false
  if dynObj then
    if q.outOfDynObjectRadius then
      (a, [Event.dynObjRemoveAffected h.m_spellProto.Id,
        Event.removeSingleAura h.m_spellProto.Id a.m_effIndex AURA_REMOVE_BY_DEFAULT])
    else a.Update diff
  else (a, [Event.removeSingleAura h.m_spellProto.Id a.m_effIndex AURA_REMOVE_BY_EXPIRE])

/-- Modelled from the spec: `Aura::UpdateAura` is an inline member of
SpellAuras.h, which is not among the sources. The holder's update ticks each
live instance through the `Update` of its variant: the area variant and the
persistent-area variant override `Update`, every other instance runs
`Aura::Update`. -/
def Aura.UpdateAura (env : Env) (h : SpellAuraHolder) (a : Aura) (diff : Nat) :
    Aura × List Event :=
  if a.m_isAreaAura then AreaAura.Update env h a diff
  else if a.m_isPersistent then PersistentAreaAura.Update env h a diff
  else a.Update diff

/-- The block `if (m_timeCla <= 0) { ... }` of `SpellAuraHolder::Update`, run
on the holder whose `m_timeCla` was already decremented: the value of
`m_timeCla` afterwards and the calls made on the caster. -/
def SpellAuraHolder.Update_timeCla (c : Consts) (env : Env) (h : SpellAuraHolder) :
    Int × List Event :=
  if h.m_timeCla ≤ 0 then
    match h.GetCaster env with
    | some caster =>
      if h.m_spellProto.SpellVisual ≠ 163 then
        let manaPerSecond : Int :=
          toInt32 ((h.m_spellProto.manaPerSecond +
            h.m_spellProto.manaPerSecondPerLevel * env.getLevel caster : Nat) : Int)
        (toInt32 ((1 * c.IN_MILLISECONDS : Nat) : Int),
          if manaPerSecond ≠ 0 then
            if h.m_spellProto.powerType = c.POWER_HEALTH then
              [Event.modifyHealth caster (toInt32 (-manaPerSecond))]
            else [Event.modifyPower caster h.m_spellProto.powerType (toInt32 (-manaPerSecond))]
          else [])
      else (h.m_timeCla, [])
    | none => (h.m_timeCla, [])
  else (h.m_timeCla, [])

/-- `SpellAuraHolder::Update(uint32 diff)`. -/
def SpellAuraHolder.Update (c : Consts) (env : Env) (h : SpellAuraHolder) (diff : Nat) :
    SpellAuraHolder × List Event :=
  if h.m_skipUpdate then ({ h with m_skipUpdate := false }, [])
  else
    let r := forEachAura (fun aura => aura.UpdateAura env h diff) h.m_auras
    let h1 := { h with m_auras := r.1 }
    if h1.m_duration > 0 then
      let d := toInt32 (h1.m_duration - (diff : Int))
      let h2 := { h1 with m_duration := if d < 0 then 0 else d }
      let h3 := { h2 with m_timeCla := toInt32 (h2.m_timeCla - (diff : Int)) }
      let cost := h3.Update_timeCla c env
      ({ h3 with m_timeCla := cost.1 }, r.2 ++ cost.2)
    else (h1, r.2)

/-- The holder after the `Update` calls with the given `diff`s, in order, and
all calls made. -/
def SpellAuraHolder.UpdateAll (c : Consts) (env : Env) :
    SpellAuraHolder → List Nat → SpellAuraHolder × List Event
  | h, [] => (h, [])
  | h, diff :: rest =>
    let r := h.Update c env diff
    let r2 := SpellAuraHolder.UpdateAll c env r.1 rest
    (r2.1, r.2 ++ r2.2)

/-! ## Handlers of the dispatch table used by the examples -/

/-- `Aura::HandlePeriodicDamage`, its effect on the instance. `loading` is
the "player is loading" test on the target, `caster` the result of
`GetCaster()`, and `bonus` the damage computation the handler delegates to the
caster (attack power terms of Rip and Rupture, `SpellDamageBonusDone` or
`MeleeDamageBonusDone`). -/
def Aura.HandlePeriodicDamage (loading : Bool) (caster : Option Nat) (bonus : Int → Int)
    (apply real : Bool) (a : Aura) : Aura :=
  if !real then a
  else
    let a1 := { a with m_isPeriodic := apply }
    if apply then
      if loading then a1
      else
        match caster with
        | none => a1
        | some _ =>
          { a1 with m_modifier := { a1.m_modifier with m_amount := bonus a1.m_modifier.m_amount } }
    else a1

/-- `Aura::HandlePeriodicLeech`, its effect on the instance; `bonus` is
`caster->SpellDamageBonusDone(...)` as a function of the current amount. -/
def Aura.HandlePeriodicLeech (loading : Bool) (caster : Option Nat) (bonus : Int → Int)
    (apply _real : Bool) (a : Aura) : Aura :=
  let a1 := { a with m_isPeriodic := apply }
  if apply then
    if loading then a1
    else
      match caster with
      | none => a1
      | some _ =>
        { a1 with m_modifier := { a1.m_modifier with m_amount := bonus a1.m_modifier.m_amount } }
  else a1

/-- The constructor `Aura::Aura`. `damage` is the value of `caster->CalculateSpellDamage(...)`
(`m_currentBasePoints` without a caster), `positive` that of
`IsPositiveAuraEffect`, and `periodicMod` what the caster's
`SPELLMOD_ACTIVATION_TIME` modifiers make of the period (the identity without
a modifier owner). -/
def Aura.ctor (spellproto : SpellEntry) (eff : Nat) (currentBasePoints damage : Int)
    (positive : Bool) (periodicMod : Nat → Nat) : Aura :=
  let a0 : Aura :=
    { m_modifier :=
        { m_auraname := 0, m_amount := 0, m_baseAmount := 0, m_recentAmount := 0,
          m_miscvalue := 0, periodictime := 0 }
      m_spellmod := none
      m_periodicTimer := 0
      m_periodicTick := 0
      m_removeMode := AURA_REMOVE_BY_DEFAULT
      m_effIndex := eff
      m_positive := positive
      m_isPeriodic := false
      m_isAreaAura := false
      m_isPersistent := false
      m_currentBasePoints := currentBasePoints
      m_areaAuraType := .AREA_AURA_PARTY
      m_originalRankSpellId := 0 }
  let a1 := a0.SetModifier (spellproto.EffectApplyAuraName eff) damage
    (spellproto.EffectAmplitude eff) (spellproto.EffectMiscValue eff)
  let a2 :=
    if a1.m_modifier.periodictime ≠ 0 then
      { a1 with m_modifier := { a1.m_modifier with
          periodictime := periodicMod a1.m_modifier.periodictime } }
    else a1
  { a2 with m_periodicTimer := toInt32 (a2.m_periodicTimer + (a2.m_modifier.periodictime : Int)) }

/-- Number of `PeriodicTick` calls in `evs` made by the instance of effect
index `eff`. -/
def tickCount (eff : Nat) (evs : List Event) : Nat :=
  (evs.filter fun e =>
    match e with
    | .periodicTick a => a.m_effIndex == eff
    | _ => false).length

/-- The amounts the `PeriodicTick` calls in `evs` saw, in call order. -/
def tickAmounts (evs : List Event) : List Int :=
  evs.filterMap fun e =>
    match e with
    | .periodicTick a => some a.m_modifier.m_amount
    | _ => none

/-! ## Concrete inputs for the examples -/

/-- A concrete choice of the header values (the numbers of the 1.12 client
data), used as input of the examples. -/
def sampleConsts : Consts :=
  { MAX_POSITIVE_AURAS := 32
    MAX_AURAS := 48
    TOTAL_AURAS := 192
    SPELL_EFFECT_APPLY_AREA_AURA_PARTY := 35
    SPELL_EFFECT_APPLY_AREA_AURA_PET := 119
    AFLAG_CANCELABLE := 1
    AFLAG_UNK3 := 4
    AFLAG_UNK4 := 8
    AFLAG_MASK_ALL := 15
    AURA_INTERRUPT_FLAG_NOT_SEATED := 262144
    DIMINISHING_NONE := 0
    AURA_STATE_JUDGEMENT := 5
    SPELLFAMILY_PALADIN := 10
    SPELLFAMILY_DRUID := 7
    IN_MILLISECONDS := 1000
    POWER_HEALTH := 4294967294 }

/-- A spell definition with every field 0 and no attribute. -/
def emptySpell : SpellEntry :=
  { Id := 0, StackAmount := 0, procCharges := 0, DurationIndex := 0, SpellVisual := 0,
    powerType := 0, manaPerSecond := 0, manaPerSecondPerLevel := 0, AuraInterruptFlags := 0,
    Stances := 0, SpellFamilyName := 0, Mechanic := 0, Effect := fun _ => 0,
    EffectApplyAuraName := fun _ => 0, EffectAmplitude := fun _ => 0,
    EffectMiscValue := fun _ => 0, EffectTriggerSpell := fun _ => 0,
    EffectMechanic := fun _ => 0, HasAttribute := fun _ => false }

/-- A world for the examples: every guid resolves to a level 60 unit that is
no totem, the target is a creature, spells last `duration` ms, the caster adds
`bonus` to periodic damage and leech amounts, and every other handler leaves
the instance as it is. -/
def sampleEnv (duration : Int) (bonus : Int) : Env :=
  { GetUnit := fun _ => true
    getLevel := fun _ => 60
    IsTotem := fun _ => false
    targetIsPlayer := false
    maxPlayerLevel := 60
    AuraHandler := fun n apply real a =>
      if n = SPELL_AURA_PERIODIC_DAMAGE then
        a.HandlePeriodicDamage false (some 9) (fun x => x + bonus) apply real
      else if n = SPELL_AURA_PERIODIC_LEECH then
        a.HandlePeriodicLeech false (some 9) (fun x => x + bonus) apply real
      else a
    IsAuraRemoveOnStacking := fun _ _ => true
    IsSealSpell := fun _ => false
    IsPassiveSpell := fun _ => false
    IsDeathPersistentSpell := fun _ => false
    CalculateSpellDuration := fun _ _ => duration
    GetSpellDuration := fun _ => duration
    ApplySpellModCharges := fun _ _ n => n
    LookupEntry := fun _ => none
    GetDynObject := fun _ _ => false
    targetHasFamilyHolder := fun _ => false
    areaQuery := fun _ _ _ =>
      { casterIsolated := false, casterHasAura := true, withinDist := true, canAssist := true,
        casterMasterIsTarget := false, casterIsTargetMaster := false, casterIsPlayer := true,
        casterHasGroup := true, targetHasBeneficiary := true, sameSubGroup := true,
        outOfDynObjectRadius := false }
    areaCasterSide := fun _ _ => [] }

/-- A periodic damage definition: effect 0 is `SPELL_AURA_PERIODIC_DAMAGE`
with a period of 2000 ms. -/
def dotSpell : SpellEntry :=
  { emptySpell with
    Id := 172
    EffectApplyAuraName := fun i => if i = 0 then SPELL_AURA_PERIODIC_DAMAGE else 0
    EffectAmplitude := fun i => if i = 0 then 2000 else 0 }

/-- The holder of `dotSpell` cast by unit 9 on unit 7 with magnitude 10 and a
duration of 6000 ms, after its instance was added and really applied. -/
def dotHolder : SpellAuraHolder :=
  (((CreateSpellAuraHolder sampleConsts (sampleEnv 6000 0) dotSpell 7 (some 9)).AddAura
    (Aura.ctor dotSpell 0 10 10 false id) 0).ApplyAuraModifiers sampleConsts (sampleEnv 6000 0)
      true true).1

/-- State of a holder whose slot `i` carries a plain periodic instance of
period `P`, after `e` ms of a total duration `D` have elapsed and `k` ticks
have fired: the timer shows the time left to tick `k + 1`. -/
def PeriodicInv (P : Nat) (D : Int) (i : Nat) (e : Int) (k : Nat) (h : SpellAuraHolder) : Prop :=
  h.m_skipUpdate = false ∧ h.m_duration = D - e ∧
    (∀ j b, j < 3 → h.m_auras j = some b → b.m_effIndex = j) ∧
    ∃ a, h.m_auras i = some a ∧ a.m_isPeriodic = true ∧ a.m_isAreaAura = false ∧
      a.m_isPersistent = false ∧ a.m_modifier.periodictime = P ∧
      0 < a.m_periodicTimer ∧ a.m_periodicTimer ≤ P ∧
      a.m_periodicTimer = (P : Int) * (k + 1) - e ∧ a.m_periodicTick = k

/-- The instance of `dotHolder`: effect 0 of `dotSpell` with magnitude 10,
after its real application. -/
def dotAura : Aura :=
  ((Aura.ctor dotSpell 0 10 10 false id).ApplyModifier sampleConsts (sampleEnv 6000 0) true true).1

/-- Target fields with no visible aura and a standing target. -/
def noAuraFields : UnitFields :=
  { UNIT_FIELD_AURA := fun _ => 0
    UNIT_FIELD_AURAFLAGS := fun _ => 0
    UNIT_FIELD_AURALEVELS := fun _ => 0
    UNIT_FIELD_AURAAPPLICATIONS := fun _ => 0
    IsSitState := false }

def SPELL_AURA_MOD_STAT : Nat := 29

/-- A stackable stat buff: effect 0 is `SPELL_AURA_MOD_STAT`, stack cap 5. -/
def statBuff : SpellEntry :=
  { emptySpell with
    Id := 15366
    StackAmount := 5
    EffectApplyAuraName := fun i => if i = 0 then SPELL_AURA_MOD_STAT else 0 }

/-- The holder of `statBuff` cast by unit 9 on unit 7 with magnitude 2 per
stack, after its instance was added and really applied. -/
def statHolder : SpellAuraHolder :=
  (((CreateSpellAuraHolder sampleConsts (sampleEnv 6000 0) statBuff 7 (some 9)).AddAura
    (Aura.ctor statBuff 0 2 2 true id) 0).ApplyAuraModifiers sampleConsts (sampleEnv 6000 0)
      true true).1

/-- A stackable periodic leech: effect 0 is `SPELL_AURA_PERIODIC_LEECH` with a
period of 3000 ms, stack cap 5. -/
def leechSpell : SpellEntry :=
  { emptySpell with
    Id := 16414
    StackAmount := 5
    EffectApplyAuraName := fun i => if i = 0 then SPELL_AURA_PERIODIC_LEECH else 0
    EffectAmplitude := fun i => if i = 0 then 3000 else 0 }

/-- The holder of `leechSpell` cast by unit 9, whose damage bonus adds 5, on
unit 7 with magnitude 10, after its instance was added and really applied. -/
def leechHolder : SpellAuraHolder :=
  (((CreateSpellAuraHolder sampleConsts (sampleEnv 6000 5) leechSpell 7 (some 9)).AddAura
    (Aura.ctor leechSpell 0 10 10 false id) 0).ApplyAuraModifiers sampleConsts (sampleEnv 6000 5)
      true true).1

/-- Brittle Armor, one of the definitions the holder constructor applies at
its full stack; stack cap 5. -/
def brittleArmor : SpellEntry :=
  { emptySpell with
    Id := 24575
    StackAmount := 5
    EffectApplyAuraName := fun i => if i = 0 then 22 else 0 }

/-- The `(apply, real)` flags of the `ApplyModifier` calls in `evs`, in call
order. -/
def applyFlags (evs : List Event) : List (Bool × Bool) :=
  evs.filterMap fun e =>
    match e with
    | .applyModifier _ apply real => some (apply, real)
    | _ => none

/-- The result of `SetStackAmount(2, unit 9)` on `statHolder`. -/
def statHolderTwice : SpellAuraHolder × UnitFields × List Event :=
  (statHolder.SetStackAmount sampleConsts (sampleEnv 6000 0) noAuraFields 2 (some 9)).getD
    (statHolder, noAuraFields, [])

/-- The holder of `statBuff` with a magnitude of 0 per stack, after the
effect instance was added and really applied. -/
def zeroStatHolder : SpellAuraHolder :=
  (((CreateSpellAuraHolder sampleConsts (sampleEnv 6000 0) statBuff 7 (some 9)).AddAura
    (Aura.ctor statBuff 0 0 0 true id) 0).ApplyAuraModifiers sampleConsts (sampleEnv 6000 0)
      true true).1

/-- The four-bit flag group of visibility slot `slot` in the target's
`UNIT_FIELD_AURAFLAGS` words. -/
def auraFlagGroup (t : UnitFields) (slot : Nat) : Nat :=
  (t.UNIT_FIELD_AURAFLAGS (slot >>> 3) >>> ((slot &&& 7) <<< 2)) &&& 15

/-- The slot `_AddSpellAuraHolder` chooses for holder `h` on a target with
fields `t`. -/
def SpellAuraHolder.chosenSlot (c : Consts) (env : Env) (h : SpellAuraHolder) (t : UnitFields) :
    Nat :=
  if h.IsNeedVisibleSlot c env (h.GetCaster env) then
    if h.IsPositive then findFreeSlot t 0 c.MAX_POSITIVE_AURAS
    else findFreeSlot t c.MAX_POSITIVE_AURAS (c.MAX_AURAS - c.MAX_POSITIVE_AURAS)
  else NULL_AURA_SLOT

/-- Target fields on which spell 1459 occupies the visibility slots 0 and 1
and every other slot is free. -/
def busyFields : UnitFields :=
  { noAuraFields with UNIT_FIELD_AURA := fun i => if i < 2 then 1459 else 0 }

/-! ## Second group of definitions: regeneration handlers, area instances -/

def SPELL_AURA_OBS_MOD_HEALTH : Nat := 20

def SPELL_AURA_OBS_MOD_MANA : Nat := 21

def SPELL_AURA_MOD_REGEN : Nat := 84

def SPELL_AURA_MOD_POWER_REGEN : Nat := 85

/-- `SpellAuraHolder::SetCreationDelayFlag`. -/
def SpellAuraHolder.SetCreationDelayFlag (h : SpellAuraHolder) : SpellAuraHolder :=
  { h with m_skipUpdate := true }

/-- `Aura::HandleAuraModTotalHealthPercentRegen` (table entry 20). -/
def Aura.HandleAuraModTotalHealthPercentRegen (apply _real : Bool) (a : Aura) : Aura :=
  { a with m_isPeriodic := apply }

/-- `Aura::HandleAuraModTotalManaPercentRegen` (table entry 21), its effect on
the instance; the AI event sent for spell 30024 on removal does not touch it. -/
def Aura.HandleAuraModTotalManaPercentRegen (apply _real : Bool) (a : Aura) : Aura :=
  let a1 :=
    if a.m_modifier.periodictime = 0 then
      { a with m_modifier := { a.m_modifier with periodictime := 1000 } }
    else a
  let a2 := { a1 with m_periodicTimer := toInt32 (a1.m_modifier.periodictime : Int) }
  { a2 with m_isPeriodic := apply }

/-- `Aura::HandleModRegen` (table entry 84, eating). -/
def Aura.HandleModRegen (apply _real : Bool) (a : Aura) : Aura :=
  let a1 :=
    if a.m_modifier.periodictime = 0 then
      { a with m_modifier := { a.m_modifier with periodictime := 5000 } }
    else a
  let a2 := { a1 with m_periodicTimer := 5000 }
  { a2 with m_isPeriodic := apply }

/-- `Aura::HandleModPowerRegen` (table entry 85, drinking), its effect on the
instance; `targetUsesRage` is the test `GetTarget()->GetPowerType() ==
POWER_RAGE`. The call of `UpdateManaRegen` on a player target does not touch
the instance. -/
def Aura.HandleModPowerRegen (targetUsesRage : Bool) (apply real : Bool) (a : Aura) : Aura :=
  if !real then a
  else
    let a1 :=
      if a.m_modifier.periodictime = 0 then
        if targetUsesRage then { a with m_modifier := { a.m_modifier with periodictime := 3000 } }
        else { a with m_modifier := { a.m_modifier with periodictime := 2000 } }
      else a
    let a2 := { a1 with m_periodicTimer := 5000 }
    { a2 with m_isPeriodic := apply }

/-- The instance after the `Aura::Update` calls with the given `diff`s, in
order, and the `PeriodicTick` calls made. -/
def Aura.UpdateAll : Aura → List Nat → Aura × List Event
  | a, [] => (a, [])
  | a, diff :: rest =>
    let r := a.Update diff
    let r2 := Aura.UpdateAll r.1 rest
    (r2.1, r.2 ++ r2.2)

/-- The constructor `AreaAura::AreaAura`; `none` is the failed assertion on
an effect that is neither of the two area aura effects. `targetIsTotem` is
the test `target->GetTypeId() == TYPEID_UNIT && target->IsTotem()`. -/
def AreaAura.ctor (c : Consts) (spellproto : SpellEntry) (eff : Nat)
    (currentBasePoints damage : Int) (positive : Bool) (periodicMod : Nat → Nat)
    (targetIsTotem : Bool) (originalRankSpellId : Nat) : Option Aura :=
  let a0 := Aura.ctor spellproto eff currentBasePoints damage positive periodicMod
  let a1 := { a0 with m_originalRankSpellId := originalRankSpellId, m_isAreaAura := true }
  let kind : Option AreaAuraType :=
    if spellproto.Effect eff = c.SPELL_EFFECT_APPLY_AREA_AURA_PARTY then some .AREA_AURA_PARTY
    else if spellproto.Effect eff = c.SPELL_EFFECT_APPLY_AREA_AURA_PET then some .AREA_AURA_PET
    else none
  kind.map fun k =>
    let a2 := { a1 with m_areaAuraType := k }
    if targetIsTotem then { a2 with m_modifier := { a2.m_modifier with m_auraname := SPELL_AURA_NONE } }
    else a2

/-- A world like `sampleEnv` whose dispatch table also knows the four
regeneration handlers; targets do not use rage. -/
def regenEnv (duration : Int) : Env :=
  { sampleEnv duration 0 with
    AuraHandler := fun n apply real a =>
      if n = SPELL_AURA_PERIODIC_DAMAGE then
        a.HandlePeriodicDamage false (some 9) (fun x => x) apply real
      else if n = SPELL_AURA_OBS_MOD_HEALTH then a.HandleAuraModTotalHealthPercentRegen apply real
      else if n = SPELL_AURA_OBS_MOD_MANA then a.HandleAuraModTotalManaPercentRegen apply real
      else if n = SPELL_AURA_MOD_REGEN then a.HandleModRegen apply real
      else if n = SPELL_AURA_MOD_POWER_REGEN then a.HandleModPowerRegen false apply real
      else a }

/-- A party area aura: effect 0 applies `SPELL_AURA_OBS_MOD_HEALTH` to the
party every 1000 ms. -/
def partyRegenSpell : SpellEntry :=
  { emptySpell with
    Id := 5672
    Effect := fun i => if i = 0 then sampleConsts.SPELL_EFFECT_APPLY_AREA_AURA_PARTY else 0
    EffectApplyAuraName := fun i => if i = 0 then SPELL_AURA_OBS_MOD_HEALTH else 0
    EffectAmplitude := fun i => if i = 0 then 1000 else 0 }

/-- The instance of `partyRegenSpell` that the caster's copy placed on an
ally, after its real application. -/
def partyRegenAura : Aura :=
  (((AreaAura.ctor sampleConsts partyRegenSpell 0 1 1 true id false 0).getD
    (Aura.ctor partyRegenSpell 0 1 1 true id)).ApplyModifier sampleConsts (regenEnv 60000)
      true true).1

/-- The holder of `partyRegenSpell` that unit 9 (the caster) placed on the
ally 7, with its instance. -/
def partyRegenHolder : SpellAuraHolder :=
  (CreateSpellAuraHolder sampleConsts (regenEnv 60000) partyRegenSpell 7 (some 9)).AddAura
    partyRegenAura 0

/-- The world of `regenEnv` after the ally left the caster's group: the ally
is still in range and can be assisted, the caster has a group, the ally is a
player outside the caster's sub-group. -/
def leftGroupEnv : Env :=
  { regenEnv 60000 with
    areaQuery := fun _ _ _ =>
      { casterIsolated := false, casterHasAura := true, withinDist := true, canAssist := true,
        casterMasterIsTarget := false, casterIsTargetMaster := false, casterIsPlayer := true,
        casterHasGroup := true, targetHasBeneficiary := true, sameSubGroup := false,
        outOfDynObjectRadius := false } }

/-- An instance whose effect type is `TOTAL_AURAS` of `sampleConsts`, one past
the last entry of the dispatch table. -/
def outOfRangeAura : Aura :=
  { dotAura with m_modifier := { dotAura.m_modifier with m_auraname := sampleConsts.TOTAL_AURAS } }

/-- Modelled from the spec: `CalculateSpellDuration` belongs to the spell
manager, which is not among the sources. The spec reads `DurationIndex` 0 as
"no duration field" with a duration of 0, so for such a definition the
computed duration is not positive. -/
def Env.NoDurationField (env : Env) : Prop :=
  ∀ (sp : SpellEntry) (caster : Option Nat),
    sp.DurationIndex = 0 → env.CalculateSpellDuration sp caster ≤ 0

/-- A world in which every spell is passive and has a computed duration
of 0. -/
def passiveEnv : Env :=
  { sampleEnv 0 0 with IsPassiveSpell := fun _ => true }

/-- The holders of definition `sp` that the constructor, `AddAura`,
`ModStackAmount` (with the `SetStackAmount` call it makes), `Update` and
`_RemoveSpellAuraHolder` can produce. -/
inductive Reachable (c : Consts) (env : Env) (sp : SpellEntry) : SpellAuraHolder → Prop
  | ctor (target : Nat) (caster : Option Nat) :
      Reachable c env sp (CreateSpellAuraHolder c env sp target caster)
  | addAura (h : SpellAuraHolder) (aura : Aura) (index : Nat) :
      Reachable c env sp h → Reachable c env sp (h.AddAura aura index)
  | modStackAmount (h : SpellAuraHolder) (t : UnitFields) (num : Int) (newCaster : Option Nat)
      (r : Bool × SpellAuraHolder × UnitFields × List Event) :
      Reachable c env sp h → h.ModStackAmount c env t num newCaster = some r →
      Reachable c env sp r.2.1
  | update (h : SpellAuraHolder) (diff : Nat) :
      Reachable c env sp h → Reachable c env sp (h.Update c env diff).1
  | remove (h : SpellAuraHolder) (t : UnitFields) :
      Reachable c env sp h → Reachable c env sp (h._RemoveSpellAuraHolder c env t).1

/-- A drink: effect 0 is `SPELL_AURA_MOD_POWER_REGEN` with a period of
2000 ms. -/
def drinkSpell : SpellEntry :=
  { emptySpell with
    Id := 430
    EffectApplyAuraName := fun i => if i = 0 then SPELL_AURA_MOD_POWER_REGEN else 0
    EffectAmplitude := fun i => if i = 0 then 2000 else 0 }

/-- The instance of `drinkSpell` with magnitude 8, after its real
application. -/
def drinkAura : Aura :=
  ((Aura.ctor drinkSpell 0 8 8 true id).ApplyModifier sampleConsts (regenEnv 30000) true true).1

/-- The holder of `drinkSpell` cast by unit 7 on itself, lasting 6000 ms,
after its instance was added and really applied. -/
def drinkHolder : SpellAuraHolder :=
  (((CreateSpellAuraHolder sampleConsts (regenEnv 6000) drinkSpell 7 (some 7)).AddAura
    (Aura.ctor drinkSpell 0 8 8 true id) 0).ApplyAuraModifiers sampleConsts (regenEnv 6000)
      true true).1

/-! ## Handlers that act on the target -/

/-- The unit flags the modelled handlers set and clear (`UNIT_FLAG_*` live in
`UNIT_FIELD_FLAGS`, `UNIT_DYNFLAG_TRACK_UNIT` in `UNIT_DYNAMIC_FLAGS`). -/
inductive TargetFlag
  | UNIT_FLAG_SILENCED
  | UNIT_FLAG_PACIFIED
  | UNIT_DYNFLAG_TRACK_UNIT
  deriving DecidableEq, Repr

/-- Calls a handler makes on the target, the caster and the caster's AI, in
call order. -/
inductive HandlerCall
  | setFlag (flag : TargetFlag)
  | removeFlag (flag : TargetFlag)
  | castSpell (caster target spellId : Nat)
  | castCustomSpell (target spellId : Nat) (bp0 : Int)
  | modifyAuraStateFrozen (apply : Bool)
  | setStunned (caster : Option Nat) (spellId : Nat)
  | clearStunned
  | justStunnedTarget (caster : Nat)
  | justRootedTarget (caster : Nat)
  | handleSuppressed (apply : Bool)
  | setImmobilizedState (apply : Bool)
  | interruptSpell (current : Nat)
  | handleStatModifier (stat : Nat) (amount : Int) (apply : Bool)
  | applyStatBuffMod (stat : Nat) (amount : Int) (apply : Bool)
  | removeAurasTriggeredBySpell (spellId casterGuid : Nat)
  deriving DecidableEq, Repr

/-- What a handler call finds in the world: the ids of its holder, the
answers of the definition, the target and the caster, and the header values
`STAT_STRENGTH` and `MAX_STATS`. `silencedCasts` are the indices of the
target's current spells whose prevention type is silence, `classScripts` the
misc values of the target's `SPELL_AURA_OVERRIDE_CLASS_SCRIPTS` auras. -/
structure HandlerQuery where
  spellId : Nat
  target : Nat
  casterGuid : Nat
  caster : Option Nat
  casterHasAI : Bool
  casterIsPlayer : Bool
  isFrost : Bool
  interruptOnDamage : Bool
  otherFrozenAura : Bool
  targetHasAuraType : Bool
  isWyvernSting : Bool
  spellExists : Nat → Bool
  silencedCasts : List Nat
  fitsFamilyMask : Bool
  classScripts : List Int
  targetIsPlayer : Bool
  STAT_STRENGTH : Nat
  MAX_STATS : Nat

/-- A target 7 with caster 9 of spell `spellId`: nothing else is going on. -/
def plainQuery (spellId : Nat) : HandlerQuery :=
  { spellId := spellId, target := 7, casterGuid := 9, caster := some 9, casterHasAI := false,
    casterIsPlayer := true, isFrost := false, interruptOnDamage := false,
    otherFrozenAura := false, targetHasAuraType := false, isWyvernSting := false,
    spellExists := fun _ => true, silencedCasts := [], fitsFamilyMask := false,
    classScripts := [], targetIsPlayer := true, STAT_STRENGTH := 0, MAX_STATS := 5 }

/-- `Aura::HandleAuraModStat` (table entry 29): the calls it makes. `none`
means that the call does not return: the loop over the target's class-script
auras never advances its iterator, so it spins as soon as that list is not
empty (with an empty list `staminaToRemove` stays 0 and nothing is cast). The
amount is recorded as the `int32` that the code converts to `float`. -/
def Aura.HandleAuraModStat (q : HandlerQuery) (apply _real : Bool) (a : Aura) :
    Option (List HandlerCall) :=
  if a.m_modifier.m_miscvalue < -2 ∨ a.m_modifier.m_miscvalue > 4 then some []
  else
    let family : Option (List HandlerCall) :=
      if q.fitsFamilyMask then
        if apply then
          if q.classScripts = [] then some [] else none
        else some [HandlerCall.removeAurasTriggeredBySpell q.spellId q.casterGuid]
      else some []
    family.map fun calls =>
      calls ++
        ((List.range q.MAX_STATS).filter fun i => decide (q.STAT_STRENGTH ≤ i)).flatMap fun i =>
          if a.m_modifier.m_miscvalue < 0 ∨ a.m_modifier.m_miscvalue = (i : Int) then
            [HandlerCall.handleStatModifier i a.m_modifier.m_amount apply] ++
              (if q.targetIsPlayer then
                [HandlerCall.applyStatBuffMod i a.m_modifier.m_amount apply]
              else [])
          else []

/-- Modelled from the spec: `Unit::HandleStatModifier` is not among the
sources. The stat delta a list of handler calls leaves on stat `stat` of the
target: a call with `apply` adds its amount to the stat's total-value
modifier, a call without `apply` takes it off again. -/
def statDelta (stat : Nat) (calls : List HandlerCall) : Int :=
  (calls.map fun call =>
    match call with
    | .handleStatModifier s amount apply =>
      if s = stat then (if apply then amount else -amount) else 0
    | _ => 0).sum

/-- The calls `HandleAuraModStat` makes during the `ApplyModifier` calls of
`evs` on instances of type `SPELL_AURA_MOD_STAT`, in order; `none` when one of
them does not return. -/
def statHandlerCalls (q : HandlerQuery) : List Event → Option (List HandlerCall)
  | [] => some []
  | .applyModifier a apply real :: rest =>
    if a.m_modifier.m_auraname = SPELL_AURA_MOD_STAT then
      match a.HandleAuraModStat q apply real, statHandlerCalls q rest with
      | some c1, some c2 => some (c1 ++ c2)
      | _, _ => none
    else statHandlerCalls q rest
  | _ :: rest => statHandlerCalls q rest

/-- Calls `ModStackAmount(+1, newCaster)` `k` times in a row: the holder and
the target fields after the last call and all calls made. -/
def ModStackAmount_trace (c : Consts) (env : Env) (newCaster : Option Nat) :
    Nat → SpellAuraHolder → UnitFields → Option (SpellAuraHolder × UnitFields × List Event)
  | 0, h, t => some (h, t, [])
  | k + 1, h, t =>
    match h.ModStackAmount c env t 1 newCaster with
    | none => none
    | some (_, h1, t1, ev) =>
      (ModStackAmount_trace c env newCaster k h1 t1).map fun r => (r.1, r.2.1, ev ++ r.2.2)

/-- State of a holder of definition `sp` whose only instance is a stat effect
in slot 0 with magnitude 2 per stack, at stack count `s`. -/
def StatInv (sp : SpellEntry) (s : Nat) (h : SpellAuraHolder) : Prop :=
  h.m_spellProto = sp ∧ h.m_stackAmount = s ∧
    h.m_auras 1 = none ∧ h.m_auras 2 = none ∧
    ∃ a, h.m_auras 0 = some a ∧ a.m_modifier.m_auraname = SPELL_AURA_MOD_STAT ∧
      a.m_modifier.m_baseAmount = 2 ∧ a.m_modifier.m_amount = 2 * (s : Int) ∧
      a.m_modifier.m_miscvalue = sp.EffectMiscValue 0 ∧ a.m_effIndex = 0

/-- The first real application of the effect 0 of `sp` by caster `g` on
`target` with magnitude `damage`: the holder is constructed, the instance is
added to slot 0 and the modifiers are applied. The holder afterwards and the
calls made. -/
def firstApplication (c : Consts) (env : Env) (sp : SpellEntry) (target g : Nat)
    (bp damage : Int) (positive : Bool) (periodicMod : Nat → Nat) :
    SpellAuraHolder × List Event :=
  ((CreateSpellAuraHolder c env sp target (some g)).AddAura
    (Aura.ctor sp 0 bp damage positive periodicMod) 0).ApplyAuraModifiers c env true true

/-! ## Third group of definitions -/

/-- The flags `SetAuraFlag` puts into the group of a slot: `flags` of the code
when `add` is set, nothing otherwise. -/
def SpellAuraHolder.auraFlags (c : Consts) (h : SpellAuraHolder) (add : Bool) : Nat :=
  if add then
    if h.IsPositive then
      (if !h.m_spellProto.HasAttribute .SPELL_ATTR_CANT_CANCEL then c.AFLAG_CANCELABLE else 0) |||
        c.AFLAG_UNK3
    else c.AFLAG_UNK4
  else 0

/-- The `uint32 stackCount` of `UpdateAuraApplication`. -/
def SpellAuraHolder.stackCount (h : SpellAuraHolder) : Nat :=
  if h.m_procCharges > 0 then (h.m_procCharges * h.m_stackAmount) % 4294967296
  else h.m_stackAmount

/-- The stat buff holder in visibility slot 6 with 3 proc charges and 2
stacks. -/
def chargedHolder : SpellAuraHolder :=
  { statHolder with m_auraSlot := 6, m_procCharges := 3, m_stackAmount := 2 }

/-- Target fields whose application word 1 is `0x04030201` and whose flag
word 0 is `0x87654321`. -/
def patternFields : UnitFields :=
  { noAuraFields with
    UNIT_FIELD_AURAFLAGS := fun i => if i = 0 then 2271560481 else 0
    UNIT_FIELD_AURAAPPLICATIONS := fun i => if i = 1 then 67305985 else 0 }

/-- `SpellAuraHolder::IsAreaAura`. -/
def SpellAuraHolder.IsAreaAura (h : SpellAuraHolder) : Bool :=
  (List.range MAX_EFFECT_INDEX).any fun i =>
    match h.m_auras i with
    | some aur => aur.m_isAreaAura
    | none => false

/-- `SpellAuraHolder::DropAuraCharge`: the returned flag, the holder and the
target fields afterwards, and the call made on the caster. `--m_procCharges`
is a `uint32` decrement; the assignment `spellMod->charges = m_procCharges` is
taken to store the value (the type of `charges` is declared in a header that
is not among the sources). -/
def SpellAuraHolder.DropAuraCharge (c : Consts) (env : Env) (h : SpellAuraHolder)
    (t : UnitFields) : Bool × SpellAuraHolder × UnitFields × List Event :=
  if h.m_procCharges = 0 then (false, h, t, [])
  else
    let h1 : SpellAuraHolder :=
      { h with m_procCharges := (h.m_procCharges + 4294967295) % 4294967296 }
    let auras := (forEachAura
      (fun aur =>
        ({ aur with
            m_spellmod := aur.m_spellmod.map fun (m : SpellModifier) =>
              { m with charges := h1.m_procCharges } },
          []))
      h1.m_auras).1
    let h2 : SpellAuraHolder := { h1 with m_auras := auras }
    let t2 := h2.UpdateAuraApplication c t
    let ev :=
      if h2.m_casterGuid ≠ h2.m_target ∧ h2.IsAreaAura = true then
        match h2.GetCaster env with
        | some caster => [Event.removeAuraCharge caster h2.m_spellProto.Id]
        | none => []
      else []
    (h2.m_procCharges == 0, h2, t2, ev)

/-- The stat buff holder with `n` proc charges, whose instance carries a spell
modifier with 7 charges. -/
def modHolder (n : Nat) : SpellAuraHolder :=
  { statHolder with
    m_procCharges := n
    m_auras := fun i =>
      (statHolder.m_auras i).map fun aur => { aur with m_spellmod := some { charges := 7 } } }

/-- The `int` expression `1 << n` for a `uint32` count `n`, as the `uint32`
it converts to: `none` when the count is 32 or more, where the language leaves
the shift undefined. -/
def shlOne (n : Nat) : Option Nat :=
  if n < 32 then some (2 ^ n) else none

/-- The `uint32` subtraction `x - 1`. -/
def dec32 (x : Nat) : Nat := (x + 4294967295) % 4294967296

/-- One iteration of the loop of `SpellAuraHolder::HasMechanicMask`, for
effect index `i`: `some true` when the function returns true there,
`some false` when the loop goes on, `none` when the shift is undefined. -/
def HasMechanicMask_slot (h : SpellAuraHolder) (mechanicMask i : Nat) : Option Bool :=
  if (h.m_auras i).isSome ∧ h.m_spellProto.EffectMechanic i ≠ 0 then
    (shlOne (dec32 (h.m_spellProto.EffectMechanic i))).map fun b =>
      decide (b &&& mechanicMask ≠ 0)
  else some false

/-- The loop of `SpellAuraHolder::HasMechanicMask` over the effect indices
`is`, in order. -/
def HasMechanicMask_loop (h : SpellAuraHolder) (mechanicMask : Nat) : List Nat → Option Bool
  | [] => some false
  | i :: rest =>
    match HasMechanicMask_slot h mechanicMask i with
    | none => none
    | some true => some true
    | some false => HasMechanicMask_loop h mechanicMask rest

/-- `SpellAuraHolder::HasMechanicMask`; `none` when the call evaluates an
undefined shift. `Mechanic - 1` is a `uint32` subtraction. -/
def SpellAuraHolder.HasMechanicMask (h : SpellAuraHolder) (mechanicMask : Nat) : Option Bool :=
  (shlOne (dec32 h.m_spellProto.Mechanic)).bind fun b =>
    if mechanicMask &&& b ≠ 0 then some true
    else HasMechanicMask_loop h mechanicMask (List.range MAX_EFFECT_INDEX)

/-- One run of the `switch` in the class-script loop of `HandleAuraModStat`:
the value of `staminaToRemove` after it, for an element with misc value
`misc`. The division is the truncating `int32` division. -/
def classScriptStamina (amount misc staminaToRemove : Int) : Int :=
  if misc = 2388 then Int.tdiv (toInt32 (amount * 10)) 100
  else if misc = 2389 then Int.tdiv (toInt32 (amount * 20)) 100
  else if misc = 2390 then Int.tdiv (toInt32 (amount * 30)) 100
  else staminaToRemove

/-- The loop `for (itr = begin; itr != end;) { switch ... }` of
`HandleAuraModStat` run for at most `fuel` iterations with the iterator at
position `itr`: the final `staminaToRemove`, or `none` when the loop has not
ended by then. The `for` has no increment and the body does not touch `itr`,
so every iteration continues at the same position. -/
def classScriptLoop (amount : Int) (scripts : List Int) (itr : Nat) : Nat → Int → Option Int
  | 0, staminaToRemove => if itr = scripts.length then some staminaToRemove else none
  | fuel + 1, staminaToRemove =>
    if itr = scripts.length then some staminaToRemove
    else
      classScriptLoop amount scripts itr fuel
        (classScriptStamina amount (scripts.getD itr 0) staminaToRemove)

/-- `Aura::HandleAuraModStat` with its class-script loop run for at most
`fuel` iterations: the calls made, or `none` when the loop has not ended by
then. -/
def Aura.HandleAuraModStat_run (fuel : Nat) (q : HandlerQuery) (apply _real : Bool) (a : Aura) :
    Option (List HandlerCall) :=
  if a.m_modifier.m_miscvalue < -2 ∨ a.m_modifier.m_miscvalue > 4 then some []
  else
    let family : Option (List HandlerCall) :=
      if q.fitsFamilyMask then
        if apply then
          (classScriptLoop a.m_modifier.m_amount q.classScripts 0 fuel 0).map fun stamina =>
            if stamina ≠ 0 then [HandlerCall.castCustomSpell q.target 19486 stamina] else []
        else some [HandlerCall.removeAurasTriggeredBySpell q.spellId q.casterGuid]
      else some []
    family.map fun calls =>
      calls ++
        ((List.range q.MAX_STATS).filter fun i => decide (q.STAT_STRENGTH ≤ i)).flatMap fun i =>
          if a.m_modifier.m_miscvalue < 0 ∨ a.m_modifier.m_miscvalue = (i : Int) then
            [HandlerCall.handleStatModifier i a.m_modifier.m_amount apply] ++
              (if q.targetIsPlayer then
                [HandlerCall.applyStatBuffMod i a.m_modifier.m_amount apply]
              else [])
          else []

/-- A player target 7 that carries one class-script aura (misc value 2388),
for a stat buff with spell id `spellId` that fits the family mask. -/
def scriptedQuery (spellId : Nat) : HandlerQuery :=
  { plainQuery spellId with fitsFamilyMask := true, classScripts := [2388] }

/-- What the claim about `HasMechanicMask` says, in its words: the bit
`1 << (m - 1)` is set in the mask for the spell-level mechanic `m != 0` or for
the effect mechanic `m != 0` of some non-null effect slot. -/
def HasMechanicMask_spec (h : SpellAuraHolder) (mechanicMask : Nat) : Bool :=
  (decide (h.m_spellProto.Mechanic ≠ 0) && mechanicMask.testBit (h.m_spellProto.Mechanic - 1)) ||
    (List.range MAX_EFFECT_INDEX).any fun i =>
      (h.m_auras i).isSome && decide (h.m_spellProto.EffectMechanic i ≠ 0) &&
        mechanicMask.testBit (h.m_spellProto.EffectMechanic i - 1)

/-! ## Periodic ticks -/

def SPELL_AURA_DUMMY : Nat := 4

def SPELL_AURA_PERIODIC_HEAL : Nat := 8

def SPELL_AURA_PERIODIC_ENERGIZE : Nat := 24

def SPELL_AURA_PERIODIC_HEALTH_FUNNEL : Nat := 62

def SPELL_AURA_PERIODIC_MANA_LEECH : Nat := 64

def SPELL_AURA_PERIODIC_DAMAGE_PERCENT : Nat := 89

def SPELL_AURA_POWER_BURN_MANA : Nat := 162

/-- Calls `Aura::PeriodicTick` makes on the target, the caster and their
collaborators, in call order. -/
inductive TickCall
  | sendSpellOrDamageImmune (caster target spellId : Nat)
  | sendPeriodicAuraLog (target : Nat) (damage : Int) (absorb : Nat) (resist : Int)
  | sendSpellNonMeleeDamageLog (caster target damage absorb : Nat) (resist : Int)
  | dealDamage (caster target damage : Nat)
  | dealSpellDamage (caster target damage : Nat)
  | handleParagonLeech (caster damage : Nat)
  | procDamageAndSpell (caster target : Nat) (amount : Int)
  | cancelSpell (caster spellId : Nat)
  | dealHeal (caster target heal : Nat)
  | threatAssist (caster target : Nat)
  | addThreat (target caster : Nat)
  | modifyHealth (unit : Nat) (delta : Int)
  | modifyPower (unit power : Nat) (delta : Int)
  | castSpell (caster target spellId : Nat)
  | removeAurasDueToSpell (unit spellId : Nat)
  | finishGenericSpell (caster : Nat)
  | finishChanneledSpell (caster : Nat)
  deriving DecidableEq, Repr

/-- What one `PeriodicTick` call finds in the world. The functions are the
values the collaborators return for the amount passed to them:
`CalculateDamageAbsorbAndResist d` is the `(absorb, resist)` pair written for
damage `d`, `DealDamageMods d a` the damage and absorb after the call,
`DealDamage d` the `int32` the call returns, `leechHeal n` the heal computed
from the dealt damage `n` (spell mods, multiplier and healing bonus),
`leechGain n` the `int32(drain_amount * gain_multiplier)`, `burnInfo n` the
damage, absorb and resist of the damage record of a power burn of `n`
points. `kazzakFires` is the test of the Mark of Kazzak case,
`cancelsOwnCast` the test that the dead target's drain is still being
channelled, `persistentAreaMiss` the test
`Effect == SPELL_EFFECT_PERSISTENT_AREA_AURA && SpellHitResult != SPELL_MISS_NONE`. -/
structure TickQuery where
  targetAlive : Bool
  casterAlive : Bool
  casterIsPlayer : Bool
  casterInCombat : Bool
  persistentAreaMiss : Bool
  immuneToDamage : Bool
  immuneToSchool : Bool
  targetHealth : Nat
  targetMaxHealth : Nat
  targetPowerType : Nat
  targetPower : Nat
  casterHealth : Nat
  MAX_POWERS : Nat
  magicDamageClass : Bool
  isCurseOfAgony : Bool
  SpellDamageBonusTaken : Nat → Nat
  MeleeDamageBonusTaken : Nat → Nat
  SpellHealingBonusTaken : Nat → Nat
  CalculateDamageAbsorbAndResist : Nat → Nat × Int
  DealDamageMods : Nat → Nat → Nat × Nat
  DealDamage : Nat → Int
  ModifyHealth : Nat → Int
  leechHeal : Int → Nat
  leechGain : Int → Int
  burnInfo : Int → Nat × Nat × Int
  cancelsOwnCast : Bool
  kazzakFires : Bool
  otherBranches : Aura → List TickCall

/-- The Curse of Agony scaling of `PeriodicTick`: the `uint32` damage of the
tick number `ticks` (`GetAuraTicks()`) for the normal tick damage `pdamage`. -/
def curseScale (ticks pdamage : Nat) : Nat :=
  if ticks ≤ 4 then pdamage / 2
  else if ticks ≥ 9 then (pdamage + (pdamage + 1) % 4294967296 / 2) % 4294967296
  else pdamage

/-- The lines of `PeriodicTick` that turn damage, absorb and resist into the
damage dealt: `bonus`, `pdamage += bonus`, `malus` and the guarded
subtraction, in `uint32` arithmetic. -/
def tickDamage (pdamage absorb : Nat) (resist : Int) : Nat :=
  let bonus := if resist < 0 then toUInt32 (toInt32 (-resist)) else 0
  let pdamage := (pdamage + bonus) % 4294967296
  let malus := if resist > 0 then (absorb + toUInt32 resist) % 4294967296 else absorb
  if pdamage ≤ malus then 0 else pdamage - malus

/-- The `uint32 amount` of a tick: non-positive magnitudes count as 0. -/
def tickAmount (a : Aura) : Nat :=
  if a.m_modifier.m_amount > 0 then toUInt32 a.m_modifier.m_amount else 0

/-- The damage, absorb and resist `PeriodicTick` holds after its calls of
`CalculateDamageAbsorbAndResist` and `DealDamageMods` for the damage `base`. -/
def TickQuery.absorbResist (q : TickQuery) (base : Nat) : Nat × Nat × Int :=
  let ar := q.CalculateDamageAbsorbAndResist base
  let dm := q.DealDamageMods base ar.1
  (dm.1, dm.2, ar.2)

/-- The damage the periodic damage case of `PeriodicTick` passes to
`CalculateDamageAbsorbAndResist`: the amount or the percentage of the
target's maximum health, after the bonus taken and the Curse of Agony
scaling. -/
def Aura.tickBaseDamage (q : TickQuery) (a : Aura) : Nat :=
  let amount := tickAmount a
  let pdamage :=
    if a.m_modifier.m_auraname = SPELL_AURA_PERIODIC_DAMAGE then amount
    else (q.targetMaxHealth * amount) % 4294967296 / 100
  let pdamage :=
    if q.magicDamageClass then q.SpellDamageBonusTaken pdamage
    else q.MeleeDamageBonusTaken pdamage
  if q.isCurseOfAgony then curseScale a.m_periodicTick pdamage else pdamage

/-- The cases `SPELL_AURA_PERIODIC_DAMAGE` and
`SPELL_AURA_PERIODIC_DAMAGE_PERCENT` of `PeriodicTick`. -/
def Aura.PeriodicTick_damage (env : Env) (q : TickQuery) (h : SpellAuraHolder) (a : Aura) :
    List TickCall :=
  if !q.targetAlive then []
  else
    match h.GetCaster env with
    | none => []
    | some pCaster =>
      if q.persistentAreaMiss then []
      else if q.immuneToDamage then
        [TickCall.sendSpellOrDamageImmune pCaster h.m_target h.m_spellProto.Id]
      else
        let par := q.absorbResist (a.tickBaseDamage q)
        let dealt := tickDamage par.1 par.2.1 par.2.2
        [TickCall.sendPeriodicAuraLog h.m_target dealt par.2.1 par.2.2,
          TickCall.dealDamage pCaster h.m_target dealt] ++
          (if q.casterIsPlayer then [TickCall.handleParagonLeech pCaster dealt] else []) ++
          [TickCall.procDamageAndSpell pCaster h.m_target dealt]

/-- The cases `SPELL_AURA_PERIODIC_LEECH` and
`SPELL_AURA_PERIODIC_HEALTH_FUNNEL` of `PeriodicTick`. -/
def Aura.PeriodicTick_leech (env : Env) (q : TickQuery) (h : SpellAuraHolder) (a : Aura) :
    List TickCall :=
  if !q.targetAlive then []
  else
    match h.GetCaster env with
    | none => []
    | some pCaster =>
      if !q.casterAlive then []
      else if q.persistentAreaMiss then []
      else if q.immuneToDamage then
        [TickCall.sendSpellOrDamageImmune pCaster h.m_target h.m_spellProto.Id]
      else
        let par := q.absorbResist (q.SpellDamageBonusTaken (tickAmount a))
        let dealt := min (tickDamage par.1 par.2.1 par.2.2) q.targetHealth
        let new_damage := q.DealDamage dealt
        let heal := q.leechHeal new_damage
        [TickCall.sendSpellNonMeleeDamageLog pCaster h.m_target par.1 par.2.1 par.2.2] ++
          (if q.casterIsPlayer then [TickCall.handleParagonLeech pCaster dealt] else []) ++
          [TickCall.dealDamage pCaster h.m_target dealt,
            TickCall.procDamageAndSpell pCaster h.m_target dealt] ++
          (if q.cancelsOwnCast then [TickCall.cancelSpell pCaster h.m_spellProto.Id] else []) ++
          [TickCall.dealHeal pCaster pCaster heal] ++
          (if a.m_modifier.m_auraname = SPELL_AURA_PERIODIC_LEECH then []
          else [TickCall.threatAssist pCaster pCaster])

/-- The cases `SPELL_AURA_PERIODIC_HEAL` and `SPELL_AURA_OBS_MOD_HEALTH` of
`PeriodicTick`. -/
def Aura.PeriodicTick_heal (env : Env) (q : TickQuery) (h : SpellAuraHolder) (a : Aura) :
    List TickCall :=
  match h.GetCaster env with
  | none => []
  | some pCaster =>
    if !q.targetAlive || decide (q.targetHealth = q.targetMaxHealth) then []
    else if decide (h.m_target ≠ pCaster) && decide (h.m_spellProto.SpellVisual = 163) &&
        !q.casterAlive then []
    else if q.immuneToSchool then
      [TickCall.sendSpellOrDamageImmune pCaster h.m_target h.m_spellProto.Id]
    else
      let amount := tickAmount a
      let pdamage :=
        if a.m_modifier.m_auraname = SPELL_AURA_OBS_MOD_HEALTH then
          (q.targetMaxHealth * amount) % 4294967296 / 100
        else amount
      let pdamage := q.SpellHealingBonusTaken pdamage
      let gain := q.ModifyHealth pdamage
      [TickCall.modifyHealth h.m_target (toInt32 pdamage),
        TickCall.sendPeriodicAuraLog h.m_target pdamage 0 0] ++
        (if q.casterInCombat then [TickCall.threatAssist pCaster h.m_target] else []) ++
        [TickCall.procDamageAndSpell pCaster h.m_target gain] ++
        (if h.m_target ≠ pCaster ∧ h.m_spellProto.SpellVisual = 163 then
          let dm := q.DealDamageMods h.m_spellProto.manaPerSecond 0
          if q.casterHealth > dm.1 then
            [TickCall.sendSpellNonMeleeDamageLog pCaster pCaster dm.1 dm.2 0,
              TickCall.dealDamage pCaster pCaster dm.1]
          else
            [TickCall.removeAurasDueToSpell pCaster h.m_spellProto.Id,
              TickCall.finishGenericSpell pCaster, TickCall.finishChanneledSpell pCaster]
        else [])

/-- The case `SPELL_AURA_PERIODIC_MANA_LEECH` of `PeriodicTick`. -/
def Aura.PeriodicTick_manaLeech (env : Env) (q : TickQuery) (h : SpellAuraHolder) (a : Aura) :
    List TickCall :=
  if !q.targetAlive then []
  else if a.m_modifier.m_miscvalue < 0 ∨ a.m_modifier.m_miscvalue ≥ (q.MAX_POWERS : Int) then []
  else if (q.targetPowerType : Int) ≠ a.m_modifier.m_miscvalue then []
  else
    match h.GetCaster env with
    | none => []
    | some pCaster =>
      if !q.casterAlive then []
      else if q.persistentAreaMiss then []
      else if q.immuneToDamage then
        [TickCall.sendSpellOrDamageImmune pCaster h.m_target h.m_spellProto.Id]
      else
        let pdamage := tickAmount a
        let drain_amount : Int :=
          toInt32 (if q.targetPower > pdamage then pdamage else q.targetPower : Nat)
        let gain_amount := q.leechGain drain_amount
        [TickCall.modifyPower h.m_target q.targetPowerType (toInt32 (-drain_amount)),
          TickCall.sendPeriodicAuraLog h.m_target drain_amount 0 0] ++
          (if gain_amount ≠ 0 then
            [TickCall.modifyPower pCaster q.targetPowerType gain_amount,
              TickCall.addThreat h.m_target pCaster]
          else []) ++
          (if h.m_spellProto.Id = 21056 ∧ q.kazzakFires = true then
            [TickCall.castSpell h.m_target h.m_target 21058,
              TickCall.removeAurasDueToSpell h.m_target h.m_spellProto.Id]
          else [])

/-- The case `SPELL_AURA_POWER_BURN_MANA` of `PeriodicTick`. -/
def Aura.PeriodicTick_powerBurn (env : Env) (q : TickQuery) (h : SpellAuraHolder) (a : Aura) :
    List TickCall :=
  if !q.targetAlive then []
  else
    match h.GetCaster env with
    | none => []
    | some pCaster =>
      if q.immuneToDamage then
        [TickCall.sendSpellOrDamageImmune pCaster h.m_target h.m_spellProto.Id]
      else
        let pdamage : Int := if a.m_modifier.m_amount > 0 then a.m_modifier.m_amount else 0
        if !q.targetAlive ∨ (q.targetPowerType : Int) ≠ a.m_modifier.m_miscvalue then []
        else
          let info := q.burnInfo pdamage
          [TickCall.modifyPower h.m_target q.targetPowerType (toInt32 (-pdamage)),
            TickCall.sendSpellNonMeleeDamageLog pCaster h.m_target info.1 info.2.1 info.2.2,
            TickCall.dealSpellDamage pCaster h.m_target info.1,
            TickCall.procDamageAndSpell pCaster h.m_target info.1]

/-- `Aura::PeriodicTick`: the calls made. The cases this development does not
look into (energize, mana percent, health and power regeneration, dummy and
trigger-spell ticks) are the parameter `q.otherBranches`; every other effect
type makes no call. `GetCaster()` of the instance, an inline member of
SpellAuras.h, is taken to be the `GetCaster` of its holder `h`, and
`GetAuraTicks()` to be the getter of `m_periodicTick`. -/
def Aura.PeriodicTick (env : Env) (q : TickQuery) (h : SpellAuraHolder) (a : Aura) :
    List TickCall :=
  if !q.targetAlive && h.m_isPassive then []
  else if a.m_modifier.m_auraname = SPELL_AURA_PERIODIC_DAMAGE ∨
      a.m_modifier.m_auraname = SPELL_AURA_PERIODIC_DAMAGE_PERCENT then
    a.PeriodicTick_damage env q h
  else if a.m_modifier.m_auraname = SPELL_AURA_PERIODIC_LEECH ∨
      a.m_modifier.m_auraname = SPELL_AURA_PERIODIC_HEALTH_FUNNEL then
    a.PeriodicTick_leech env q h
  else if a.m_modifier.m_auraname = SPELL_AURA_PERIODIC_HEAL ∨
      a.m_modifier.m_auraname = SPELL_AURA_OBS_MOD_HEALTH then
    a.PeriodicTick_heal env q h
  else if a.m_modifier.m_auraname = SPELL_AURA_PERIODIC_MANA_LEECH then
    a.PeriodicTick_manaLeech env q h
  else if a.m_modifier.m_auraname = SPELL_AURA_POWER_BURN_MANA then
    a.PeriodicTick_powerBurn env q h
  else if a.m_modifier.m_auraname = SPELL_AURA_PERIODIC_ENERGIZE ∨
      a.m_modifier.m_auraname = SPELL_AURA_OBS_MOD_MANA ∨
      a.m_modifier.m_auraname = SPELL_AURA_MOD_REGEN ∨
      a.m_modifier.m_auraname = SPELL_AURA_MOD_POWER_REGEN ∨
      a.m_modifier.m_auraname = SPELL_AURA_DUMMY ∨
      a.m_modifier.m_auraname = SPELL_AURA_PERIODIC_TRIGGER_SPELL then
    q.otherBranches a
  else []

/-- A world for tick examples: target and caster alive, nothing immune, no
bonus, no absorb, no resist, the target has `health` of 1000 health points
left. -/
def plainTick (health : Nat) : TickQuery :=
  { targetAlive := true, casterAlive := true, casterIsPlayer := false, casterInCombat := false,
    persistentAreaMiss := false, immuneToDamage := false, immuneToSchool := false,
    targetHealth := health, targetMaxHealth := 1000, targetPowerType := 0, targetPower := 500,
    casterHealth := 1000, MAX_POWERS := 5, magicDamageClass := true, isCurseOfAgony := false,
    SpellDamageBonusTaken := fun d => d, MeleeDamageBonusTaken := fun d => d,
    SpellHealingBonusTaken := fun d => d, CalculateDamageAbsorbAndResist := fun _ => (0, 0),
    DealDamageMods := fun d a => (d, a), DealDamage := fun d => d,
    ModifyHealth := fun d => d, leechHeal := fun n => n.toNat, leechGain := fun n => n,
    burnInfo := fun n => (n.toNat, 0, 0), cancelsOwnCast := false, kazzakFires := false,
    otherBranches := fun _ => [] }

/-- The damage of the `dealDamage` calls among `calls`, in call order. -/
def dealtDamage (calls : List TickCall) : List Nat :=
  calls.filterMap fun call =>
    match call with
    | .dealDamage _ _ d => some d
    | _ => none

/-- An environment in which every caster guid resolves. -/
def tickEnv : Env := sampleEnv 6000 0

/-- An environment in which no caster guid resolves. -/
def casterGoneEnv : Env := { sampleEnv 6000 0 with GetUnit := fun _ => false }

/-- A periodic damage instance of magnitude `amount` at its tick number
`ticks`. -/
def agonyAura (amount : Int) (ticks : Nat) : Aura :=
  { dotAura with
    m_modifier := { dotAura.m_modifier with m_amount := amount }
    m_periodicTick := ticks }

/-- The world `plainTick 1000` for a Curse of Agony tick. -/
def agonyTick : TickQuery := { plainTick 1000 with isCurseOfAgony := true }

/-- The instance of `leechHolder`: periodic leech of magnitude 10, 15 after
the caster's bonus. -/
def leechInstance : Aura := (leechHolder.m_auras 0).getD dotAura

/-! ## The caster's side of an area aura -/

/-- What a unit carries, as far as the caster's side of `AreaAura::Update`
reads and writes it: `holders` are the entries of its holder map in map
order, each with the address of the holder object; `modList` are the
instances registered in its modifier lists, each given by the spell id, the
effect index and the caster guid of the instance. -/
structure UnitAuras where
  holders : List (Nat × SpellAuraHolder)
  modList : List (Nat × Nat × Nat)

/-- Collaborators of the loop over the targets on the caster's side of
`AreaAura::Update`, as functions of what the code passes them:
`SelectAuraRankForLevel proto level`, the test that the caster is a player,
the test that a target is a player, `CalculateSimpleValue spell eff`, the
arguments of the instance constructor (`CalculateSpellDamage spell target
basePoints`, `IsPositiveEffect spell eff`, `periodicMod`) and the result of
`target->AddSpellAuraHolder(holder)`. -/
structure CasterSideQuery where
  SelectAuraRankForLevel : SpellEntry → Nat → Option SpellEntry
  casterIsPlayer : Bool
  targetIsPlayer : Nat → Bool
  CalculateSimpleValue : SpellEntry → Nat → Int
  CalculateSpellDamage : SpellEntry → Nat → Int → Int
  IsPositiveEffect : SpellEntry → Nat → Bool
  periodicMod : Nat → Nat
  AddSpellAuraHolder : Nat → SpellAuraHolder → Bool

/-- The definition the caster's side uses on `target`: the caster's own
definition on the caster, the rank selected for the level of any other
target. -/
def AreaAura.actualSpellInfo (env : Env) (q : CasterSideQuery) (h : SpellAuraHolder)
    (target : Nat) : Option SpellEntry :=
  if h.m_casterGuid = target then some h.m_spellProto
  else q.SelectAuraRankForLevel h.m_spellProto (env.getLevel target)

/-- The loop of the caster's side over the holders of the target with the
selected spell id: the value of `apply` after it. `self` is the address of
the holder that owns this instance, so that `aur == this` is the test that
the holder at hand has that address; `caster` is the target of this
instance. `Aura::GetCaster`, an inline member of SpellAuras.h, is taken to be
the `GetCaster` of the holder. -/
def AreaAura.applyLoop (env : Env) (q : CasterSideQuery) (a : Aura) (self caster : Nat)
    (actualSpellInfo : SpellEntry) : List (Nat × SpellAuraHolder) → Bool
  | [] => true
  | i :: rest =>
    if i.2.m_deleted then AreaAura.applyLoop env q a self caster actualSpellInfo rest
    else
      match i.2.m_auras a.m_effIndex with
      | none => AreaAura.applyLoop env q a self caster actualSpellInfo rest
      | some _ =>
        let apply : Bool :=
          match a.m_areaAuraType with
          | .AREA_AURA_PARTY =>
            if i.1 = self ∨ i.2.GetCaster env = some caster ∨ q.casterIsPlayer = true ∨
                actualSpellInfo.SpellFamilyName = 0 then false
            else true
          | _ => false
        if !apply then false
        else AreaAura.applyLoop env q a self caster actualSpellInfo rest

/-- The spell id, the effect index and the caster guid of the instance of
holder `h` at the effect index `eff`. -/
def instanceKey (h : SpellAuraHolder) (eff : Nat) : Nat × Nat × Nat :=
  (h.m_spellProto.Id, eff, h.m_casterGuid)

/-- Modelled from the spec: `Unit::GetSpellAuraHolder(spellId, casterGuid)` is
defined in Unit.cpp, which is not among the sources. It is the first holder
of the unit's map with that spell id and that caster guid. -/
def GetSpellAuraHolder (holders : List (Nat × SpellAuraHolder)) (spellId casterGuid : Nat) :
    Option (Nat × SpellAuraHolder) :=
  holders.find? fun e =>
    decide (e.2.m_spellProto.Id = spellId) && decide (e.2.m_casterGuid = casterGuid)

/-- Modelled from the spec: `SpellAuraHolder::SetAuraDuration` is an inline
member of SpellAuras.h, which is not among the sources. It stores the
duration. -/
def SpellAuraHolder.SetAuraDuration (h : SpellAuraHolder) (duration : Int) : SpellAuraHolder :=
  { h with m_duration := duration }

/-- An address no holder of the list has: the address of a holder made by
`new`. -/
def freshAddress (holders : List (Nat × SpellAuraHolder)) : Nat :=
  (holders.map Prod.fst).foldr max 0 + 1

/-- Modelled from the spec: `Unit::AddAuraToModList` is defined in Unit.cpp,
which is not among the sources. It registers the instance in the modifier
lists of the unit. -/
def UnitAuras.AddAuraToModList (u : UnitAuras) (key : Nat × Nat × Nat) : UnitAuras :=
  { u with modList := u.modList ++ [key] }

/-- Modelled from the spec: `Unit::AddSpellAuraHolder` is defined in Unit.cpp,
which is not among the sources. `accepted` is its result: an accepted holder
is put into the holder map, at the address `addr`, and each of its instances
is registered in the modifier lists; a refused holder leaves the unit as it
is. -/
def UnitAuras.AddSpellAuraHolder (u : UnitAuras) (accepted : Bool) (addr : Nat)
    (holder : SpellAuraHolder) : UnitAuras :=
  if accepted then
    { holders := u.holders ++ [(addr, holder)]
      modList := u.modList ++ (List.range MAX_EFFECT_INDEX).filterMap fun i =>
        (holder.m_auras i).map fun _ => instanceKey holder i }
  else u

/-- The body of the loop over the targets on the caster's side of
`AreaAura::Update`, for one target carrying `u`: what the target carries
afterwards and the calls of `ApplyModifier` made. `h` is the holder that owns
this instance `a`, at the address `self`; `none` is the failed assertion of
the `AreaAura` constructor. Two definitions are the same object when their
ids agree; `GetAuraDuration()` is the duration of the holder `h`. -/
def AreaAura.applyToTarget (c : Consts) (env : Env) (q : CasterSideQuery) (h : SpellAuraHolder)
    (a : Aura) (self target : Nat) (u : UnitAuras) : Option (UnitAuras × List Event) :=
  match AreaAura.actualSpellInfo env q h target with
  | none => some (u, [])
  | some actualSpellInfo =>
    if !AreaAura.applyLoop env q a self h.m_target actualSpellInfo
        (u.holders.filter fun e => decide (e.2.m_spellProto.Id = actualSpellInfo.Id)) then
      some (u, [])
    else if actualSpellInfo.HasAttribute .SPELL_ATTR_EX3_TARGET_ONLY_PLAYER &&
        !q.targetIsPlayer target then some (u, [])
    else
      let actualBasePoints : Int :=
        if actualSpellInfo.Id ≠ h.m_spellProto.Id then
          q.CalculateSimpleValue actualSpellInfo a.m_effIndex
        else a.m_currentBasePoints
      (AreaAura.ctor c actualSpellInfo a.m_effIndex actualBasePoints
        (q.CalculateSpellDamage actualSpellInfo target actualBasePoints)
        (q.IsPositiveEffect actualSpellInfo a.m_effIndex) q.periodicMod (env.IsTotem target)
        h.m_spellProto.Id).map fun aur =>
        match GetSpellAuraHolder u.holders actualSpellInfo.Id h.m_casterGuid with
        | some found =>
          let r := aur.ApplyModifier c env true true
          let u1 : UnitAuras :=
            { u with
              holders := u.holders.map fun e =>
                if e.1 = found.1 then
                  (e.1, (e.2.SetAuraDuration h.m_duration).AddAura r.1 a.m_effIndex)
                else e }
          (u1.AddAuraToModList (instanceKey found.2 a.m_effIndex), r.2)
        | none =>
          let holder :=
            ((CreateSpellAuraHolder c env actualSpellInfo target (some h.m_target)).SetAuraDuration
              h.m_duration).AddAura aur a.m_effIndex
          (u.AddSpellAuraHolder (q.AddSpellAuraHolder target holder) (freshAddress u.holders)
            holder, [])

/-- The loop over the targets on the caster's side of `AreaAura::Update`:
`w` is what each unit carries. -/
def AreaAura.applyToTargets (c : Consts) (env : Env) (q : CasterSideQuery) (h : SpellAuraHolder)
    (a : Aura) (self : Nat) : List Nat → (Nat → UnitAuras) → Option ((Nat → UnitAuras) × List Event)
  | [], w => some (w, [])
  | target :: rest, w =>
    (AreaAura.applyToTarget c env q h a self target (w target)).bind fun r =>
      (AreaAura.applyToTargets c env q h a self rest (Function.update w target r.1)).map
        fun r2 => (r2.1, r.2 ++ r2.2)

/-- The holder map of the unit holds no holder marked deleted, and every
instance of its modifier lists is the instance of a holder of the map, at its
effect index. -/
def UnitAuras.Registered (u : UnitAuras) : Prop :=
  (∀ e ∈ u.holders, e.2.m_deleted = false) ∧
    ∀ k ∈ u.modList, ∃ e ∈ u.holders,
      instanceKey e.2 k.2.1 = k ∧ (e.2.m_auras k.2.1).isSome = true

/-- A party area aura of a spell family: `partyRegenSpell` with family 11. -/
def totemRegenSpell : SpellEntry := { partyRegenSpell with SpellFamilyName := 11 }

/-- The caster's own instance of `totemRegenSpell`. -/
def totemRegenAura : Aura :=
  (AreaAura.ctor sampleConsts totemRegenSpell 0 1 1 true id true 5672).getD partyRegenAura

/-- The holder of `totemRegenSpell` on its caster, unit 9, with its
instance. -/
def totemRegenHolder : SpellAuraHolder :=
  (CreateSpellAuraHolder sampleConsts (regenEnv 60000) totemRegenSpell 9 (some 9)).AddAura
    totemRegenAura 0

/-- Collaborators for the examples: every level keeps the rank, the caster is
not a player, every holder is accepted. -/
def totemQuery : CasterSideQuery :=
  { SelectAuraRankForLevel := fun sp _ => some sp
    casterIsPlayer := false
    targetIsPlayer := fun _ => true
    CalculateSimpleValue := fun _ _ => 1
    CalculateSpellDamage := fun _ _ bp => bp
    IsPositiveEffect := fun _ _ => true
    periodicMod := id
    AddSpellAuraHolder := fun _ _ => true }

/-- A world in which the caster, unit 9, carries its holder at address 1 and
nobody else carries anything. -/
def totemWorld : Nat → UnitAuras := fun t =>
  if t = 9 then { holders := [(1, totemRegenHolder)], modList := [(5672, 0, 9)] }
  else { holders := [], modList := [] }

/-! ## Arithmetic facts -/

theorem toInt32_of_range (z : Int) (h1 : -2147483648 ≤ z) (h2 : z < 2147483648) :
    toInt32 z = z := by
  unfold toInt32
  omega

theorem toInt32_lower (z : Int) : -2147483648 ≤ toInt32 z := by
  unfold toInt32
  omega

theorem toInt32_upper (z : Int) : toInt32 z < 2147483648 := by
  unfold toInt32
  omega

/-! ## Properties -/

/-- C1: `Aura::Update(diff)` on a periodic instance first decrements the timer
by `diff` (the `int32 -= uint32` of the code); if the decremented timer is
`≤ 0` the timer becomes decremented timer plus period (additive re-arm), the
tick counter goes up by one and `PeriodicTick` is called exactly once, with
timer and counter already updated; if it is `> 0` only the timer changes and
`PeriodicTick` is not called. A non-periodic instance is returned unchanged
with no call. Whenever the exact values fit their C++ types the machine
operations are the exact mathematical ones (last conjunct). -/
theorem Aura_Update_contract (a : Aura) (diff : Nat) :
    (a.m_isPeriodic = true → toInt32 (a.m_periodicTimer - diff) ≤ 0 →
      (a.Update diff).1 =
          { a with
            m_periodicTimer :=
              toInt32 (toInt32 (a.m_periodicTimer - diff) + a.m_modifier.periodictime),
            m_periodicTick := (a.m_periodicTick + 1) % 4294967296 } ∧
        (a.Update diff).2 = [Event.periodicTick (a.Update diff).1]) ∧
    (a.m_isPeriodic = true → 0 < toInt32 (a.m_periodicTimer - diff) →
      (a.Update diff).1 = { a with m_periodicTimer := toInt32 (a.m_periodicTimer - diff) } ∧
        (a.Update diff).2 = []) ∧
    (a.m_isPeriodic = false → a.Update diff = (a, [])) ∧
    (-2147483648 ≤ a.m_periodicTimer - diff → a.m_periodicTimer < 2147483648 →
      a.m_periodicTimer - diff + a.m_modifier.periodictime < 2147483648 →
      a.m_periodicTick + 1 < 4294967296 →
      toInt32 (a.m_periodicTimer - diff) = a.m_periodicTimer - diff ∧
        toInt32 (toInt32 (a.m_periodicTimer - diff) + a.m_modifier.periodictime) =
          a.m_periodicTimer - diff + a.m_modifier.periodictime ∧
        (a.m_periodicTick + 1) % 4294967296 = a.m_periodicTick + 1) := by
  refine ⟨?_, ?_, ?_, ?_⟩
  · intro hp hle
    simp [Aura.Update, hp, hle]
  · intro hp hlt
    have hnle : ¬ toInt32 (a.m_periodicTimer - diff) ≤ 0 := not_le.mpr hlt
    simp [Aura.Update, hp, hnle]
  · intro hp
    simp [Aura.Update, hp]
  · intro h1 h2 h3 h4
    have e1 : toInt32 (a.m_periodicTimer - diff) = a.m_periodicTimer - diff :=
      toInt32_of_range _ h1 (by omega)
    refine ⟨e1, ?_, Nat.mod_eq_of_lt h4⟩
    rw [e1]
    exact toInt32_of_range _ (by omega) h3

/-! ## Facts about the slot loop -/

theorem forEachAura_fst (f : Aura → Aura × List Event) (auras : Nat → Option Aura) (i : Nat) :
    (forEachAura f auras).1 i = if i < 3 then (auras i).map (fun a => (f a).1) else auras i := by
  unfold forEachAura
  simp only [MAX_EFFECT_INDEX, List.range_succ, List.range_zero, List.nil_append,
    List.foldl_cons, List.foldl_nil, List.cons_append]
  rcases (show i = 0 ∨ i = 1 ∨ i = 2 ∨ 3 ≤ i by omega) with rfl | rfl | rfl | hi
  · rcases h0 : auras 0 with _ | a0 <;> rcases h1 : auras 1 with _ | a1 <;>
      rcases h2 : auras 2 with _ | a2 <;> simp [h0, h1, h2, Function.update]
  · rcases h0 : auras 0 with _ | a0 <;> rcases h1 : auras 1 with _ | a1 <;>
      rcases h2 : auras 2 with _ | a2 <;> simp [h0, h1, h2, Function.update]
  · rcases h0 : auras 0 with _ | a0 <;> rcases h1 : auras 1 with _ | a1 <;>
      rcases h2 : auras 2 with _ | a2 <;> simp [h0, h1, h2, Function.update]
  · have e0 : i ≠ 0 := by omega
    have e1 : i ≠ 1 := by omega
    have e2 : i ≠ 2 := by omega
    have e3 : ¬ i < 3 := by omega
    rcases h0 : auras 0 with _ | a0 <;> rcases h1 : auras 1 with _ | a1 <;>
      rcases h2 : auras 2 with _ | a2 <;> simp [h0, h1, h2, Function.update, e0, e1, e2, e3]

theorem forEachAura_snd (f : Aura → Aura × List Event) (auras : Nat → Option Aura) :
    (forEachAura f auras).2 =
      ((auras 0).elim [] fun a => (f a).2) ++ ((auras 1).elim [] fun a => (f a).2) ++
        ((auras 2).elim [] fun a => (f a).2) := by
  unfold forEachAura
  simp only [MAX_EFFECT_INDEX, List.range_succ, List.range_zero, List.nil_append,
    List.foldl_cons, List.foldl_nil, List.cons_append]
  rcases h0 : auras 0 with _ | a0 <;> rcases h1 : auras 1 with _ | a1 <;>
      rcases h2 : auras 2 with _ | a2 <;> simp [h0, h1, h2, Function.update]


/-! ## Facts about `SpellAuraHolder::Update` -/

theorem Update_skip (c : Consts) (env : Env) (h : SpellAuraHolder) (diff : Nat)
    (hs : h.m_skipUpdate = true) :
    h.Update c env diff = ({ h with m_skipUpdate := false }, []) := by
  simp [SpellAuraHolder.Update, hs]

theorem Update_skipUpdate (c : Consts) (env : Env) (h : SpellAuraHolder) (diff : Nat) :
    (h.Update c env diff).1.m_skipUpdate = false := by
  unfold SpellAuraHolder.Update
  by_cases hs : h.m_skipUpdate = true
  · simp [hs]
  · simp only [hs]
    split_ifs <;> simp_all

theorem Update_auras (c : Consts) (env : Env) (h : SpellAuraHolder) (diff : Nat)
    (hs : h.m_skipUpdate = false) :
    (h.Update c env diff).1.m_auras =
      (forEachAura (fun aura => aura.UpdateAura env h diff) h.m_auras).1 := by
  unfold SpellAuraHolder.Update
  rw [if_neg (by simp [hs])]
  dsimp only
  split_ifs <;> rfl

theorem Update_duration (c : Consts) (env : Env) (h : SpellAuraHolder) (diff : Nat)
    (hs : h.m_skipUpdate = false) :
    (h.Update c env diff).1.m_duration =
      if h.m_duration > 0 then
        (if toInt32 (h.m_duration - diff) < 0 then 0 else toInt32 (h.m_duration - diff))
      else h.m_duration := by
  unfold SpellAuraHolder.Update
  rw [if_neg (by simp [hs])]
  dsimp only
  split_ifs <;> rfl



/-! ## Counting ticks -/

theorem tickCount_nil (i : Nat) : tickCount i [] = 0 := rfl

theorem tickCount_append (i : Nat) (l1 l2 : List Event) :
    tickCount i (l1 ++ l2) = tickCount i l1 + tickCount i l2 := by
  simp [tickCount]

theorem Aura_Update_eq (a : Aura) (diff : Nat) :
    a.Update diff =
      if a.m_isPeriodic = true then
        if toInt32 (a.m_periodicTimer - diff) ≤ 0 then
          ({ a with
              m_periodicTimer :=
                toInt32 (toInt32 (a.m_periodicTimer - diff) + a.m_modifier.periodictime),
              m_periodicTick := (a.m_periodicTick + 1) % 4294967296 },
            [Event.periodicTick
              { a with
                m_periodicTimer :=
                  toInt32 (toInt32 (a.m_periodicTimer - diff) + a.m_modifier.periodictime),
                m_periodicTick := (a.m_periodicTick + 1) % 4294967296 }])
        else ({ a with m_periodicTimer := toInt32 (a.m_periodicTimer - diff) }, [])
      else (a, []) := rfl

theorem Aura_Update_effIndex (a : Aura) (diff : Nat) :
    (a.Update diff).1.m_effIndex = a.m_effIndex := by
  rw [Aura_Update_eq]
  split_ifs <;> rfl

theorem tickCount_Aura_Update_ne (i : Nat) (a : Aura) (diff : Nat) (hne : a.m_effIndex ≠ i) :
    tickCount i (a.Update diff).2 = 0 := by
  rw [Aura_Update_eq]
  split_ifs <;> simp [tickCount, hne]

theorem UpdateAura_effIndex (env : Env) (h : SpellAuraHolder) (a : Aura) (diff : Nat) :
    (a.UpdateAura env h diff).1.m_effIndex = a.m_effIndex := by
  unfold Aura.UpdateAura AreaAura.Update PersistentAreaAura.Update
  dsimp only
  split_ifs <;> simp [Aura_Update_effIndex]

theorem tickCount_UpdateAura_ne (env : Env) (h : SpellAuraHolder) (i : Nat) (a : Aura)
    (diff : Nat) (hne : a.m_effIndex ≠ i) :
    tickCount i (a.UpdateAura env h diff).2 = 0 := by
  have h0 := tickCount_Aura_Update_ne i a diff hne
  unfold Aura.UpdateAura AreaAura.Update PersistentAreaAura.Update
  dsimp only
  split_ifs <;> simp [tickCount_append, h0] <;> simp [tickCount]

theorem UpdateAura_plain (env : Env) (h : SpellAuraHolder) (a : Aura) (diff : Nat)
    (h1 : a.m_isAreaAura = false) (h2 : a.m_isPersistent = false) :
    a.UpdateAura env h diff = a.Update diff := by
  simp [Aura.UpdateAura, h1, h2]

theorem tickCount_Update_timeCla (c : Consts) (env : Env) (h : SpellAuraHolder) (i : Nat) :
    tickCount i (h.Update_timeCla c env).2 = 0 := by
  unfold SpellAuraHolder.Update_timeCla
  by_cases h1 : h.m_timeCla ≤ 0
  · rw [if_pos h1]
    cases h.GetCaster env with
    | none => rfl
    | some g =>
      dsimp only
      split_ifs <;> rfl
  · rw [if_neg h1]
    rfl

theorem tickCount_Update (c : Consts) (env : Env) (h : SpellAuraHolder) (diff i : Nat)
    (hs : h.m_skipUpdate = false) :
    tickCount i (h.Update c env diff).2 =
      tickCount i (forEachAura (fun aura => aura.UpdateAura env h diff) h.m_auras).2 := by
  unfold SpellAuraHolder.Update
  rw [if_neg (by simp [hs])]
  dsimp only
  by_cases hd : h.m_duration > 0
  · rw [if_pos hd]
    dsimp only
    rw [tickCount_append, tickCount_Update_timeCla, Nat.add_zero]
  · rw [if_neg hd]

theorem tickCount_forEachAura_slot (env : Env) (h : SpellAuraHolder) (diff i : Nat) (hi : i < 3)
    (hidx : ∀ j b, j < 3 → h.m_auras j = some b → b.m_effIndex = j) (a : Aura)
    (ha : h.m_auras i = some a) :
    tickCount i (forEachAura (fun aura => aura.UpdateAura env h diff) h.m_auras).2 =
      tickCount i (a.UpdateAura env h diff).2 := by
  have other : ∀ j, j < 3 → j ≠ i →
      tickCount i ((h.m_auras j).elim [] fun b => (b.UpdateAura env h diff).2) = 0 := by
    intro j hj hne
    cases hb : h.m_auras j with
    | none => rfl
    | some b =>
      have hbj : b.m_effIndex ≠ i := by
        rw [hidx j b hj hb]
        exact hne
      simpa using tickCount_UpdateAura_ne env h i b diff hbj
  rw [forEachAura_snd, tickCount_append, tickCount_append]
  rcases (show i = 0 ∨ i = 1 ∨ i = 2 by omega) with rfl | rfl | rfl
  · rw [other 1 (by omega) (by omega), other 2 (by omega) (by omega), ha]
    rfl
  · rw [other 0 (by omega) (by omega), other 2 (by omega) (by omega), ha]
    simp
  · rw [other 0 (by omega) (by omega), other 1 (by omega) (by omega), ha]
    simp

theorem PeriodicInv_step (c : Consts) (env : Env) (P : Nat) (D : Int) (i : Nat) (e : Int)
    (k : Nat) (h : SpellAuraHolder) (δ : Nat) (hi : i < 3) (hP : (P : Int) < 2147483648)
    (hD : D < 2147483648) (he : 0 ≤ e) (hδ0 : 0 < δ) (hδP : δ ≤ P) (heD : e + δ ≤ D)
    (hinv : PeriodicInv P D i e k h) :
    PeriodicInv P D i (e + δ) (k + tickCount i (h.Update c env δ).2) (h.Update c env δ).1 := by
  obtain ⟨hs, hdur, hidx, a, ha, hper, harea, hpers, hpt, ht0, htP, hteq, htick⟩ := hinv
  have hPk : (P : Int) * k ≤ e := by nlinarith
  have hk : (k : Int) < 2147483648 := by
    have hP1 : (1 : Int) ≤ P := by omega
    nlinarith
  have hai : a.m_effIndex = i := hidx i a hi ha
  have hcount : tickCount i (h.Update c env δ).2 = tickCount i (a.Update δ).2 := by
    rw [tickCount_Update _ _ _ _ _ hs, tickCount_forEachAura_slot env h δ i hi hidx a ha,
      UpdateAura_plain env h a δ harea hpers]
  have hauras : ∀ j, (h.Update c env δ).1.m_auras j =
      if j < 3 then (h.m_auras j).map (fun b => (b.UpdateAura env h δ).1) else h.m_auras j := by
    intro j
    rw [Update_auras _ _ _ _ hs, forEachAura_fst]
  have hd : (h.Update c env δ).1.m_duration = D - (e + δ) := by
    rw [Update_duration _ _ _ _ hs, hdur]
    have hr : toInt32 (D - e - δ) = D - e - δ := toInt32_of_range _ (by omega) (by omega)
    rw [hr, if_pos (by omega), if_neg (by omega)]
    omega
  refine ⟨Update_skipUpdate c env h δ, hd, ?_, ?_⟩
  · intro j b hj hb
    rw [hauras j, if_pos hj] at hb
    cases hj' : h.m_auras j with
    | none => simp [hj'] at hb
    | some b0 =>
      simp only [hj', Option.map_some', Option.some.injEq] at hb
      rw [← hb, UpdateAura_effIndex]
      exact hidx j b0 hj hj'
  · refine ⟨(a.Update δ).1, ?_, ?_⟩
    · rw [hauras i, if_pos hi, ha, Option.map_some', UpdateAura_plain env h a δ harea hpers]
    · rw [hcount, Aura_Update_eq, if_pos hper]
      have hr : toInt32 (a.m_periodicTimer - δ) = a.m_periodicTimer - δ :=
        toInt32_of_range _ (by omega) (by omega)
      rw [hr]
      by_cases hle : a.m_periodicTimer - (δ : Int) ≤ 0
      · rw [if_pos hle]
        have hr2 : toInt32 (a.m_periodicTimer - δ + a.m_modifier.periodictime) =
            a.m_periodicTimer - δ + P := by
          rw [hpt]
          exact toInt32_of_range _ (by omega) (by omega)
        have hm : (a.m_periodicTick + 1) % 4294967296 = k + 1 := by
          rw [htick]
          exact Nat.mod_eq_of_lt (by omega)
        have hc1 : tickCount i [Event.periodicTick
            { a with
              m_periodicTimer := toInt32 (a.m_periodicTimer - δ + a.m_modifier.periodictime),
              m_periodicTick := (a.m_periodicTick + 1) % 4294967296 }] = 1 := by
          simp [tickCount, hai]
        rw [hc1]
        refine ⟨hper, harea, hpers, hpt, ?_, ?_, ?_, hm⟩
        · show 0 < toInt32 (a.m_periodicTimer - δ + a.m_modifier.periodictime)
          rw [hr2]
          omega
        · show toInt32 (a.m_periodicTimer - δ + a.m_modifier.periodictime) ≤ P
          rw [hr2]
          omega
        · show toInt32 (a.m_periodicTimer - δ + a.m_modifier.periodictime) = _
          rw [hr2, hteq]
          push_cast
          ring
      · rw [if_neg hle]
        refine ⟨hper, harea, hpers, hpt, ?_, ?_, ?_, ?_⟩
        · show 0 < a.m_periodicTimer - (δ : Int)
          omega
        · show a.m_periodicTimer - (δ : Int) ≤ P
          omega
        · show a.m_periodicTimer - (δ : Int) = _
          rw [hteq]
          simp [tickCount]
          ring
        · simpa [tickCount] using htick


theorem UpdateAll_append (c : Consts) (env : Env) (h : SpellAuraHolder) (pre : List Nat)
    (last : Nat) :
    h.UpdateAll c env (pre ++ [last]) =
      (((h.UpdateAll c env pre).1.Update c env last).1,
        (h.UpdateAll c env pre).2 ++ ((h.UpdateAll c env pre).1.Update c env last).2) := by
  induction pre generalizing h with
  | nil => simp [SpellAuraHolder.UpdateAll]
  | cons d rest ih => simp [SpellAuraHolder.UpdateAll, ih]

theorem PeriodicInv_UpdateAll (c : Consts) (env : Env) (P : Nat) (D : Int) (i : Nat) (hi : i < 3)
    (hP : (P : Int) < 2147483648) (hD : D < 2147483648) (diffs : List Nat) :
    ∀ (h : SpellAuraHolder) (e : Int) (k : Nat), 0 ≤ e → (∀ δ ∈ diffs, 0 < δ ∧ δ ≤ P) →
      e + (diffs.sum : Nat) ≤ D → PeriodicInv P D i e k h →
      PeriodicInv P D i (e + (diffs.sum : Nat)) (k + tickCount i (h.UpdateAll c env diffs).2)
        (h.UpdateAll c env diffs).1 := by
  induction diffs with
  | nil =>
    intro h e k _ _ _ hinv
    simpa [SpellAuraHolder.UpdateAll, tickCount] using hinv
  | cons d rest ih =>
    intro h e k he hall hsum hinv
    have hd := hall d (List.mem_cons_self d rest)
    have hsum' : e + (d : Int) + (rest.sum : Nat) ≤ D := by
      simp only [List.sum_cons, Nat.cast_add] at hsum
      omega
    have hstep := PeriodicInv_step c env P D i e k h d hi hP hD he hd.1 hd.2 (by omega) hinv
    have hrest := ih (h.Update c env d).1 (e + d) (k + tickCount i (h.Update c env d).2)
      (by omega) (fun δ hδ => hall δ (List.mem_cons_of_mem d hδ)) hsum' hstep
    simp only [SpellAuraHolder.UpdateAll, List.sum_cons, Nat.cast_add, tickCount_append]
    rw [← add_assoc, ← Nat.add_assoc]
    exact hrest

/-- The tick count forced by the invariant once the whole duration `N * P`
has elapsed. -/
theorem PeriodicInv_final (P N : Nat) (i k : Nat) (h : SpellAuraHolder) (hP : 0 < P)
    (hinv : PeriodicInv P ((N * P : Nat) : Int) i ((N * P : Nat) : Int) k h) : k = N := by
  obtain ⟨_, _, _, a, _, _, _, _, _, ht0, htP, hteq, _⟩ := hinv
  rw [hteq] at ht0 htP
  have h1 : N * P < P * (k + 1) := by
    have : ((N * P : Nat) : Int) < ((P * (k + 1) : Nat) : Int) := by
      push_cast
      push_cast at ht0
      omega
    exact_mod_cast this
  have h2 : P * k ≤ N * P := by
    have : ((P * k : Nat) : Int) ≤ ((N * P : Nat) : Int) := by
      push_cast
      push_cast at htP
      nlinarith
    exact_mod_cast this
  have h3 : N < k + 1 := by
    rw [Nat.mul_comm N P] at h1
    exact Nat.lt_of_mul_lt_mul_left h1
  have h4 : k ≤ N := by
    rw [Nat.mul_comm N P] at h2
    exact Nat.le_of_mul_le_mul_left h2 hP
  omega


/-! ## C2: ticks over the life of a holder -/

/-- C2, as the code has it: a plain periodic instance in slot `i` with period
`P > 0` whose timer stands at `P` with no tick fired yet (the state after
construction and after activation by a handler that leaves the timer alone),
on a holder of remaining duration `D = N * P` (`N ≥ 1`, `D` an `int32`) that
is not flagged to skip its next update and whose slots carry the instances of
their own effect index, fires exactly `N` ticks over every sequence of
`SpellAuraHolder::Update` calls whose diffs are positive, at most `P` each,
and sum to `D`; the remaining duration ends at 0, and the last update of the
sequence, the one in which the duration reaches 0, fires a tick. -/
theorem periodic_ticks_exact (c : Consts) (env : Env) (h : SpellAuraHolder) (a : Aura)
    (i P N : Nat) (diffs : List Nat) (hi : i < 3) (hP : 0 < P) (hN : 1 ≤ N)
    (hD : N * P < 2147483648) (hskip : h.m_skipUpdate = false)
    (hdur : h.m_duration = ((N * P : Nat) : Int))
    (hidx : ∀ j b, j < 3 → h.m_auras j = some b → b.m_effIndex = j)
    (ha : h.m_auras i = some a) (hper : a.m_isPeriodic = true) (harea : a.m_isAreaAura = false)
    (hpers : a.m_isPersistent = false) (hpt : a.m_modifier.periodictime = P)
    (htimer : a.m_periodicTimer = P) (htick : a.m_periodicTick = 0)
    (hdiffs : ∀ δ ∈ diffs, 0 < δ ∧ δ ≤ P) (hsum : diffs.sum = N * P) :
    tickCount i (h.UpdateAll c env diffs).2 = N ∧
      (h.UpdateAll c env diffs).1.m_duration = 0 ∧
      (∃ a', (h.UpdateAll c env diffs).1.m_auras i = some a' ∧ a'.m_periodicTick = N) ∧
      ∀ pre last, diffs = pre ++ [last] →
        0 < (h.UpdateAll c env pre).1.m_duration ∧
          tickCount i ((h.UpdateAll c env pre).1.Update c env last).2 = 1 ∧
          ((h.UpdateAll c env pre).1.Update c env last).1.m_duration = 0 := by
  have hPle : P ≤ N * P := Nat.le_mul_of_pos_left P (by omega)
  have hP' : (P : Int) < 2147483648 := by omega
  have hD' : ((N * P : Nat) : Int) < 2147483648 := by exact_mod_cast hD
  have hinv0 : PeriodicInv P ((N * P : Nat) : Int) i 0 0 h := by
    refine ⟨hskip, by simpa using hdur, hidx, a, ha, hper, harea, hpers, hpt, ?_, ?_, ?_, htick⟩
    · rw [htimer]
      exact_mod_cast hP
    · rw [htimer]
    · rw [htimer]
      simp
  have hall := PeriodicInv_UpdateAll c env P ((N * P : Nat) : Int) i hi hP' hD' diffs h 0 0
    le_rfl hdiffs (by rw [hsum]; simp) hinv0
  rw [hsum] at hall
  simp only [zero_add] at hall
  have hk := PeriodicInv_final P N i _ _ hP hall
  refine ⟨hk, ?_, ?_, ?_⟩
  · have := hall.2.1
    rw [this]
    simp
  · obtain ⟨_, _, _, a', ha', _, _, _, _, _, _, _, hta'⟩ := hall
    exact ⟨a', ha', by rw [hta', hk]⟩
  · intro pre last hpl
    have hpre : ∀ δ ∈ pre, 0 < δ ∧ δ ≤ P := fun δ hδ =>
      hdiffs δ (by rw [hpl]; exact List.mem_append_left _ hδ)
    have hlast : 0 < last ∧ last ≤ P :=
      hdiffs last (by rw [hpl]; exact List.mem_append_right _ (List.mem_singleton_self last))
    have hsum2 : pre.sum + last = N * P := by
      rw [← hsum, hpl]
      simp
    have hpreinv := PeriodicInv_UpdateAll c env P ((N * P : Nat) : Int) i hi hP' hD' pre h 0 0
      le_rfl hpre (by rw [← hsum2]; push_cast; omega) hinv0
    simp only [zero_add] at hpreinv
    have hstep := PeriodicInv_step c env P ((N * P : Nat) : Int) i (pre.sum : Nat)
      (tickCount i (h.UpdateAll c env pre).2) (h.UpdateAll c env pre).1 last hi hP' hD'
      (by positivity) hlast.1 hlast.2 (by rw [← hsum2]; push_cast; omega) hpreinv
    have hsumZ : ((pre.sum : Nat) : Int) + (last : Int) = ((N * P : Nat) : Int) := by
      exact_mod_cast hsum2
    rw [hsumZ] at hstep
    have hk2 := PeriodicInv_final P N i _ _ hP hstep
    have hdpre : (h.UpdateAll c env pre).1.m_duration = ((N * P : Nat) : Int) - (pre.sum : Nat) :=
      hpreinv.2.1
    refine ⟨?_, ?_, ?_⟩
    · rw [hdpre]
      omega
    · obtain ⟨_, _, _, b, _, _, _, _, _, hb0, hbP, hbeq, _⟩ := hpreinv
      rw [hbeq] at hb0 hbP
      have hsum3 : ((pre.sum : Nat) : Int) + (last : Int) = (N : Int) * (P : Int) := by
        rw [hsumZ]
        push_cast
        ring
      have hlast0 : (0 : Int) < last := by exact_mod_cast hlast.1
      have hlastP : (last : Int) ≤ P := by exact_mod_cast hlast.2
      have hkZ : ((tickCount i (h.UpdateAll c env pre).2 : Nat) : Int) +
          (tickCount i ((h.UpdateAll c env pre).1.Update c env last).2 : Nat) = N := by
        exact_mod_cast hk2
      rcases (show tickCount i ((h.UpdateAll c env pre).1.Update c env last).2 = 0 ∨
          tickCount i ((h.UpdateAll c env pre).1.Update c env last).2 = 1 ∨
          2 ≤ tickCount i ((h.UpdateAll c env pre).1.Update c env last).2 by omega)
        with h0 | h1 | h2
      · exfalso
        rw [h0] at hkZ
        have hT : ((tickCount i (h.UpdateAll c env pre).2 : Nat) : Int) = N := by simpa using hkZ
        rw [hT] at hbP
        have e1 : (P : Int) * ((N : Int) + 1) = (N : Int) * P + P := by ring
        rw [e1] at hbP
        linarith
      · exact h1
      · exfalso
        have h2Z : (2 : Int) ≤ (tickCount i ((h.UpdateAll c env pre).1.Update c env last).2 : Nat) := by
          exact_mod_cast h2
        have hT : ((tickCount i (h.UpdateAll c env pre).2 : Nat) : Int) + 2 ≤ N := by omega
        have hP0 : (0 : Int) < P := by exact_mod_cast hP
        have hmul : (P : Int) * (((tickCount i (h.UpdateAll c env pre).2 : Nat) : Int) + 2) ≤
            (P : Int) * N := mul_le_mul_of_nonneg_left hT (le_of_lt hP0)
        have e1 : (P : Int) * (((tickCount i (h.UpdateAll c env pre).2 : Nat) : Int) + 1) =
            (P : Int) * (((tickCount i (h.UpdateAll c env pre).2 : Nat) : Int) + 2) - P := by ring
        have e2 : (N : Int) * P = (P : Int) * N := by ring
        rw [e1] at hb0
        rw [e2] at hsum3
        linarith
    · have := hstep.2.1
      rw [this]
      simp

/-- C2 (witness): the 6000 ms holder of the 2000 ms periodic damage
definition with magnitude 10, updated with three diffs of 2000 ms, fires
exactly 3 ticks, each seeing the amount 10. -/
theorem periodic_ticks_exact_witness :
    tickCount 0 (dotHolder.UpdateAll sampleConsts (sampleEnv 6000 0) [2000, 2000, 2000]).2 = 3 ∧
      tickAmounts (dotHolder.UpdateAll sampleConsts (sampleEnv 6000 0) [2000, 2000, 2000]).2 =
        [10, 10, 10] :=
  ⟨(periodic_ticks_exact sampleConsts (sampleEnv 6000 0) dotHolder dotAura 0 2000 3
      [2000, 2000, 2000] (by decide) (by decide) (by decide) (by decide) (by decide) (by decide)
      (by
        intro j b hj hb
        have h0 : dotHolder.m_auras 0 = some dotAura := by decide
        have h1 : dotHolder.m_auras 1 = none := by decide
        have h2 : dotHolder.m_auras 2 = none := by decide
        rcases (show j = 0 ∨ j = 1 ∨ j = 2 by omega) with rfl | rfl | rfl
        · rw [h0] at hb
          cases hb
          decide
        · rw [h1] at hb
          cases hb
        · rw [h2] at hb
          cases hb)
      (by decide) (by decide) (by decide) (by decide) (by decide) (by decide) (by decide)
      (by decide) (by decide)).1,
    by set_option maxRecDepth 100000 in decide⟩

/-- C2 (counterexample to the claim as stated): the same holder (period
2000 ms, duration 6000 ms = 3 periods, freshly activated) updated with the two
positive diffs 3000, 3000, which sum to the duration, fires only 2 ticks, not
3: `Aura::Update` fires at most one tick per call. -/
theorem periodic_ticks_large_diff_counterexample :
    (∀ δ ∈ [3000, 3000], 0 < δ) ∧ [3000, 3000].sum = 3 * 2000 ∧ dotHolder.m_duration = 3 * 2000 ∧
      dotHolder.m_skipUpdate = false ∧
      (dotHolder.m_auras 0).map
          (fun a => (a.m_isPeriodic, a.m_periodicTimer, a.m_periodicTick, a.m_modifier.periodictime)) =
        some (true, 2000, 0, 2000) ∧
      tickCount 0 (dotHolder.UpdateAll sampleConsts (sampleEnv 6000 0) [3000, 3000]).2 = 2 ∧
      (dotHolder.UpdateAll sampleConsts (sampleEnv 6000 0) [3000, 3000]).1.m_duration = 0 := by
  set_option maxRecDepth 100000 in decide

/-- A timer that does not stand at the period: the drink (period 2000 ms) whose
activation by `HandleModPowerRegen` set the timer to 5000 ms, on a holder of
6000 ms, fires one tick over the diffs 2000, 2000, 2000, not three. -/
theorem periodic_ticks_regen_timer_example :
    drinkHolder.m_duration = 3 * 2000 ∧ drinkHolder.m_skipUpdate = false ∧
      (drinkHolder.m_auras 0).map
          (fun a => (a.m_isPeriodic, a.m_periodicTimer, a.m_periodicTick, a.m_modifier.periodictime)) =
        some (true, 5000, 0, 2000) ∧
      tickCount 0
        (drinkHolder.UpdateAll sampleConsts (regenEnv 6000) [2000, 2000, 2000]).2 = 1 := by
  set_option maxRecDepth 100000 in decide

/-- C1 (witness): a periodic instance with timer 2000 and period 2000 updated
with diff 2000 is re-armed to 2000, counts its first tick, and calls
`PeriodicTick` once on the updated instance. -/
theorem Aura_Update_contract_witness :
    (dotAura.Update 2000).1.m_periodicTimer = 2000 ∧ (dotAura.Update 2000).1.m_periodicTick = 1 ∧
      (dotAura.Update 2000).2 = [Event.periodicTick (dotAura.Update 2000).1] := by
  have h := (Aura_Update_contract dotAura 2000).1 (by decide) (by decide)
  refine ⟨?_, ?_, h.2⟩
  · rw [h.1]
    decide
  · rw [h.1]
    decide


/-! ## Facts about stacking -/

theorem RefreshHolder_fst (c : Consts) (env : Env) (h : SpellAuraHolder) :
    (h.RefreshHolder c env).1 = { h with m_duration := h.m_maxDuration } := rfl

theorem GetCaster_eq_some (env : Env) (h : SpellAuraHolder) (g : Nat)
    (hg : h.GetCaster env = some g) : h.m_casterGuid = g := by
  unfold SpellAuraHolder.GetCaster at hg
  split_ifs at hg with h1 h2
  · cases hg
    exact h1
  · cases hg
    rfl

/-- What `SetStackAmount` leaves behind whenever it returns. -/
theorem SetStackAmount_spec (c : Consts) (env : Env) (h : SpellAuraHolder) (t : UnitFields)
    (n : Nat) (newCaster : Option Nat) (r : SpellAuraHolder × UnitFields × List Event)
    (hr : h.SetStackAmount c env t n newCaster = some r) :
    r.1.m_stackAmount = n ∧ r.1.m_spellProto = h.m_spellProto ∧
      r.1.m_maxDuration = h.m_maxDuration ∧
      r.1.m_auras =
        (forEachAura (SetStackAmount_aura c env h.m_spellProto n n (toInt32 h.m_stackAmount))
          h.m_auras).1 ∧
      (n ≥ h.m_stackAmount → r.1.m_duration = h.m_maxDuration) ∧
      (n ≥ h.m_stackAmount → ∀ g, newCaster = some g → r.1.m_casterGuid = g) ∧
      (n < h.m_stackAmount → r.1.m_duration = h.m_duration ∧ r.1.m_casterGuid = h.m_casterGuid) ∧
      ∃ ev1, r.2.2 = ev1 ++
          (forEachAura (SetStackAmount_aura c env h.m_spellProto n n (toInt32 h.m_stackAmount))
            h.m_auras).2 ∧
        ∀ e ∈ ev1, ∃ s d, e = Event.updateAuraDuration s d := by
  have hupd : ∀ hh : SpellAuraHolder, ∀ e ∈ hh.UpdateAuraDuration c env,
      ∃ s d, e = Event.updateAuraDuration s d := by
    intro hh e he
    unfold SpellAuraHolder.UpdateAuraDuration at he
    split_ifs at he
    · simp at he
    · simp only [List.mem_singleton] at he
      exact ⟨_, _, he⟩
    · simp at he
  unfold SpellAuraHolder.SetStackAmount at hr
  by_cases hge : n ≥ h.m_stackAmount
  · by_cases hc : h.GetCaster env ≠ newCaster
    · cases newCaster with
      | none => simp [hge, hc] at hr
      | some g =>
        simp only [hge, hc, if_true, ne_eq, not_false_eq_true] at hr
        by_cases hn : n = h.m_stackAmount
        · subst hn
          simp only [SpellAuraHolder.RefreshHolder, not_true_eq_false, if_false,
            Option.some.injEq] at hr
          subst hr
          refine ⟨rfl, rfl, rfl, rfl, fun _ => rfl, fun _ g' hg' => ?_,
            fun hlt => absurd hge (by omega), _, rfl, hupd _⟩
          cases hg'
          rfl
        · simp only [SpellAuraHolder.RefreshHolder, hn, not_false_eq_true, if_true, ne_eq,
            Option.some.injEq] at hr
          subst hr
          refine ⟨rfl, rfl, rfl, rfl, fun _ => rfl, fun _ g' hg' => ?_,
            fun hlt => absurd hge (by omega), _, rfl, hupd _⟩
          cases hg'
          rfl
    · have hc' : h.GetCaster env = newCaster := not_not.mp hc
      simp only [hge, hc, if_true, if_false] at hr
      by_cases hn : n = h.m_stackAmount
      · subst hn
        simp only [SpellAuraHolder.RefreshHolder, ne_eq, not_true_eq_false, if_false,
          Option.some.injEq] at hr
        subst hr
        refine ⟨rfl, rfl, rfl, rfl, fun _ => rfl, fun _ g' hg' => ?_,
          fun hlt => absurd hge (by omega), _, rfl, hupd _⟩
        exact GetCaster_eq_some env h g' (hc'.trans hg')
      · simp only [SpellAuraHolder.RefreshHolder, hn, ne_eq, not_false_eq_true, if_true,
          Option.some.injEq] at hr
        subst hr
        refine ⟨rfl, rfl, rfl, rfl, fun _ => rfl, fun _ g' hg' => ?_,
          fun hlt => absurd hge (by omega), _, rfl, hupd _⟩
        exact GetCaster_eq_some env h g' (hc'.trans hg')
  · have hn : n ≠ h.m_stackAmount := by omega
    simp only [hge, if_false, hn, ne_eq, not_false_eq_true, if_true, Option.some.injEq] at hr
    subst hr
    exact ⟨rfl, rfl, rfl, rfl, fun h' => absurd h' hge, fun h' => absurd h' hge,
      fun _ => ⟨rfl, rfl⟩, [], rfl, by simp⟩

theorem SetStackAmount_isSome (c : Consts) (env : Env) (h : SpellAuraHolder) (t : UnitFields)
    (n g : Nat) : ∃ r, h.SetStackAmount c env t n (some g) = some r := by
  unfold SpellAuraHolder.SetStackAmount
  by_cases hge : n ≥ h.m_stackAmount
  · by_cases hc : h.GetCaster env ≠ some g
    · simp [hge, hc]
    · simp [hge, hc]
  · simp [hge]


theorem ApplyModifier_events (c : Consts) (env : Env) (a : Aura) (apply real : Bool) :
    (a.ApplyModifier c env apply real).2 =
      if a.m_modifier.m_auraname < c.TOTAL_AURAS then [Event.applyModifier a apply real]
      else [] := by
  unfold Aura.ApplyModifier
  split_ifs <;> rfl

/-- The loop body of `SetStackAmount` written out. -/
theorem SetStackAmount_aura_eq (c : Consts) (env : Env) (proto : SpellEntry) (m n : Nat)
    (old : Int) (aur : Aura) :
    SetStackAmount_aura c env proto m n old aur =
      if aur.m_modifier.m_baseAmount = 0 ∨
          toInt32 ((m : Int) * aur.m_modifier.m_baseAmount) ≠ aur.m_modifier.m_amount then
        let a1 := { aur with m_removeMode := AURA_REMOVE_BY_GAINED_STACK }
        let r1 :=
          if env.IsAuraRemoveOnStacking proto a1.m_effIndex then a1.ApplyModifier c env false true
          else (a1, [])
        let a4 := { r1.1 with m_modifier := { r1.1.m_modifier with
          m_amount := toInt32 ((m : Int) * aur.m_modifier.m_baseAmount),
          m_recentAmount := toInt32 (aur.m_modifier.m_baseAmount * ((n : Int) - old)) } }
        ((a4.ApplyModifier c env true true).1, r1.2 ++ (a4.ApplyModifier c env true true).2)
      else (aur, []) := rfl

theorem ApplyModifier_mem (c : Consts) (env : Env) (a : Aura) (apply real : Bool) (e : Event)
    (he : e ∈ (a.ApplyModifier c env apply real).2) : e = Event.applyModifier a apply real := by
  rw [ApplyModifier_events] at he
  split_ifs at he
  · simpa using he
  · simp at he

theorem SetStackAmount_aura_real (c : Consts) (env : Env) (proto : SpellEntry) (m n : Nat)
    (old : Int) (aur : Aura) :
    ∀ e ∈ (SetStackAmount_aura c env proto m n old aur).2,
      ∃ a apply, e = Event.applyModifier a apply true := by
  intro e he
  rw [SetStackAmount_aura_eq] at he
  by_cases hcond : aur.m_modifier.m_baseAmount = 0 ∨
      toInt32 ((m : Int) * aur.m_modifier.m_baseAmount) ≠ aur.m_modifier.m_amount
  · rw [if_pos hcond] at he
    dsimp only at he
    rw [List.mem_append] at he
    rcases he with he | he
    · by_cases hrem : env.IsAuraRemoveOnStacking proto aur.m_effIndex = true
      · rw [if_pos hrem] at he
        exact ⟨_, _, ApplyModifier_mem c env _ _ _ e he⟩
      · rw [if_neg hrem] at he
        simp at he
    · exact ⟨_, _, ApplyModifier_mem c env _ _ _ e he⟩
  · rw [if_neg hcond] at he
    simp at he


theorem toUInt32_of_range (z : Int) (h1 : 0 ≤ z) (h2 : z < 4294967296) :
    toUInt32 z = z.toNat := by
  unfold toUInt32
  rw [Int.emod_eq_of_lt h1 h2]

/-- `ModStackAmount` written out for values that fit their C++ types. -/
theorem ModStackAmount_eq (c : Consts) (env : Env) (h : SpellAuraHolder) (t : UnitFields)
    (num : Int) (newCaster : Option Nat)
    (hC : (h.m_spellProto.StackAmount : Int) < 2147483648)
    (hn1 : -2147483648 ≤ (h.m_stackAmount : Int) + num)
    (hn2 : (h.m_stackAmount : Int) + num < 2147483648) :
    h.ModStackAmount c env t num newCaster =
      if h.m_spellProto.StackAmount = 0 then some (true, h, t, [])
      else if (h.m_stackAmount : Int) + num ≤ 0 then
        some (true, { h with m_stackAmount := 0 }, t, [])
      else
        (h.SetStackAmount c env t
          (min ((h.m_stackAmount : Int) + num).toNat h.m_spellProto.StackAmount) newCaster).map
            fun r => (false, r) := by
  unfold SpellAuraHolder.ModStackAmount
  have e1 : toInt32 ((h.m_stackAmount : Int) + num) = (h.m_stackAmount : Int) + num :=
    toInt32_of_range _ hn1 hn2
  have e2 : toInt32 (h.m_spellProto.StackAmount : Int) = h.m_spellProto.StackAmount :=
    toInt32_of_range _ (by omega) hC
  by_cases h0 : h.m_spellProto.StackAmount = 0
  · simp [h0]
  · rw [if_neg h0, if_neg h0]
    dsimp only
    rw [e1, e2]
    by_cases hgt : (h.m_stackAmount : Int) + num > h.m_spellProto.StackAmount
    · rw [if_pos hgt, if_neg (by omega)]
      have e3 : toUInt32 (h.m_spellProto.StackAmount : Int) = h.m_spellProto.StackAmount := by
        rw [toUInt32_of_range _ (by omega) (by omega)]
        simp
      have e4 : min ((h.m_stackAmount : Int) + num).toNat h.m_spellProto.StackAmount =
          h.m_spellProto.StackAmount := by omega
      rw [e3, e4]
    · rw [if_neg hgt]
      by_cases hle : (h.m_stackAmount : Int) + num ≤ 0
      · rw [if_pos hle, if_pos hle]
      · rw [if_neg hle, if_neg hle]
        have e3 : toUInt32 ((h.m_stackAmount : Int) + num) = ((h.m_stackAmount : Int) + num).toNat :=
          toUInt32_of_range _ (by omega) (by omega)
        have e4 : min ((h.m_stackAmount : Int) + num).toNat h.m_spellProto.StackAmount =
            ((h.m_stackAmount : Int) + num).toNat := by omega
        rw [e3, e4]

/-- C4, as the code has it: for values that fit `int32`,
`ModStackAmount(delta, newCaster)` on a holder with count `s` and cap `C`
returns "remove" without touching anything when `C = 0` (the count stays
`s`); for `C ≥ 1` it returns "remove" with the count set to 0 and no
`SetStackAmount` call when `s + delta ≤ 0`, and otherwise returns "keep" with
exactly the result of `SetStackAmount(min(s + delta, C), newCaster)`, whose
count is that value. -/
theorem ModStackAmount_contract (c : Consts) (env : Env) (h : SpellAuraHolder) (t : UnitFields)
    (num : Int) (newCaster : Option Nat)
    (hC : (h.m_spellProto.StackAmount : Int) < 2147483648)
    (hn1 : -2147483648 ≤ (h.m_stackAmount : Int) + num)
    (hn2 : (h.m_stackAmount : Int) + num < 2147483648) :
    (h.m_spellProto.StackAmount = 0 →
        h.ModStackAmount c env t num newCaster = some (true, h, t, [])) ∧
      (1 ≤ h.m_spellProto.StackAmount → (h.m_stackAmount : Int) + num ≤ 0 →
        h.ModStackAmount c env t num newCaster =
          some (true, { h with m_stackAmount := 0 }, t, [])) ∧
      (1 ≤ h.m_spellProto.StackAmount → 0 < (h.m_stackAmount : Int) + num →
        h.ModStackAmount c env t num newCaster =
            (h.SetStackAmount c env t
              (min ((h.m_stackAmount : Int) + num).toNat h.m_spellProto.StackAmount)
              newCaster).map (fun r => (false, r)) ∧
          ∀ r, h.ModStackAmount c env t num newCaster = some r →
            r.1 = false ∧
              (r.2.1.m_stackAmount : Int) =
                max 0 (min ((h.m_stackAmount : Int) + num) h.m_spellProto.StackAmount) ∧
              r.2.1.m_stackAmount ≠ 0) := by
  have heq := ModStackAmount_eq c env h t num newCaster hC hn1 hn2
  refine ⟨?_, ?_, ?_⟩
  · intro h0
    rw [heq, if_pos h0]
  · intro h1 hle
    rw [heq, if_neg (by omega), if_pos hle]
  · intro h1 hpos
    rw [heq, if_neg (by omega), if_neg (by omega)]
    refine ⟨rfl, ?_⟩
    intro r hr
    cases hset : h.SetStackAmount c env t
        (min ((h.m_stackAmount : Int) + num).toNat h.m_spellProto.StackAmount) newCaster with
    | none => simp [hset] at hr
    | some r0 =>
      simp only [hset, Option.map_some', Option.some.injEq] at hr
      have hcnt := (SetStackAmount_spec c env h t _ newCaster r0 hset).1
      rw [← hr]
      refine ⟨rfl, ?_, ?_⟩
      · show (r0.1.m_stackAmount : Int) = _
        rw [hcnt]
        omega
      · show r0.1.m_stackAmount ≠ 0
        rw [hcnt]
        omega

/-- C5, as the code has it: the holder `CreateSpellAuraHolder` returns has
stack count 1, except for the spell ids 24575, 24659, 24662 and 26464, whose
holders start at the definition's stack cap; all its effect slots are null
(they are filled by `AddAura` afterwards), whatever effects the definition
declares. -/
theorem CreateSpellAuraHolder_initial (c : Consts) (env : Env) (spellproto : SpellEntry)
    (target : Nat) (caster : Option Nat) :
    (CreateSpellAuraHolder c env spellproto target caster).m_stackAmount =
        (if spellproto.Id = 24575 ∨ spellproto.Id = 24659 ∨ spellproto.Id = 24662 ∨
            spellproto.Id = 26464 then spellproto.StackAmount else 1) ∧
      ∀ i, (CreateSpellAuraHolder c env spellproto target caster).m_auras i = none :=
  ⟨rfl, fun _ => rfl⟩

/-- C6, as the code has it: on a holder without the skip flag whose remaining
duration `d` is a positive `int32`, `Update(diff)` leaves `max(0, d - diff)`,
which is neither negative nor greater than `d`, for every diff up to
`d + 2^31`; for every diff at all the result is not negative; a holder with
`d ≤ 0` keeps its duration. -/
theorem Update_duration_clamped (c : Consts) (env : Env) (h : SpellAuraHolder) (diff : Nat)
    (hs : h.m_skipUpdate = false) (hd : h.m_duration < 2147483648) :
    (0 < h.m_duration → (diff : Int) ≤ h.m_duration + 2147483648 →
        (h.Update c env diff).1.m_duration = max 0 (h.m_duration - diff) ∧
          0 ≤ (h.Update c env diff).1.m_duration ∧
          (h.Update c env diff).1.m_duration ≤ h.m_duration) ∧
      (0 < h.m_duration → 0 ≤ (h.Update c env diff).1.m_duration) ∧
      (h.m_duration ≤ 0 → (h.Update c env diff).1.m_duration = h.m_duration) := by
  rw [Update_duration c env h diff hs]
  refine ⟨?_, ?_, ?_⟩
  · intro hpos hdiff
    have hr : toInt32 (h.m_duration - diff) = h.m_duration - diff :=
      toInt32_of_range _ (by omega) (by omega)
    rw [if_pos hpos, hr]
    split_ifs <;> omega
  · intro hpos
    rw [if_pos hpos]
    split_ifs <;> omega
  · intro hle
    rw [if_neg (by omega)]


/-- C8, as the code has it: in `SetStackAmount` every effect handler call is
real (`isReal = true`); the calls are, after the duration packet of the
refresh, those of slot 0, 1, 2 in this order; a slot whose base amount is not
0 and whose product `baseAmount * newCount` equals its amount is left untouched
without any call; any other slot (base amount 0, or amount changing) gets remove
mode `GAINED_STACK`, a remove call `(false, true)` only if
`IsAuraRemoveOnStacking` holds for its effect, then its new amount, then the
apply call `(true, true)`. -/
theorem SetStackAmount_reapply (c : Consts) (env : Env) (h : SpellAuraHolder) (t : UnitFields)
    (n : Nat) (newCaster : Option Nat) (r : SpellAuraHolder × UnitFields × List Event)
    (hr : h.SetStackAmount c env t n newCaster = some r) :
    (∀ e ∈ r.2.2, ∀ a apply real, e = Event.applyModifier a apply real → real = true) ∧
      (∃ ev1, (∀ e ∈ ev1, ∃ s d, e = Event.updateAuraDuration s d) ∧
        r.2.2 = ev1 ++
          ((h.m_auras 0).elim [] fun a =>
            (SetStackAmount_aura c env h.m_spellProto n n (toInt32 h.m_stackAmount) a).2) ++
          ((h.m_auras 1).elim [] fun a =>
            (SetStackAmount_aura c env h.m_spellProto n n (toInt32 h.m_stackAmount) a).2) ++
          ((h.m_auras 2).elim [] fun a =>
            (SetStackAmount_aura c env h.m_spellProto n n (toInt32 h.m_stackAmount) a).2)) ∧
      (∀ i, i < 3 → r.1.m_auras i = (h.m_auras i).map fun a =>
        (SetStackAmount_aura c env h.m_spellProto n n (toInt32 h.m_stackAmount) a).1) ∧
      ∀ aur : Aura,
        (aur.m_modifier.m_baseAmount ≠ 0 →
          toInt32 ((n : Int) * aur.m_modifier.m_baseAmount) = aur.m_modifier.m_amount →
          SetStackAmount_aura c env h.m_spellProto n n (toInt32 h.m_stackAmount) aur =
            (aur, [])) ∧
        ((aur.m_modifier.m_baseAmount = 0 ∨
            toInt32 ((n : Int) * aur.m_modifier.m_baseAmount) ≠ aur.m_modifier.m_amount) →
          aur.m_modifier.m_auraname < c.TOTAL_AURAS →
          (env.IsAuraRemoveOnStacking h.m_spellProto aur.m_effIndex = false →
            (SetStackAmount_aura c env h.m_spellProto n n (toInt32 h.m_stackAmount) aur).2 =
              [Event.applyModifier
                { aur with
                  m_removeMode := AURA_REMOVE_BY_GAINED_STACK,
                  m_modifier := { aur.m_modifier with
                    m_amount := toInt32 ((n : Int) * aur.m_modifier.m_baseAmount),
                    m_recentAmount :=
                      toInt32 (aur.m_modifier.m_baseAmount *
                        ((n : Int) - toInt32 h.m_stackAmount)) } } true true]) ∧
          (env.IsAuraRemoveOnStacking h.m_spellProto aur.m_effIndex = true →
            ∃ rest, (SetStackAmount_aura c env h.m_spellProto n n
                (toInt32 h.m_stackAmount) aur).2 =
              Event.applyModifier { aur with m_removeMode := AURA_REMOVE_BY_GAINED_STACK }
                false true :: rest ∧
              ∀ e ∈ rest, ∃ a, e = Event.applyModifier a true true ∧
                a.m_modifier.m_amount = toInt32 ((n : Int) * aur.m_modifier.m_baseAmount))) := by
  obtain ⟨_, _, _, hauras, _, _, _, ev1, hev, hev1⟩ :=
    SetStackAmount_spec c env h t n newCaster r hr
  refine ⟨?_, ⟨ev1, hev1, ?_⟩, ?_, ?_⟩
  · intro e he a apply real hea
    rw [hev, List.mem_append] at he
    rcases he with he | he
    · obtain ⟨s, d, hsd⟩ := hev1 e he
      rw [hsd] at hea
      cases hea
    · rw [forEachAura_snd] at he
      have hslot : ∀ j, e ∈ ((h.m_auras j).elim [] fun a =>
          (SetStackAmount_aura c env h.m_spellProto n n (toInt32 h.m_stackAmount) a).2) →
          real = true := by
        intro j hj
        cases h0 : h.m_auras j with
        | none => simp [h0] at hj
        | some a0 =>
          rw [h0] at hj
          obtain ⟨a1, ap1, h1⟩ := SetStackAmount_aura_real c env _ _ _ _ a0 e hj
          rw [h1] at hea
          cases hea
          rfl
      simp only [List.mem_append] at he
      rcases he with (he | he) | he
      · exact hslot 0 he
      · exact hslot 1 he
      · exact hslot 2 he
  · rw [hev, forEachAura_snd]
    simp only [List.append_assoc]
  · intro i hi
    rw [hauras, forEachAura_fst, if_pos hi]
  · intro aur
    refine ⟨?_, ?_⟩
    · intro hb heq
      rw [SetStackAmount_aura_eq, if_neg]
      push_neg
      exact ⟨hb, heq⟩
    · intro hcond hlt
      refine ⟨?_, ?_⟩
      · intro hrem
        rw [SetStackAmount_aura_eq, if_pos hcond]
        simp only [hrem, Bool.false_eq_true, if_false, List.nil_append, ApplyModifier_events]
        rw [if_pos hlt]
      · intro hrem
        rw [SetStackAmount_aura_eq, if_pos hcond]
        simp only [hrem, if_true, ApplyModifier_events]
        rw [if_pos hlt]
        refine ⟨_, rfl, ?_⟩
        intro e he
        split_ifs at he
        · simp only [List.append_eq, List.nil_append, List.mem_singleton] at he
          exact ⟨_, he, rfl⟩
        · simp at he


/-! ## Concrete runs for C3 .. C8 -/

/-- C4 (witness): one more stack on the stat buff holder. -/
theorem ModStackAmount_contract_witness :
    statHolder.ModStackAmount sampleConsts (sampleEnv 6000 0) noAuraFields 1 (some 9) =
      (statHolder.SetStackAmount sampleConsts (sampleEnv 6000 0) noAuraFields
        (min ((statHolder.m_stackAmount : Int) + 1).toNat statHolder.m_spellProto.StackAmount)
        (some 9)).map (fun r => (false, r)) :=
  ((ModStackAmount_contract sampleConsts (sampleEnv 6000 0) statHolder noAuraFields 1 (some 9)
    (by decide) (by decide) (by decide)).2.2 (by decide) (by decide)).1

/-- C4 (counterexample to the claim as stated): on the holder of a definition
with stack cap 0 and stack count 1, `ModStackAmount(+1)` returns "remove" but
the count stays 1; it is not clamped into `[0, 0]`. -/
theorem ModStackAmount_zero_cap_counterexample :
    dotHolder.m_spellProto.StackAmount = 0 ∧ dotHolder.m_stackAmount = 1 ∧
      (dotHolder.ModStackAmount sampleConsts (sampleEnv 6000 0) noAuraFields 1 (some 9)).map
        (fun r => (r.1, r.2.1.m_stackAmount)) = some (true, 1) := by
  decide

/-- C5 (counterexample to the claim as stated): the holder created for
Brittle Armor (id 24575, stack cap 5, an aura effect at index 0) has stack
count 5, not 1, and its slot 0 is null; the holder created for the periodic
damage definition has stack count 1 and its slot 0 is null although the
definition declares an aura effect at index 0. -/
theorem CreateSpellAuraHolder_counterexample :
    brittleArmor.EffectApplyAuraName 0 ≠ 0 ∧
      (CreateSpellAuraHolder sampleConsts (sampleEnv 6000 0) brittleArmor 7 (some 9)).m_stackAmount
        = 5 ∧
      (CreateSpellAuraHolder sampleConsts (sampleEnv 6000 0) brittleArmor 7 (some 9)).m_auras 0
        = none ∧
      dotSpell.EffectApplyAuraName 0 ≠ 0 ∧
      (CreateSpellAuraHolder sampleConsts (sampleEnv 6000 0) dotSpell 7 (some 9)).m_auras 0
        = none := by
  decide

/-- C6 (witness): 2000 ms off a remaining duration of 6000 ms. -/
theorem Update_duration_clamped_witness :
    (dotHolder.Update sampleConsts (sampleEnv 6000 0) 2000).1.m_duration =
        max 0 (dotHolder.m_duration - (2000 : Nat)) ∧
      0 ≤ (dotHolder.Update sampleConsts (sampleEnv 6000 0) 2000).1.m_duration ∧
      (dotHolder.Update sampleConsts (sampleEnv 6000 0) 2000).1.m_duration ≤
        dotHolder.m_duration :=
  (Update_duration_clamped sampleConsts (sampleEnv 6000 0) dotHolder 2000 (by decide)
    (by decide)).1 (by decide) (by decide)

/-- C6 (counterexample to the claim as stated): with remaining duration 1 and
the 32-bit diff 4294967295 the `int32 -= uint32` wraps around to 2, so the
duration after `Update` is 2: greater than before, and not max(0, d - diff) = 0. -/
theorem Update_duration_wrap_counterexample :
    ({ dotHolder with m_duration := 1 } : SpellAuraHolder).m_skipUpdate = false ∧
      (4294967295 : Nat) < 4294967296 ∧
      (({ dotHolder with m_duration := 1 } : SpellAuraHolder).Update sampleConsts
        (sampleEnv 6000 0) 4294967295).1.m_duration = 2 ∧
      max (0 : Int) (1 - (4294967295 : Nat)) = 0 := by
  decide

theorem statHolderTwice_eq :
    statHolder.SetStackAmount sampleConsts (sampleEnv 6000 0) noAuraFields 2 (some 9) =
      some statHolderTwice := rfl

/-- C8 (witness): every handler call of `SetStackAmount(2)` on the stat buff
holder is real. -/
theorem SetStackAmount_reapply_witness :
    (∀ e ∈ statHolderTwice.2.2, ∀ a apply real,
      e = Event.applyModifier a apply real → real = true) ∧
      applyFlags statHolderTwice.2.2 = [(false, true), (true, true)] :=
  ⟨(SetStackAmount_reapply sampleConsts (sampleEnv 6000 0) statHolder noAuraFields 2 (some 9)
      statHolderTwice statHolderTwice_eq).1, by decide⟩

/-- C8 (counterexample to the claim as stated): raising the stat buff holder
(base amount 2) from 1 to 2 stacks calls the handler with `(false, true)` and
`(true, true)`: both calls are real, not virtual; and on the holder with base
amount 0 the same stack change calls the handlers although the amount stays
0. -/
theorem SetStackAmount_real_counterexample :
    (statHolder.SetStackAmount sampleConsts (sampleEnv 6000 0) noAuraFields 2 (some 9)).map
        (fun r => applyFlags r.2.2) = some [(false, true), (true, true)] ∧
      (zeroStatHolder.m_auras 0).map (fun a => a.m_modifier.m_amount) = some 0 ∧
      (zeroStatHolder.SetStackAmount sampleConsts (sampleEnv 6000 0) noAuraFields 2 (some 9)).map
        (fun r => (applyFlags r.2.2, (r.1.m_auras 0).map fun a => a.m_modifier.m_amount)) =
        some ([(false, true), (true, true)], some 0) := by
  decide


/-! ## Bit groups of a `uint32` word -/

theorem testBit_15 (i : Nat) : (15 : Nat).testBit i = decide (i < 4) :=
  Nat.testBit_two_pow_sub_one 4 i

theorem testBit_not32 (x i : Nat) : (not32 x).testBit i = (decide (i < 32) && !x.testBit i) := by
  unfold not32
  rw [Nat.testBit_xor, show (4294967295 : Nat) = 2 ^ 32 - 1 by norm_num,
    Nat.testBit_two_pow_sub_one, show (4294967296 : Nat) = 2 ^ 32 by norm_num,
    Nat.testBit_mod_two_pow]
  by_cases h : i < 32 <;> simp [h]

theorem testBit_shl32 (x s i : Nat) :
    (shl32 x s).testBit i = (decide (i < 32) && (decide (s ≤ i) && x.testBit (i - s))) := by
  unfold shl32
  rw [show (4294967296 : Nat) = 2 ^ 32 by norm_num, Nat.testBit_mod_two_pow,
    Nat.testBit_shiftLeft]

theorem testBit_of_lt_16 (f j : Nat) (hf : f < 16) (hj : 4 ≤ j) : f.testBit j = false := by
  apply Nat.testBit_lt_two_pow
  calc f < 2 ^ 4 := by simpa using hf
    _ ≤ 2 ^ j := Nat.pow_le_pow_right (by norm_num) hj

theorem flagGroup_write_same (val f k : Nat) (hk : k < 8) :
    (((val &&& not32 (shl32 15 (4 * k))) ||| shl32 f (4 * k)) >>> (4 * k)) &&& 15 = f &&& 15 := by
  apply Nat.eq_of_testBit_eq
  intro i
  simp only [Nat.testBit_and, Nat.testBit_or, Nat.testBit_shiftRight, testBit_not32,
    testBit_shl32, testBit_15]
  by_cases hi : i < 4
  · have h1 : 4 * k + i < 32 := by omega
    have h2 : 4 * k ≤ 4 * k + i := by omega
    have h3 : 4 * k + i - 4 * k = i := by omega
    simp [hi, h1, h2, h3]
  · simp [hi]

theorem flagGroup_write_other (val f k k' : Nat) (hk' : k' < 8) (hne : k ≠ k') (hf : f < 16) :
    (((val &&& not32 (shl32 15 (4 * k))) ||| shl32 f (4 * k)) >>> (4 * k')) &&& 15 =
      (val >>> (4 * k')) &&& 15 := by
  apply Nat.eq_of_testBit_eq
  intro i
  simp only [Nat.testBit_and, Nat.testBit_or, Nat.testBit_shiftRight, testBit_not32,
    testBit_shl32, testBit_15]
  by_cases hi : i < 4
  · have h1 : 4 * k' + i < 32 := by omega
    by_cases hle : 4 * k ≤ 4 * k' + i
    · have h4 : 4 ≤ 4 * k' + i - 4 * k := by omega
      have h5 : ¬ (4 * k' + i - 4 * k < 4) := by omega
      simp [hi, h1, hle, h5, testBit_of_lt_16 f _ hf h4]
    · simp [hi, h1, hle]
  · simp [hi]

theorem slot_shift (slot : Nat) : (slot &&& 7) <<< 2 = 4 * (slot % 8) := by
  have h := Nat.and_pow_two_sub_one_eq_mod slot 3
  norm_num at h
  rw [h, Nat.shiftLeft_eq]
  omega

theorem slot_index (slot : Nat) : slot >>> 3 = slot / 8 := by
  rw [Nat.shiftRight_eq_div_pow]

/-! ## Facts about the visibility slot -/

/-- The word `SetAuraFlag` writes: the old word with the group of the slot
replaced by a flags value below 16, which is 0 when the flags are cleared. -/
theorem SetAuraFlag_word (c : Consts) (hwf : c.WellFormed) (h : SpellAuraHolder)
    (t : UnitFields) (slot : Nat) (add : Bool) :
    ∃ f, f < 16 ∧ (add = false → f = 0) ∧
      (h.SetAuraFlag c t slot add).UNIT_FIELD_AURAFLAGS =
        Function.update t.UNIT_FIELD_AURAFLAGS (slot / 8)
          ((t.UNIT_FIELD_AURAFLAGS (slot / 8) &&& not32 (shl32 15 (4 * (slot % 8)))) |||
            shl32 f (4 * (slot % 8))) := by
  obtain ⟨_, _, hmask, hc, h3, h4⟩ := hwf
  have hz : ∀ x b, x ||| shl32 0 b = x := by
    intro x b
    simp [shl32]
  unfold SpellAuraHolder.SetAuraFlag
  simp only [slot_shift, slot_index, hmask]
  cases add with
  | false =>
    refine ⟨0, by norm_num, fun _ => rfl, ?_⟩
    simp [hz]
  | true =>
    by_cases hp : h.IsPositive = true
    · by_cases hcc : h.m_spellProto.HasAttribute .SPELL_ATTR_CANT_CANCEL = true
      · refine ⟨0 ||| c.AFLAG_UNK3, ?_, by simp, ?_⟩
        · exact Nat.or_lt_two_pow (n := 4) (by norm_num) (by norm_num; omega)
        · simp [hp, hcc]
      · refine ⟨c.AFLAG_CANCELABLE ||| c.AFLAG_UNK3, ?_, by simp, ?_⟩
        · exact Nat.or_lt_two_pow (n := 4) (by norm_num; omega) (by norm_num; omega)
        · simp [hp, hcc]
    · refine ⟨c.AFLAG_UNK4, by omega, by simp, ?_⟩
      simp [hp]

theorem auraFlagGroup_update_same (t : UnitFields) (w : Nat → Nat) (slot f : Nat)
    (hw : w = Function.update t.UNIT_FIELD_AURAFLAGS (slot / 8)
      ((t.UNIT_FIELD_AURAFLAGS (slot / 8) &&& not32 (shl32 15 (4 * (slot % 8)))) |||
        shl32 f (4 * (slot % 8)))) (t' : UnitFields) (ht' : t'.UNIT_FIELD_AURAFLAGS = w) :
    auraFlagGroup t' slot = f &&& 15 := by
  unfold auraFlagGroup
  rw [ht', hw, slot_shift, slot_index, Function.update_same]
  exact flagGroup_write_same _ _ _ (Nat.mod_lt _ (by norm_num))

theorem auraFlagGroup_update_other (t : UnitFields) (w : Nat → Nat) (slot f j : Nat)
    (hf : f < 16) (hj : j ≠ slot)
    (hw : w = Function.update t.UNIT_FIELD_AURAFLAGS (slot / 8)
      ((t.UNIT_FIELD_AURAFLAGS (slot / 8) &&& not32 (shl32 15 (4 * (slot % 8)))) |||
        shl32 f (4 * (slot % 8)))) (t' : UnitFields) (ht' : t'.UNIT_FIELD_AURAFLAGS = w) :
    auraFlagGroup t' j = auraFlagGroup t j := by
  unfold auraFlagGroup
  rw [ht', hw, slot_shift, slot_index]
  by_cases hidx : j / 8 = slot / 8
  · rw [hidx, Function.update_same]
    exact flagGroup_write_other _ _ _ _ (Nat.mod_lt _ (by norm_num)) (by omega) hf
  · rw [Function.update_noteq hidx]


theorem findFreeSlot_spec (t : UnitFields) (n : Nat) :
    ∀ start,
      (findFreeSlot t start n = NULL_AURA_SLOT ∧
          ∀ j, start ≤ j → j < start + n → t.UNIT_FIELD_AURA j ≠ 0) ∨
        (start ≤ findFreeSlot t start n ∧ findFreeSlot t start n < start + n ∧
          t.UNIT_FIELD_AURA (findFreeSlot t start n) = 0 ∧
          ∀ j, start ≤ j → j < findFreeSlot t start n → t.UNIT_FIELD_AURA j ≠ 0) := by
  induction n with
  | zero =>
    intro start
    left
    exact ⟨rfl, fun j h1 h2 => absurd h2 (by omega)⟩
  | succ n ih =>
    intro start
    unfold findFreeSlot
    by_cases h0 : t.UNIT_FIELD_AURA start = 0
    · rw [if_pos h0]
      right
      exact ⟨le_rfl, by omega, h0, fun j h1 h2 => absurd h2 (by omega)⟩
    · rw [if_neg h0]
      rcases ih (start + 1) with ⟨e, hall⟩ | ⟨h1, h2, h3, h4⟩
      · left
        refine ⟨e, fun j hj1 hj2 => ?_⟩
        rcases Nat.eq_or_lt_of_le hj1 with rfl | hlt
        · exact h0
        · exact hall j hlt (by omega)
      · right
        refine ⟨by omega, by omega, h3, fun j hj1 hj2 => ?_⟩
        rcases Nat.eq_or_lt_of_le hj1 with rfl | hlt
        · exact h0
        · exact h4 j hlt hj2

theorem findFreeSlot_congr (t t' : UnitFields) (he : t'.UNIT_FIELD_AURA = t.UNIT_FIELD_AURA)
    (n : Nat) : ∀ start, findFreeSlot t' start n = findFreeSlot t start n := by
  induction n with
  | zero => intro start; rfl
  | succ n ih =>
    intro start
    unfold findFreeSlot
    rw [he, ih]

theorem chosenSlot_congr (c : Consts) (env : Env) (h : SpellAuraHolder) (t t' : UnitFields)
    (he : t'.UNIT_FIELD_AURA = t.UNIT_FIELD_AURA) : h.chosenSlot c env t' = h.chosenSlot c env t := by
  unfold SpellAuraHolder.chosenSlot
  rw [findFreeSlot_congr t t' he, findFreeSlot_congr t t' he]


theorem writeFoundSlot_fields (c : Consts) (env : Env) (h : SpellAuraHolder) (t : UnitFields)
    (slot : Nat) (caster : Option Nat) :
    (h.writeFoundSlot c env t slot caster).UNIT_FIELD_AURA =
        Function.update t.UNIT_FIELD_AURA slot h.m_spellProto.Id ∧
      (h.writeFoundSlot c env t slot caster).UNIT_FIELD_AURAFLAGS =
        (h.SetAuraFlag c t slot true).UNIT_FIELD_AURAFLAGS := by
  unfold SpellAuraHolder.writeFoundSlot SpellAuraHolder.UpdateAuraApplication
  dsimp only
  split_ifs <;> exact ⟨rfl, rfl⟩

theorem AddSpellAuraHolder_fields (c : Consts) (env : Env) (h : SpellAuraHolder)
    (t : UnitFields) (hid : h.m_spellProto.Id ≠ 0) :
    ∃ sit : Bool,
      (h._AddSpellAuraHolder c env t).2.1 =
        (if sit then
          { (if h.chosenSlot c env t < c.MAX_AURAS then
              SpellAuraHolder.writeFoundSlot c env { h with m_auraSlot := h.chosenSlot c env t } t
                (h.chosenSlot c env t) (h.GetCaster env)
            else t) with IsSitState := true }
        else
          (if h.chosenSlot c env t < c.MAX_AURAS then
              SpellAuraHolder.writeFoundSlot c env { h with m_auraSlot := h.chosenSlot c env t } t
                (h.chosenSlot c env t) (h.GetCaster env)
            else t)) := by
  unfold SpellAuraHolder._AddSpellAuraHolder
  rw [if_neg hid]
  exact ⟨_, rfl⟩

/-- What `_AddSpellAuraHolder` does to the holder and to the aura fields of
the target, for a holder with a spell id. -/
theorem AddSpellAuraHolder_spec (c : Consts) (env : Env) (h : SpellAuraHolder) (t : UnitFields)
    (hid : h.m_spellProto.Id ≠ 0) :
    (h._AddSpellAuraHolder c env t).1 = { h with m_auraSlot := h.chosenSlot c env t } ∧
      (¬ h.chosenSlot c env t < c.MAX_AURAS →
        (h._AddSpellAuraHolder c env t).2.1.UNIT_FIELD_AURA = t.UNIT_FIELD_AURA ∧
          (h._AddSpellAuraHolder c env t).2.1.UNIT_FIELD_AURAFLAGS = t.UNIT_FIELD_AURAFLAGS ∧
          (h._AddSpellAuraHolder c env t).2.1.UNIT_FIELD_AURALEVELS = t.UNIT_FIELD_AURALEVELS ∧
          (h._AddSpellAuraHolder c env t).2.1.UNIT_FIELD_AURAAPPLICATIONS =
            t.UNIT_FIELD_AURAAPPLICATIONS) ∧
      (h.chosenSlot c env t < c.MAX_AURAS →
        (h._AddSpellAuraHolder c env t).2.1.UNIT_FIELD_AURA =
            Function.update t.UNIT_FIELD_AURA (h.chosenSlot c env t) h.m_spellProto.Id ∧
          (h._AddSpellAuraHolder c env t).2.1.UNIT_FIELD_AURAFLAGS =
            (SpellAuraHolder.SetAuraFlag c { h with m_auraSlot := h.chosenSlot c env t } t
              (h.chosenSlot c env t) true).UNIT_FIELD_AURAFLAGS) := by
  obtain ⟨sit, hf⟩ := AddSpellAuraHolder_fields c env h t hid
  refine ⟨?_, ?_, ?_⟩
  · unfold SpellAuraHolder._AddSpellAuraHolder
    rw [if_neg hid]
    rfl
  · intro hs
    rw [hf, if_neg hs]
    cases sit <;> exact ⟨rfl, rfl, rfl, rfl⟩
  · intro hs
    have hw := writeFoundSlot_fields c env { h with m_auraSlot := h.chosenSlot c env t } t
      (h.chosenSlot c env t) (h.GetCaster env)
    rw [hf, if_pos hs]
    cases sit <;> exact hw


theorem RemoveSpellAuraHolder_fields (c : Consts) (env : Env) (h : SpellAuraHolder)
    (t : UnitFields) (hs : h.m_auraSlot < c.MAX_AURAS) (hne : t.UNIT_FIELD_AURA h.m_auraSlot ≠ 0) :
    (h._RemoveSpellAuraHolder c env t).2.1.UNIT_FIELD_AURA =
        Function.update t.UNIT_FIELD_AURA h.m_auraSlot 0 ∧
      (h._RemoveSpellAuraHolder c env t).2.1.UNIT_FIELD_AURAFLAGS =
        (h.SetAuraFlag c (h.SetAura t h.m_auraSlot true) h.m_auraSlot false).UNIT_FIELD_AURAFLAGS := by
  unfold SpellAuraHolder._RemoveSpellAuraHolder
  dsimp only
  rw [if_neg (by omega), if_neg hne]
  unfold SpellAuraHolder.UpdateAuraApplication
  dsimp only
  split_ifs <;> exact ⟨rfl, rfl⟩

/-! ## C9, C10: the visibility slot -/

/-- C9: for a holder with a spell id that needs a visible slot,
`_AddSpellAuraHolder` assigns the lowest index whose aura field is 0 within
`[0, MAX_POSITIVE_AURAS)` when the holder is positive and within
`[MAX_POSITIVE_AURAS, MAX_AURAS)` when it is negative, so the slot lies in the
range of the holder's own sign; when no index of that range is free the slot
is `NULL_AURA_SLOT`, which is `≥ MAX_AURAS`, and the aura, flag, level and
application fields of the target are left as they were. -/
theorem AddSpellAuraHolder_slot (c : Consts) (env : Env) (h : SpellAuraHolder) (t : UnitFields)
    (hwf : c.WellFormed) (hid : h.m_spellProto.Id ≠ 0)
    (hvis : h.IsNeedVisibleSlot c env (h.GetCaster env) = true) :
    (h.IsPositive = true → (∃ i, i < c.MAX_POSITIVE_AURAS ∧ t.UNIT_FIELD_AURA i = 0) →
        (h._AddSpellAuraHolder c env t).1.m_auraSlot < c.MAX_POSITIVE_AURAS ∧
          t.UNIT_FIELD_AURA (h._AddSpellAuraHolder c env t).1.m_auraSlot = 0 ∧
          ∀ j, j < (h._AddSpellAuraHolder c env t).1.m_auraSlot → t.UNIT_FIELD_AURA j ≠ 0) ∧
      (h.IsPositive = false →
        (∃ i, c.MAX_POSITIVE_AURAS ≤ i ∧ i < c.MAX_AURAS ∧ t.UNIT_FIELD_AURA i = 0) →
        c.MAX_POSITIVE_AURAS ≤ (h._AddSpellAuraHolder c env t).1.m_auraSlot ∧
          (h._AddSpellAuraHolder c env t).1.m_auraSlot < c.MAX_AURAS ∧
          t.UNIT_FIELD_AURA (h._AddSpellAuraHolder c env t).1.m_auraSlot = 0 ∧
          ∀ j, c.MAX_POSITIVE_AURAS ≤ j → j < (h._AddSpellAuraHolder c env t).1.m_auraSlot →
            t.UNIT_FIELD_AURA j ≠ 0) ∧
      (((h.IsPositive = true ∧ ∀ i, i < c.MAX_POSITIVE_AURAS → t.UNIT_FIELD_AURA i ≠ 0) ∨
          (h.IsPositive = false ∧
            ∀ i, c.MAX_POSITIVE_AURAS ≤ i → i < c.MAX_AURAS → t.UNIT_FIELD_AURA i ≠ 0)) →
        (h._AddSpellAuraHolder c env t).1.m_auraSlot = NULL_AURA_SLOT ∧
          c.MAX_AURAS ≤ (h._AddSpellAuraHolder c env t).1.m_auraSlot ∧
          (h._AddSpellAuraHolder c env t).2.1.UNIT_FIELD_AURA = t.UNIT_FIELD_AURA ∧
          (h._AddSpellAuraHolder c env t).2.1.UNIT_FIELD_AURAFLAGS = t.UNIT_FIELD_AURAFLAGS ∧
          (h._AddSpellAuraHolder c env t).2.1.UNIT_FIELD_AURALEVELS = t.UNIT_FIELD_AURALEVELS ∧
          (h._AddSpellAuraHolder c env t).2.1.UNIT_FIELD_AURAAPPLICATIONS =
            t.UNIT_FIELD_AURAAPPLICATIONS) := by
  obtain ⟨hle, hmax, _⟩ := hwf
  obtain ⟨hh, hnone, _⟩ := AddSpellAuraHolder_spec c env h t hid
  have hslot : (h._AddSpellAuraHolder c env t).1.m_auraSlot = h.chosenSlot c env t := by
    rw [hh]
  rw [hslot]
  refine ⟨?_, ?_, ?_⟩
  · intro hpos ⟨i, hi, hfree⟩
    have hc : h.chosenSlot c env t = findFreeSlot t 0 c.MAX_POSITIVE_AURAS := by
      simp [SpellAuraHolder.chosenSlot, hvis, hpos]
    rw [hc]
    rcases findFreeSlot_spec t c.MAX_POSITIVE_AURAS 0 with ⟨_, hall⟩ | ⟨_, h2, h3, h4⟩
    · exact absurd hfree (hall i (by omega) (by omega))
    · exact ⟨by omega, h3, fun j hj => h4 j (by omega) hj⟩
  · intro hneg ⟨i, hi1, hi2, hfree⟩
    have hc : h.chosenSlot c env t =
        findFreeSlot t c.MAX_POSITIVE_AURAS (c.MAX_AURAS - c.MAX_POSITIVE_AURAS) := by
      simp [SpellAuraHolder.chosenSlot, hvis, hneg]
    rw [hc]
    rcases findFreeSlot_spec t (c.MAX_AURAS - c.MAX_POSITIVE_AURAS) c.MAX_POSITIVE_AURAS with
      ⟨_, hall⟩ | ⟨h1, h2, h3, h4⟩
    · exact absurd hfree (hall i hi1 (by omega))
    · exact ⟨h1, by omega, h3, h4⟩
  · intro hfull
    have hc : h.chosenSlot c env t = NULL_AURA_SLOT := by
      rcases hfull with ⟨hpos, hall⟩ | ⟨hneg, hall⟩
      · have hc : h.chosenSlot c env t = findFreeSlot t 0 c.MAX_POSITIVE_AURAS := by
          simp [SpellAuraHolder.chosenSlot, hvis, hpos]
        rw [hc]
        rcases findFreeSlot_spec t c.MAX_POSITIVE_AURAS 0 with ⟨e, _⟩ | ⟨_, h2, h3, _⟩
        · exact e
        · exact absurd h3 (hall _ (by omega))
      · have hc : h.chosenSlot c env t =
            findFreeSlot t c.MAX_POSITIVE_AURAS (c.MAX_AURAS - c.MAX_POSITIVE_AURAS) := by
          simp [SpellAuraHolder.chosenSlot, hvis, hneg]
        rw [hc]
        rcases findFreeSlot_spec t (c.MAX_AURAS - c.MAX_POSITIVE_AURAS) c.MAX_POSITIVE_AURAS
          with ⟨e, _⟩ | ⟨h1, h2, h3, _⟩
        · exact e
        · exact absurd h3 (hall _ h1 (by omega))
    have hge : c.MAX_AURAS ≤ h.chosenSlot c env t := by
      rw [hc]
      unfold NULL_AURA_SLOT
      exact hmax
    exact ⟨hc, hge, hnone (by omega)⟩


theorem chosenSlot_free (c : Consts) (env : Env) (h : SpellAuraHolder) (t : UnitFields)
    (hwf : c.WellFormed) (hs : h.chosenSlot c env t < c.MAX_AURAS) :
    t.UNIT_FIELD_AURA (h.chosenSlot c env t) = 0 ∧
      h.IsNeedVisibleSlot c env (h.GetCaster env) = true := by
  obtain ⟨hle, hmax, _⟩ := hwf
  have hnull : ¬ NULL_AURA_SLOT < c.MAX_AURAS := by
    unfold NULL_AURA_SLOT
    omega
  unfold SpellAuraHolder.chosenSlot at hs ⊢
  by_cases hvis : h.IsNeedVisibleSlot c env (h.GetCaster env) = true
  · rw [if_pos hvis] at hs ⊢
    refine ⟨?_, hvis⟩
    by_cases hpos : h.IsPositive = true
    · rw [if_pos hpos] at hs ⊢
      rcases findFreeSlot_spec t c.MAX_POSITIVE_AURAS 0 with ⟨e, _⟩ | ⟨_, _, h3, _⟩
      · rw [e] at hs
        exact absurd hs hnull
      · exact h3
    · rw [if_neg hpos] at hs ⊢
      rcases findFreeSlot_spec t (c.MAX_AURAS - c.MAX_POSITIVE_AURAS) c.MAX_POSITIVE_AURAS
        with ⟨e, _⟩ | ⟨_, _, h3, _⟩
      · rw [e] at hs
        exact absurd hs hnull
      · exact h3
  · rw [if_neg hvis] at hs
    exact absurd hs hnull

theorem auraFlagGroup_congr (t t' : UnitFields)
    (he : t'.UNIT_FIELD_AURAFLAGS = t.UNIT_FIELD_AURAFLAGS) (j : Nat) :
    auraFlagGroup t' j = auraFlagGroup t j := by
  unfold auraFlagGroup
  rw [he]

/-- C10: when `_AddSpellAuraHolder` gave a holder the visibility slot
`s < MAX_AURAS`, a following `_RemoveSpellAuraHolder` (whatever its remove
mode) leaves the aura field and the flag group of slot `s` at 0, leaves the
aura field and the flag group of every other slot as they were before the
attach, and a holder of the same sign that needs a visible slot and is
attached next gets slot `s` again. -/
theorem Add_Remove_frees_slot (c : Consts) (env : Env) (h : SpellAuraHolder) (t : UnitFields)
    (m : AuraRemoveMode) (hwf : c.WellFormed) (hid : h.m_spellProto.Id ≠ 0)
    (hs : (h._AddSpellAuraHolder c env t).1.m_auraSlot < c.MAX_AURAS) :
    (SpellAuraHolder._RemoveSpellAuraHolder c env
          { (h._AddSpellAuraHolder c env t).1 with m_removeMode := m }
          (h._AddSpellAuraHolder c env t).2.1).2.1.UNIT_FIELD_AURA
        (h._AddSpellAuraHolder c env t).1.m_auraSlot = 0 ∧
      auraFlagGroup
        (SpellAuraHolder._RemoveSpellAuraHolder c env
          { (h._AddSpellAuraHolder c env t).1 with m_removeMode := m }
          (h._AddSpellAuraHolder c env t).2.1).2.1
        (h._AddSpellAuraHolder c env t).1.m_auraSlot = 0 ∧
      (∀ j, j ≠ (h._AddSpellAuraHolder c env t).1.m_auraSlot →
        (SpellAuraHolder._RemoveSpellAuraHolder c env
            { (h._AddSpellAuraHolder c env t).1 with m_removeMode := m }
            (h._AddSpellAuraHolder c env t).2.1).2.1.UNIT_FIELD_AURA j = t.UNIT_FIELD_AURA j ∧
          auraFlagGroup
            (SpellAuraHolder._RemoveSpellAuraHolder c env
              { (h._AddSpellAuraHolder c env t).1 with m_removeMode := m }
              (h._AddSpellAuraHolder c env t).2.1).2.1 j = auraFlagGroup t j) ∧
      ∀ g : SpellAuraHolder, g.m_spellProto.Id ≠ 0 →
        g.IsNeedVisibleSlot c env (g.GetCaster env) = true → g.IsPositive = h.IsPositive →
        (g._AddSpellAuraHolder c env
          (SpellAuraHolder._RemoveSpellAuraHolder c env
            { (h._AddSpellAuraHolder c env t).1 with m_removeMode := m }
            (h._AddSpellAuraHolder c env t).2.1).2.1).1.m_auraSlot =
          (h._AddSpellAuraHolder c env t).1.m_auraSlot := by
  obtain ⟨hh, _, hsome⟩ := AddSpellAuraHolder_spec c env h t hid
  have hslot : (h._AddSpellAuraHolder c env t).1.m_auraSlot = h.chosenSlot c env t := by
    rw [hh]
  rw [hslot] at hs ⊢
  obtain ⟨hA, hF⟩ := hsome hs
  obtain ⟨hfree, hvis⟩ := chosenSlot_free c env h t hwf hs
  set s := h.chosenSlot c env t with hsdef
  set a := h._AddSpellAuraHolder c env t with hadef
  have hrs : ({ a.1 with m_removeMode := m } : SpellAuraHolder).m_auraSlot = s := by
    show a.1.m_auraSlot = s
    rw [hh]
  have hocc : a.2.1.UNIT_FIELD_AURA
      ({ a.1 with m_removeMode := m } : SpellAuraHolder).m_auraSlot ≠ 0 := by
    rw [hrs, hA, Function.update_same]
    exact hid
  obtain ⟨hRA, hRF⟩ := RemoveSpellAuraHolder_fields c env { a.1 with m_removeMode := m } a.2.1
    (by rw [hrs]; exact hs) hocc
  rw [hrs] at hRA hRF
  -- the flag words written by the attach and by the detach
  obtain ⟨f1, hf1, _, hw1⟩ := SetAuraFlag_word c hwf { h with m_auraSlot := s } t s true
  obtain ⟨f2, hf2, hz2, hw2⟩ := SetAuraFlag_word c hwf { a.1 with m_removeMode := m }
    (SpellAuraHolder.SetAura { a.1 with m_removeMode := m } a.2.1 s true) s false
  have hf20 : f2 = 0 := hz2 rfl
  have hX : (SpellAuraHolder.SetAura { a.1 with m_removeMode := m } a.2.1 s
      true).UNIT_FIELD_AURAFLAGS = a.2.1.UNIT_FIELD_AURAFLAGS := rfl
  have hAeq : (SpellAuraHolder._RemoveSpellAuraHolder c env { a.1 with m_removeMode := m }
      a.2.1).2.1.UNIT_FIELD_AURA = t.UNIT_FIELD_AURA := by
    rw [hRA, hA]
    funext j
    by_cases hj : j = s
    · rw [hj, Function.update_same, hfree]
    · rw [Function.update_noteq hj, Function.update_noteq hj]
  refine ⟨?_, ?_, ?_, ?_⟩
  · rw [hRA, Function.update_same]
  · have := auraFlagGroup_update_same
      (SpellAuraHolder.SetAura { a.1 with m_removeMode := m } a.2.1 s true) _ s f2 hw2
      (SpellAuraHolder._RemoveSpellAuraHolder c env { a.1 with m_removeMode := m } a.2.1).2.1 hRF
    rw [this, hf20]
    rfl
  · intro j hj
    refine ⟨by rw [hAeq], ?_⟩
    have h2 := auraFlagGroup_update_other
      (SpellAuraHolder.SetAura { a.1 with m_removeMode := m } a.2.1 s true) _ s f2 j hf2 hj
      hw2
      (SpellAuraHolder._RemoveSpellAuraHolder c env { a.1 with m_removeMode := m } a.2.1).2.1 hRF
    have h1 := auraFlagGroup_update_other t _ s f1 j hf1 hj hw1 a.2.1 hF
    rw [h2, auraFlagGroup_congr a.2.1 _ hX j, h1]
  · intro g hgid hgvis hgpos
    obtain ⟨hg, _, _⟩ := AddSpellAuraHolder_spec c env g
      (SpellAuraHolder._RemoveSpellAuraHolder c env { a.1 with m_removeMode := m } a.2.1).2.1 hgid
    rw [hg]
    show g.chosenSlot c env _ = s
    rw [chosenSlot_congr c env g t _ hAeq, hsdef]
    unfold SpellAuraHolder.chosenSlot
    rw [hgvis, hvis, hgpos]


/-- C9 (witness): the positive stat buff holder attached to a target whose
slots 0 and 1 are taken gets slot 2. -/
theorem AddSpellAuraHolder_slot_witness :
    ((statHolder._AddSpellAuraHolder sampleConsts (sampleEnv 6000 0) busyFields).1.m_auraSlot <
          sampleConsts.MAX_POSITIVE_AURAS ∧
        busyFields.UNIT_FIELD_AURA
          (statHolder._AddSpellAuraHolder sampleConsts (sampleEnv 6000 0) busyFields).1.m_auraSlot
            = 0 ∧
        ∀ j, j < (statHolder._AddSpellAuraHolder sampleConsts (sampleEnv 6000 0)
            busyFields).1.m_auraSlot → busyFields.UNIT_FIELD_AURA j ≠ 0) ∧
      (statHolder._AddSpellAuraHolder sampleConsts (sampleEnv 6000 0) busyFields).1.m_auraSlot = 2 ∧
      (dotHolder._AddSpellAuraHolder sampleConsts (sampleEnv 6000 0) busyFields).1.m_auraSlot = 32 :=
  ⟨(AddSpellAuraHolder_slot sampleConsts (sampleEnv 6000 0) statHolder busyFields (by decide)
      (by decide) (by decide)).1 (by decide) ⟨2, by decide, by decide⟩,
    by decide, by decide⟩

/-- C10 (witness): the stat buff holder attached to the target with slots 0
and 1 taken and detached again leaves its slot 2 with aura field 0 and flag
group 0. -/
theorem Add_Remove_frees_slot_witness :
    (SpellAuraHolder._RemoveSpellAuraHolder sampleConsts (sampleEnv 6000 0)
          { (statHolder._AddSpellAuraHolder sampleConsts (sampleEnv 6000 0) busyFields).1 with
            m_removeMode := AURA_REMOVE_BY_EXPIRE }
          (statHolder._AddSpellAuraHolder sampleConsts (sampleEnv 6000 0)
            busyFields).2.1).2.1.UNIT_FIELD_AURA
        (statHolder._AddSpellAuraHolder sampleConsts (sampleEnv 6000 0) busyFields).1.m_auraSlot
          = 0 ∧
      auraFlagGroup (statHolder._AddSpellAuraHolder sampleConsts (sampleEnv 6000 0)
        busyFields).2.1 2 = 5 ∧
      auraFlagGroup
        (SpellAuraHolder._RemoveSpellAuraHolder sampleConsts (sampleEnv 6000 0)
          { (statHolder._AddSpellAuraHolder sampleConsts (sampleEnv 6000 0) busyFields).1 with
            m_removeMode := AURA_REMOVE_BY_EXPIRE }
          (statHolder._AddSpellAuraHolder sampleConsts (sampleEnv 6000 0) busyFields).2.1).2.1
        (statHolder._AddSpellAuraHolder sampleConsts (sampleEnv 6000 0) busyFields).1.m_auraSlot
          = 0 :=
  ⟨(Add_Remove_frees_slot sampleConsts (sampleEnv 6000 0) statHolder busyFields
      AURA_REMOVE_BY_EXPIRE (by decide) (by decide) (by decide)).1,
    by decide,
    (Add_Remove_frees_slot sampleConsts (sampleEnv 6000 0) statHolder busyFields
      AURA_REMOVE_BY_EXPIRE (by decide) (by decide) (by decide)).2.1⟩


/-! ## The skip-once flag -/

/-- C16: `SpellAuraHolder::Update(diff)` on a holder whose skip-once flag is
set returns the holder with the flag cleared and nothing else changed: no
call is made (no instance is updated or ticked), the instances, the remaining
duration and the tick-cost countdown are the old ones. The next `Update` takes
the normal path: it is the `Update` of the same holder without the flag, it
updates every instance through `UpdateAura` and decrements a positive
duration. -/
theorem Update_skip_once (c : Consts) (env : Env) (h : SpellAuraHolder) (diff : Nat)
    (hs : h.m_skipUpdate = true) :
    h.Update c env diff = ({ h with m_skipUpdate := false }, []) ∧
      (h.Update c env diff).1.m_auras = h.m_auras ∧
      (h.Update c env diff).1.m_duration = h.m_duration ∧
      (h.Update c env diff).1.m_timeCla = h.m_timeCla ∧
      (h.Update c env diff).1.m_skipUpdate = false ∧
      ∀ diff2 : Nat,
        ((h.Update c env diff).1.Update c env diff2).1.m_auras =
            (forEachAura (fun aura => aura.UpdateAura env { h with m_skipUpdate := false } diff2)
              h.m_auras).1 ∧
          ((h.Update c env diff).1.Update c env diff2).1.m_duration =
            (if h.m_duration > 0 then
              (if toInt32 (h.m_duration - diff2) < 0 then 0 else toInt32 (h.m_duration - diff2))
            else h.m_duration) := by
  have h0 := Update_skip c env h diff hs
  rw [h0]
  refine ⟨rfl, rfl, rfl, rfl, rfl, ?_⟩
  intro diff2
  exact ⟨Update_auras c env _ diff2 rfl, Update_duration c env _ diff2 rfl⟩

/-- C16 (witness): the periodic damage holder created mid-pass (flag set) keeps
its 6000 ms and fires no tick in the skipped update; the update after it
brings the duration to 4000 ms. -/
theorem Update_skip_once_witness :
    (dotHolder.SetCreationDelayFlag.Update sampleConsts (sampleEnv 6000 0) 2000).1.m_duration =
        6000 ∧
      tickCount 0
        (dotHolder.SetCreationDelayFlag.Update sampleConsts (sampleEnv 6000 0) 2000).2 = 0 ∧
      ((dotHolder.SetCreationDelayFlag.Update sampleConsts (sampleEnv 6000 0) 2000).1.Update
        sampleConsts (sampleEnv 6000 0) 2000).1.m_duration = 4000 := by
  have h := Update_skip_once sampleConsts (sampleEnv 6000 0) dotHolder.SetCreationDelayFlag 2000 rfl
  refine ⟨?_, ?_, ?_⟩
  · rw [h.2.2.1]; rfl
  · rw [h.1]; rfl
  · rw [(h.2.2.2.2.2 2000).2]; decide

/-! ## Dispatch through the handler table -/

/-- C12: `Aura::ApplyModifier(apply, Real)`. For an effect type below
`TOTAL_AURAS` exactly one handler call is made, the table entry of that type
with the given `(apply, Real)`, and the instance is what that handler leaves
when it returns; for an effect type at or above `TOTAL_AURAS` no handler is
called, the instance is unchanged and the call returns. -/
theorem ApplyModifier_dispatch (c : Consts) (env : Env) (a : Aura) (apply real : Bool) :
    (a.m_modifier.m_auraname < c.TOTAL_AURAS →
        a.ApplyModifier c env apply real =
          (env.AuraHandler a.m_modifier.m_auraname apply real a,
            [Event.applyModifier a apply real]) ∧
        applyFlags (a.ApplyModifier c env apply real).2 = [(apply, real)]) ∧
      (c.TOTAL_AURAS ≤ a.m_modifier.m_auraname →
        a.ApplyModifier c env apply real = (a, [])) := by
  unfold Aura.ApplyModifier
  constructor
  · intro h
    rw [if_pos h]
    exact ⟨rfl, rfl⟩
  · intro h
    rw [if_neg (by omega)]

/-- C12 (counterexample to the claim as stated): an instance of effect type 192
(`TOTAL_AURAS`) is not rejected, `ApplyModifier` returns with the instance
unchanged and without any handler call. -/
theorem ApplyModifier_out_of_range_counterexample :
    ¬ (outOfRangeAura.m_modifier.m_auraname < sampleConsts.TOTAL_AURAS) ∧
      outOfRangeAura.ApplyModifier sampleConsts (sampleEnv 6000 0) true true =
        (outOfRangeAura, []) := by
  constructor
  · decide
  · rfl


/-! ## Area instances on a remote target -/

theorem AreaAura_Update_remote (env : Env) (h : SpellAuraHolder) (a : Aura) (diff : Nat)
    (hr : h.m_casterGuid ≠ h.m_target) :
    (AreaAura.Update env h a diff).1 = (a.Update diff).1 ∧
      ((AreaAura.Update env h a diff).2 = (a.Update diff).2 ∨
        (AreaAura.Update env h a diff).2 = (a.Update diff).2 ++
          [Event.removeSingleAuraOfCaster h.m_spellProto.Id a.m_effIndex h.m_casterGuid]) := by
  unfold AreaAura.Update
  rw [if_neg hr]
  dsimp only
  split_ifs <;> simp

/-- C13: on a remote target (caster guid differs from the target guid)
`AreaAura::Update` runs the base `Aura::Update(diff)` first and re-validates
afterwards: the instance it leaves is the one `Aura::Update` leaves (timer
decremented, re-armed and tick counter raised when a tick is due), its calls
start with the `PeriodicTick` calls of `Aura::Update`, and exactly as many
ticks fire as in `Aura::Update`. -/
theorem AreaAura_Update_remote_runs_base (env : Env) (h : SpellAuraHolder) (a : Aura)
    (diff : Nat) (hr : h.m_casterGuid ≠ h.m_target) :
    (AreaAura.Update env h a diff).1 = (a.Update diff).1 ∧
      (a.Update diff).2 <+: (AreaAura.Update env h a diff).2 ∧
      tickCount a.m_effIndex (AreaAura.Update env h a diff).2 =
        tickCount a.m_effIndex (a.Update diff).2 := by
  obtain ⟨h1, h2⟩ := AreaAura_Update_remote env h a diff hr
  refine ⟨h1, ?_, ?_⟩
  · rcases h2 with h2 | h2
    · rw [h2]
    · rw [h2]
      exact List.prefix_append _ _
  · rcases h2 with h2 | h2
    · rw [h2]
    · rw [h2, tickCount_append]
      rfl

/-- C13 (witness): the regeneration aura on the ally 7 of caster 9 with 300 ms
elapsed. -/
theorem AreaAura_Update_remote_runs_base_witness :
    (AreaAura.Update (regenEnv 60000) partyRegenHolder partyRegenAura 300).1.m_periodicTimer =
      700 :=
  (congrArg Aura.m_periodicTimer
    (AreaAura_Update_remote_runs_base (regenEnv 60000) partyRegenHolder partyRegenAura 300
      (by decide)).1).trans (by decide)

/-- C13 (counterexample to the claim as stated): the periodic party aura on
the remote target 7 (caster 9) with timer 1000 and tick count 0 is updated
with diff 1000 while every condition still holds: the tick count becomes 1,
the timer is re-armed and `PeriodicTick` is called once. -/
theorem AreaAura_Update_remote_counterexample :
    partyRegenHolder.m_casterGuid ≠ partyRegenHolder.m_target ∧
      partyRegenAura.m_periodicTimer = 1000 ∧ partyRegenAura.m_periodicTick = 0 ∧
      (AreaAura.Update (regenEnv 60000) partyRegenHolder partyRegenAura 1000).1.m_periodicTick
        = 1 ∧
      (AreaAura.Update (regenEnv 60000) partyRegenHolder partyRegenAura 700).1.m_periodicTimer
        = 300 ∧
      tickCount 0 (AreaAura.Update (regenEnv 60000) partyRegenHolder partyRegenAura 1000).2
        = 1 := by
  decide

/-- C14: a party-kind area instance on a remote target whose caster is a
resolvable, non-isolated player that still holds the originating effect, is
within radius, can assist the target, and is neither master nor minion of the
target. `AreaAura::Update` then asks for the removal of the single effect
(spell id, effect index, caster guid) exactly when the caster has no group, or
the target has no beneficiary player, or that player is not in the caster's
sub-group; being within radius (`withinDist`) does not prevent it. No other
removal is asked for. -/
theorem AreaAura_Update_party_removal (env : Env) (h : SpellAuraHolder) (a : Aura) (diff : Nat)
    (hr : h.m_casterGuid ≠ h.m_target)
    (hk : a.m_areaAuraType = .AREA_AURA_PARTY)
    (hc : h.GetCaster env ≠ none)
    (hi : (env.areaQuery h.m_casterGuid h.m_target a).casterIsolated = false)
    (ha : (env.areaQuery h.m_casterGuid h.m_target a).casterHasAura = true)
    (hd : (env.areaQuery h.m_casterGuid h.m_target a).withinDist = true)
    (hf : (env.areaQuery h.m_casterGuid h.m_target a).canAssist = true)
    (hm : (env.areaQuery h.m_casterGuid h.m_target a).casterMasterIsTarget = false)
    (hp : (env.areaQuery h.m_casterGuid h.m_target a).casterIsTargetMaster = false)
    (hpl : (env.areaQuery h.m_casterGuid h.m_target a).casterIsPlayer = true) :
    (Event.removeSingleAuraOfCaster h.m_spellProto.Id a.m_effIndex h.m_casterGuid ∈
        (AreaAura.Update env h a diff).2 ↔
      ((env.areaQuery h.m_casterGuid h.m_target a).casterHasGroup = false ∨
        (env.areaQuery h.m_casterGuid h.m_target a).targetHasBeneficiary = false ∨
        (env.areaQuery h.m_casterGuid h.m_target a).sameSubGroup = false)) ∧
      (AreaAura.Update env h a diff).2 =
        (a.Update diff).2 ++
          (if (env.areaQuery h.m_casterGuid h.m_target a).casterHasGroup = false ∨
              (env.areaQuery h.m_casterGuid h.m_target a).targetHasBeneficiary = false ∨
              (env.areaQuery h.m_casterGuid h.m_target a).sameSubGroup = false then
            [Event.removeSingleAuraOfCaster h.m_spellProto.Id a.m_effIndex h.m_casterGuid]
          else []) := by
  have hupd : ∀ e ∈ (a.Update diff).2, ∃ b, e = Event.periodicTick b := by
    intro e he
    rw [Aura_Update_eq] at he
    split_ifs at he <;> simp at he
    exact ⟨_, he⟩
  have hnot : Event.removeSingleAuraOfCaster h.m_spellProto.Id a.m_effIndex h.m_casterGuid ∉
      (a.Update diff).2 := by
    intro hmem
    obtain ⟨b, hb⟩ := hupd _ hmem
    cases hb
  have key : (AreaAura.Update env h a diff).2 =
      (a.Update diff).2 ++
        (if (env.areaQuery h.m_casterGuid h.m_target a).casterHasGroup = false ∨
            (env.areaQuery h.m_casterGuid h.m_target a).targetHasBeneficiary = false ∨
            (env.areaQuery h.m_casterGuid h.m_target a).sameSubGroup = false then
          [Event.removeSingleAuraOfCaster h.m_spellProto.Id a.m_effIndex h.m_casterGuid]
        else []) := by
    unfold AreaAura.Update
    rw [if_neg hr]
    dsimp only
    rw [if_neg (by simp [hc, hi, ha, hd, hf]), if_pos hk, if_pos ⟨hm, hp, hpl⟩]
    cases hg : (env.areaQuery h.m_casterGuid h.m_target a).casterHasGroup <;>
      cases hb : (env.areaQuery h.m_casterGuid h.m_target a).targetHasBeneficiary <;>
      cases hsg : (env.areaQuery h.m_casterGuid h.m_target a).sameSubGroup <;> simp
  refine ⟨?_, key⟩
  rw [key, List.mem_append]
  constructor
  · rintro (h1 | h1)
    · exact absurd h1 hnot
    · by_contra hcon
      rw [if_neg hcon] at h1
      simp at h1
  · intro hcond
    right
    rw [if_pos hcond]
    simp

/-- C14 (witness): the ally 7 left the sub-group of caster 9 but stayed in
range; the next update asks for the removal of effect 0 of spell 5672 cast
by 9. -/
theorem AreaAura_Update_party_removal_witness :
    (leftGroupEnv.areaQuery 9 7 partyRegenAura).withinDist = true ∧
      Event.removeSingleAuraOfCaster 5672 0 9 ∈
        (AreaAura.Update leftGroupEnv partyRegenHolder partyRegenAura 300).2 :=
  ⟨rfl, ((AreaAura_Update_party_removal leftGroupEnv partyRegenHolder partyRegenAura 300
    (by decide) (by decide) (by decide) rfl rfl rfl rfl rfl rfl rfl).1).2 (Or.inr (Or.inr rfl))⟩


/-! ## The tick-cost countdown -/

theorem Update_duration_nonpos (c : Consts) (env : Env) (h : SpellAuraHolder) (diff : Nat)
    (hd : h.m_duration ≤ 0) : (h.Update c env diff).1.m_duration = h.m_duration := by
  cases hs : h.m_skipUpdate with
  | true => rw [Update_skip c env h diff hs]
  | false => rw [Update_duration c env h diff hs, if_neg (by omega)]

theorem UpdateAll_duration_nonpos (c : Consts) (env : Env) (diffs : List Nat) :
    ∀ h : SpellAuraHolder, h.m_duration ≤ 0 →
      (h.UpdateAll c env diffs).1.m_duration = h.m_duration := by
  induction diffs with
  | nil => intro h _; rfl
  | cons d ds ih =>
    intro h hd
    have h1 := Update_duration_nonpos c env h d hd
    show (SpellAuraHolder.UpdateAll c env (h.Update c env d).1 ds).1.m_duration = h.m_duration
    rw [ih _ (by omega), h1]

/-- C17: a holder constructed with computed max duration -1, or for a passive
definition with `DurationIndex` 0 (whose computed duration is not positive),
has its permanent flag set, and after every sequence of
`SpellAuraHolder::Update` calls its remaining duration is the one it was
constructed with. -/
theorem permanent_holder_never_decays (c : Consts) (env : Env) (sp : SpellEntry) (target : Nat)
    (caster : Option Nat) (hnd : env.NoDurationField)
    (hp : env.CalculateSpellDuration sp caster = -1 ∨
      (env.IsPassiveSpell sp = true ∧ sp.DurationIndex = 0)) :
    (CreateSpellAuraHolder c env sp target caster).m_permanent = true ∧
      ∀ diffs : List Nat,
        ((CreateSpellAuraHolder c env sp target caster).UpdateAll c env diffs).1.m_duration =
          (CreateSpellAuraHolder c env sp target caster).m_duration := by
  constructor
  · show (decide (env.CalculateSpellDuration sp caster = -1) ||
      (env.IsPassiveSpell sp && decide (sp.DurationIndex = 0))) = true
    rcases hp with hp | ⟨hp1, hp2⟩
    · simp [hp]
    · simp [hp1, hp2]
  · intro diffs
    apply UpdateAll_duration_nonpos
    show env.CalculateSpellDuration sp caster ≤ 0
    rcases hp with hp | ⟨_, hp2⟩
    · omega
    · exact hnd sp caster hp2

/-- C17 (witness): a passive holder of a definition with `DurationIndex` 0
keeps its duration 0 over updates of 1000 and 2000 ms. -/
theorem permanent_holder_never_decays_witness :
    (CreateSpellAuraHolder sampleConsts passiveEnv dotSpell 7 (some 9)).m_permanent = true ∧
      ((CreateSpellAuraHolder sampleConsts passiveEnv dotSpell 7 (some 9)).UpdateAll
        sampleConsts passiveEnv [1000, 2000]).1.m_duration = 0 :=
  ⟨(permanent_holder_never_decays sampleConsts passiveEnv dotSpell 7 (some 9)
      (fun _ _ _ => Int.le_refl 0) (Or.inr ⟨rfl, rfl⟩)).1,
    (permanent_holder_never_decays sampleConsts passiveEnv dotSpell 7 (some 9)
      (fun _ _ _ => Int.le_refl 0) (Or.inr ⟨rfl, rfl⟩)).2 [1000, 2000]⟩


/-! ## The stack count stays below the cap -/

theorem Update_stackAmount (c : Consts) (env : Env) (h : SpellAuraHolder) (diff : Nat) :
    (h.Update c env diff).1.m_stackAmount = h.m_stackAmount ∧
      (h.Update c env diff).1.m_spellProto = h.m_spellProto := by
  unfold SpellAuraHolder.Update
  by_cases hs : h.m_skipUpdate = true
  · simp [hs]
  · rw [if_neg hs]
    dsimp only
    split_ifs <;> exact ⟨rfl, rfl⟩

theorem RemoveSpellAuraHolder_stackAmount (c : Consts) (env : Env) (h : SpellAuraHolder)
    (t : UnitFields) :
    ((h._RemoveSpellAuraHolder c env t).1.m_stackAmount = h.m_stackAmount ∨
        (h._RemoveSpellAuraHolder c env t).1.m_stackAmount = 1) ∧
      (h._RemoveSpellAuraHolder c env t).1.m_spellProto = h.m_spellProto := by
  unfold SpellAuraHolder._RemoveSpellAuraHolder
  dsimp only
  split_ifs <;> simp

theorem ModStackAmount_stackAmount (c : Consts) (env : Env) (h : SpellAuraHolder)
    (t : UnitFields) (num : Int) (newCaster : Option Nat)
    (r : Bool × SpellAuraHolder × UnitFields × List Event)
    (hC : h.m_spellProto.StackAmount < 4294967296)
    (hr : h.ModStackAmount c env t num newCaster = some r) :
    (r.2.1.m_stackAmount = h.m_stackAmount ∨ r.2.1.m_stackAmount ≤ h.m_spellProto.StackAmount) ∧
      r.2.1.m_spellProto = h.m_spellProto := by
  unfold SpellAuraHolder.ModStackAmount at hr
  dsimp only at hr
  by_cases h0 : h.m_spellProto.StackAmount = 0
  · rw [if_pos h0] at hr
    cases hr
    exact ⟨Or.inl rfl, rfl⟩
  · rw [if_neg h0] at hr
    by_cases h1 : toInt32 ((h.m_stackAmount : Int) + num) > toInt32 h.m_spellProto.StackAmount
    · rw [if_pos h1] at hr
      cases hs : h.SetStackAmount c env t (toUInt32 (toInt32 h.m_spellProto.StackAmount))
        newCaster with
      | none => rw [hs] at hr; cases hr
      | some r1 =>
        rw [hs] at hr
        cases hr
        obtain ⟨e1, e2, _⟩ := SetStackAmount_spec c env h t _ newCaster r1 hs
        refine ⟨Or.inr ?_, e2⟩
        show r1.1.m_stackAmount ≤ _
        rw [e1]
        unfold toUInt32 toInt32
        omega
    · rw [if_neg h1] at hr
      by_cases h2 : toInt32 ((h.m_stackAmount : Int) + num) ≤ 0
      · rw [if_pos h2] at hr
        cases hr
        exact ⟨Or.inr (Nat.zero_le _), rfl⟩
      · rw [if_neg h2] at hr
        cases hs : h.SetStackAmount c env t (toUInt32 (toInt32 ((h.m_stackAmount : Int) + num)))
          newCaster with
        | none => rw [hs] at hr; cases hr
        | some r1 =>
          rw [hs] at hr
          cases hr
          obtain ⟨e1, e2, _⟩ := SetStackAmount_spec c env h t _ newCaster r1 hs
          refine ⟨Or.inr ?_, e2⟩
          show r1.1.m_stackAmount ≤ _
          rw [e1]
          have hx : toInt32 ((h.m_stackAmount : Int) + num) ≤ toInt32 h.m_spellProto.StackAmount := by
            omega
          have hy : toInt32 (h.m_spellProto.StackAmount : Int) ≤ h.m_spellProto.StackAmount := by
            unfold toInt32
            omega
          have hz := toInt32_upper ((h.m_stackAmount : Int) + num)
          unfold toUInt32
          omega

/-- C18: in every state reachable from the holder constructor through
`AddAura`, `ModStackAmount` (and the `SetStackAmount` call it makes), `Update`
and `_RemoveSpellAuraHolder`, the holder still refers to its definition and
its stack count is at most the larger of 1 and the definition's `StackAmount`
(a `uint32`); so for a definition with `StackAmount >= 1` the stack count
never exceeds `StackAmount`. -/
theorem stackAmount_bounded (c : Consts) (env : Env) (sp : SpellEntry) (h : SpellAuraHolder)
    (hC : sp.StackAmount < 4294967296) (hr : Reachable c env sp h) :
    h.m_spellProto = sp ∧ h.m_stackAmount ≤ max 1 sp.StackAmount ∧
      (1 ≤ sp.StackAmount → h.m_stackAmount ≤ sp.StackAmount) := by
  have key : h.m_spellProto = sp ∧ h.m_stackAmount ≤ max 1 sp.StackAmount := by
    induction hr with
    | ctor target caster =>
      refine ⟨rfl, ?_⟩
      show (if sp.Id = 24575 ∨ sp.Id = 24659 ∨ sp.Id = 24662 ∨ sp.Id = 26464 then sp.StackAmount
        else 1) ≤ max 1 sp.StackAmount
      split_ifs
      · exact le_max_right _ _
      · exact le_max_left _ _
    | addAura h aura index _ ih => exact ih
    | modStackAmount h t num newCaster r _ hm ih =>
      obtain ⟨e1, e2⟩ := ModStackAmount_stackAmount c env h t num newCaster r (by rw [ih.1]; exact hC) hm
      refine ⟨e2.trans ih.1, ?_⟩
      rcases e1 with e1 | e1
      · rw [e1]; exact ih.2
      · rw [ih.1] at e1
        exact le_trans e1 (le_max_right _ _)
    | update h diff _ ih =>
      obtain ⟨e1, e2⟩ := Update_stackAmount c env h diff
      exact ⟨e2.trans ih.1, by rw [e1]; exact ih.2⟩
    | remove h t _ ih =>
      obtain ⟨e1, e2⟩ := RemoveSpellAuraHolder_stackAmount c env h t
      refine ⟨e2.trans ih.1, ?_⟩
      rcases e1 with e1 | e1
      · rw [e1]; exact ih.2
      · rw [e1]; exact le_max_left _ _
  refine ⟨key.1, key.2, ?_⟩
  intro h1
  have := key.2
  rw [max_eq_right h1] at this
  exact this

/-- C18 (witness): the stat buff holder (cap 5) after its construction, the
addition of its instance, `ModStackAmount(+7)` and an update of 1000 ms has a
stack count of at most 5. -/
theorem stackAmount_bounded_witness :
    ((((((CreateSpellAuraHolder sampleConsts (sampleEnv 6000 0) statBuff 7 (some 9)).AddAura
      (Aura.ctor statBuff 0 2 2 true id) 0).ModStackAmount sampleConsts (sampleEnv 6000 0)
        noAuraFields 7 (some 9)).getD
          (false, CreateSpellAuraHolder sampleConsts (sampleEnv 6000 0) statBuff 7 (some 9),
            noAuraFields, [])).2.1.Update sampleConsts (sampleEnv 6000 0) 1000).1).m_stackAmount
      ≤ 5 :=
  (stackAmount_bounded sampleConsts (sampleEnv 6000 0) statBuff _ (by decide)
    (Reachable.update _ 1000
      (Reachable.modStackAmount _ noAuraFields 7 (some 9) _
        (Reachable.addAura _ (Aura.ctor statBuff 0 2 2 true id) 0 (Reachable.ctor 7 (some 9)))
        rfl))).2.2 (by decide)

/-- C18 (counterexample to the claim as stated): the freshly constructed
holder of the periodic damage definition, which declares `StackAmount` 0, has
stack count 1; so has the holder of that definition after
`_RemoveSpellAuraHolder` freed its visibility slot. -/
theorem stackAmount_zero_cap_counterexample :
    dotSpell.StackAmount = 0 ∧
      (CreateSpellAuraHolder sampleConsts (sampleEnv 6000 0) dotSpell 7 (some 9)).m_stackAmount
        = 1 ∧
      (SpellAuraHolder._RemoveSpellAuraHolder sampleConsts (sampleEnv 6000 0)
        (dotHolder._AddSpellAuraHolder sampleConsts (sampleEnv 6000 0) noAuraFields).1
        (dotHolder._AddSpellAuraHolder sampleConsts (sampleEnv 6000 0)
          noAuraFields).2.1).1.m_stackAmount = 1 := by
  refine ⟨rfl, rfl, ?_⟩
  set_option maxRecDepth 100000 in decide


/-! ## Delay of the first tick -/

theorem Aura_UpdateAll_no_tick (pre : List Nat) :
    ∀ a : Aura, a.m_isPeriodic = true → (pre.sum : Int) < a.m_periodicTimer →
      a.m_periodicTimer < 2147483648 →
      a.UpdateAll pre = ({ a with m_periodicTimer := a.m_periodicTimer - (pre.sum : Int) }, []) := by
  induction pre with
  | nil =>
    intro a _ _ _
    simp [Aura.UpdateAll]
  | cons d ds ih =>
    intro a hp hlt hT
    simp only [List.sum_cons, Nat.cast_add] at hlt
    have hd : toInt32 (a.m_periodicTimer - (d : Int)) = a.m_periodicTimer - d :=
      toInt32_of_range _ (by omega) (by omega)
    have hu : a.Update d = ({ a with m_periodicTimer := a.m_periodicTimer - d }, []) := by
      rw [Aura_Update_eq, if_pos hp, hd, if_neg (by omega)]
    have hi := ih { a with m_periodicTimer := a.m_periodicTimer - d } hp
      (by dsimp only; omega) (by dsimp only; omega)
    show ((Aura.UpdateAll (a.Update d).1 ds).1, (a.Update d).2 ++ (Aura.UpdateAll (a.Update d).1 ds).2)
      = _
    rw [hu]
    dsimp only
    rw [hi]
    simp only [List.sum_cons, Nat.cast_add, List.nil_append, Prod.mk.injEq, and_true]
    congr 1
    ring

/-- C11: the constructor leaves the periodic timer at the (modified) tick
period, as `int32`, with tick count 0. The periodic damage, periodic leech and
`OBS_MOD_HEALTH` handlers leave the timer alone and the `OBS_MOD_MANA` handler
re-primes it to the period (1000 when the period is 0), so after them the
timer is one period; the `MOD_REGEN` handler and the real `MOD_POWER_REGEN`
handler set the timer to 5000 whatever the period is. For a periodic instance
whose timer shows `T` (`0 < T < 2^31`) no tick fires and the tick count stays
while the accumulated `diff` is below `T`, and exactly one tick fires in the
`Update` at which the accumulated `diff` reaches `T`, provided that update
does not overshoot `T` by more than 2^31 (the `int32` timer wraps on a larger
overshoot). -/
theorem first_tick_delay (a : Aura) (pre : List Nat) (last : Nat)
    (hp : a.m_isPeriodic = true) (hT : a.m_periodicTimer < 2147483648)
    (hpre : (pre.sum : Int) < a.m_periodicTimer)
    (hlast : a.m_periodicTimer ≤ (pre.sum : Int) + last)
    (hb : (pre.sum : Int) + last - a.m_periodicTimer ≤ 2147483648) :
    ((a.UpdateAll pre).2 = [] ∧ (a.UpdateAll pre).1.m_periodicTick = a.m_periodicTick ∧
      tickCount a.m_effIndex ((a.UpdateAll pre).1.Update last).2 = 1 ∧
      ((a.UpdateAll pre).1.Update last).1.m_periodicTick = (a.m_periodicTick + 1) % 4294967296) ∧
    (∀ sp eff bp dmg pos pm,
      (Aura.ctor sp eff bp dmg pos pm).m_periodicTimer =
          toInt32 ((Aura.ctor sp eff bp dmg pos pm).m_modifier.periodictime : Int) ∧
        (Aura.ctor sp eff bp dmg pos pm).m_periodicTick = 0) ∧
    (∀ loading caster bonus apply real (b : Aura),
      (b.HandlePeriodicDamage loading caster bonus apply real).m_periodicTimer =
          b.m_periodicTimer ∧
        (b.HandlePeriodicLeech loading caster bonus apply real).m_periodicTimer =
          b.m_periodicTimer ∧
        (b.HandleAuraModTotalHealthPercentRegen apply real).m_periodicTimer =
          b.m_periodicTimer) ∧
    (∀ apply real (b : Aura),
      (b.HandleAuraModTotalManaPercentRegen apply real).m_periodicTimer =
          toInt32 ((b.HandleAuraModTotalManaPercentRegen apply real).m_modifier.periodictime : Int) ∧
        (b.HandleAuraModTotalManaPercentRegen apply real).m_modifier.periodictime =
          (if b.m_modifier.periodictime = 0 then 1000 else b.m_modifier.periodictime)) ∧
    (∀ apply real rage (b : Aura),
      (b.HandleModRegen apply real).m_periodicTimer = 5000 ∧
        (b.HandleModPowerRegen rage apply true).m_periodicTimer = 5000) := by
  refine ⟨?_, ?_, ?_, ?_, ?_⟩
  · have h0 := Aura_UpdateAll_no_tick pre a hp hpre hT
    rw [h0]
    dsimp only
    refine ⟨rfl, rfl, ?_, ?_⟩
    · rw [Aura_Update_eq]
      dsimp only
      have hd : toInt32 (a.m_periodicTimer - (pre.sum : Int) - (last : Int)) =
          a.m_periodicTimer - (pre.sum : Int) - last :=
        toInt32_of_range _ (by omega) (by omega)
      rw [if_pos hp, hd, if_pos (by omega)]
      simp [tickCount]
    · rw [Aura_Update_eq]
      dsimp only
      have hd : toInt32 (a.m_periodicTimer - (pre.sum : Int) - (last : Int)) =
          a.m_periodicTimer - (pre.sum : Int) - last :=
        toInt32_of_range _ (by omega) (by omega)
      rw [if_pos hp, hd, if_pos (by omega)]
  · intro sp eff bp dmg pos pm
    constructor
    · unfold Aura.ctor
      dsimp only
      split_ifs <;> simp [Aura.SetModifier]
    · unfold Aura.ctor
      dsimp only
      split_ifs <;> rfl
  · intro loading caster bonus apply real b
    refine ⟨?_, ?_, rfl⟩
    · unfold Aura.HandlePeriodicDamage
      cases real <;> cases apply <;> cases loading <;> cases caster <;> rfl
    · unfold Aura.HandlePeriodicLeech
      cases apply <;> cases loading <;> cases caster <;> rfl
  · intro apply real b
    unfold Aura.HandleAuraModTotalManaPercentRegen
    dsimp only
    split_ifs <;> exact ⟨rfl, rfl⟩
  · intro apply real rage b
    exact ⟨rfl, rfl⟩

/-- C11 (witness): the periodic damage instance (period 2000, freshly
activated) fires no tick during updates of 1000 and 500 ms and its first tick
in the following update of 500 ms. -/
theorem first_tick_delay_witness :
    (dotAura.UpdateAll [1000, 500]).2 = [] ∧
      tickCount 0 ((dotAura.UpdateAll [1000, 500]).1.Update 500).2 = 1 :=
  ⟨(first_tick_delay dotAura [1000, 500] 500 (by decide) (by decide) (by decide) (by decide)
      (by decide)).1.1,
    (first_tick_delay dotAura [1000, 500] 500 (by decide) (by decide) (by decide) (by decide)
      (by decide)).1.2.2.1⟩

/-- C11 (counterexample to the claim as stated): the drink instance is
constructed with timer 2000, its period; its real activation by
`HandleModPowerRegen` sets the timer to 5000. With updates of 1000 ms no tick
fires when one full period (2000 ms) has accumulated, nor after 4000 ms; the
first tick fires in the fifth update, 5000 ms after activation. -/
theorem first_tick_delay_counterexample :
    (Aura.ctor drinkSpell 0 8 8 true id).m_periodicTimer = 2000 ∧
      drinkAura.m_isPeriodic = true ∧ drinkAura.m_modifier.periodictime = 2000 ∧
      drinkAura.m_periodicTimer = 5000 ∧
      tickCount 0 (drinkAura.UpdateAll [1000, 1000]).2 = 0 ∧
      tickCount 0 (drinkAura.UpdateAll [1000, 1000, 1000, 1000]).2 = 0 ∧
      tickCount 0 (drinkAura.UpdateAll [1000, 1000, 1000, 1000, 1000]).2 = 1 := by
  refine ⟨by decide, by decide, by decide, by decide, ?_, ?_, ?_⟩
  · set_option maxRecDepth 100000 in decide
  · set_option maxRecDepth 100000 in decide
  · set_option maxRecDepth 100000 in decide

/-- An overshoot above 2^31: the periodic damage instance with timer 2000
updated with a diff of 2147485649 ms fires no tick; the `int32` timer wraps to
2147483647. -/
theorem first_tick_overshoot_example :
    dotAura.m_periodicTimer = 2000 ∧ tickCount 0 (dotAura.Update 2147485649).2 = 0 ∧
      (dotAura.Update 2147485649).1.m_periodicTimer = 2147483647 := by
  decide

/-! ## Which handlers look at the real flag -/

theorem statHandlerCalls_append (q : HandlerQuery) (e1 e2 : List Event) :
    statHandlerCalls q (e1 ++ e2) =
      match statHandlerCalls q e1, statHandlerCalls q e2 with
      | some c1, some c2 => some (c1 ++ c2)
      | _, _ => none := by
  induction e1 with
  | nil =>
    simp only [List.nil_append, statHandlerCalls]
    cases statHandlerCalls q e2 <;> simp
  | cons e es ih =>
    cases e
    case applyModifier a apply real =>
      simp only [List.cons_append, statHandlerCalls, List.append_eq]
      by_cases ha : a.m_modifier.m_auraname = SPELL_AURA_MOD_STAT
      · rw [if_pos ha, if_pos ha, ih]
        cases a.HandleAuraModStat q apply real <;> cases statHandlerCalls q es <;>
          cases statHandlerCalls q e2 <;> simp
      · rw [if_neg ha, if_neg ha, ih]
    all_goals
      simp only [List.cons_append, statHandlerCalls, List.append_eq]
      exact ih

theorem statDelta_append (stat : Nat) (c1 c2 : List HandlerCall) :
    statDelta stat (c1 ++ c2) = statDelta stat c1 + statDelta stat c2 := by
  simp [statDelta]

theorem statHandlerCalls_no_apply (q : HandlerQuery) (evs : List Event)
    (h : ∀ e ∈ evs, ∃ s d, e = Event.updateAuraDuration s d) :
    statHandlerCalls q evs = some [] := by
  induction evs with
  | nil => rfl
  | cons e es ih =>
    obtain ⟨s, d, he⟩ := h e (List.mem_cons_self _ _)
    subst he
    simp only [statHandlerCalls]
    exact ih fun e he => h e (List.mem_cons_of_mem _ he)

theorem statDelta_nil (stat : Nat) : statDelta stat [] = 0 := rfl

theorem statDelta_flatMap_zero (stat : Nat) (f : Nat → List HandlerCall) (l : List Nat)
    (h : ∀ i ∈ l, statDelta stat (f i) = 0) : statDelta stat (l.flatMap f) = 0 := by
  induction l with
  | nil => rfl
  | cons x xs ih =>
    rw [List.flatMap_cons, statDelta_append, h x (List.mem_cons_self _ _),
      ih fun i hi => h i (List.mem_cons_of_mem _ hi)]
    rfl

theorem statDelta_flatMap_single (stat : Nat) (f : Nat → List HandlerCall) (l : List Nat)
    (hnd : l.Nodup) (hmem : stat ∈ l) (h : ∀ i ∈ l, i ≠ stat → statDelta stat (f i) = 0) :
    statDelta stat (l.flatMap f) = statDelta stat (f stat) := by
  induction l with
  | nil => simp at hmem
  | cons x xs ih =>
    rw [List.flatMap_cons, statDelta_append]
    rw [List.nodup_cons] at hnd
    by_cases hx : x = stat
    · subst hx
      rw [statDelta_flatMap_zero x f xs fun i hi =>
        h i (List.mem_cons_of_mem _ hi) (fun e => hnd.1 (e ▸ hi))]
      omega
    · have hm : stat ∈ xs := by
        rcases List.mem_cons.1 hmem with e | e
        · exact absurd e.symm hx
        · exact e
      rw [h x (List.mem_cons_self _ _) hx, ih hnd.2 hm fun i hi => h i (List.mem_cons_of_mem _ hi)]
      omega

theorem HandleAuraModStat_delta (q : HandlerQuery) (stat : Nat) (apply real : Bool) (a : Aura)
    (hm1 : -2 ≤ a.m_modifier.m_miscvalue) (hm2 : a.m_modifier.m_miscvalue ≤ 4)
    (hfit : q.fitsFamilyMask = true → q.classScripts = [])
    (hs1 : q.STAT_STRENGTH ≤ stat) (hs2 : stat < q.MAX_STATS)
    (hs3 : a.m_modifier.m_miscvalue < 0 ∨ a.m_modifier.m_miscvalue = (stat : Int)) :
    ∃ calls, a.HandleAuraModStat q apply real = some calls ∧
      statDelta stat calls = if apply then a.m_modifier.m_amount else -a.m_modifier.m_amount := by
  unfold Aura.HandleAuraModStat
  rw [if_neg (by omega)]
  dsimp only
  have hloop : statDelta stat
      (((List.range q.MAX_STATS).filter fun i => decide (q.STAT_STRENGTH ≤ i)).flatMap fun i =>
        if a.m_modifier.m_miscvalue < 0 ∨ a.m_modifier.m_miscvalue = (i : Int) then
          [HandlerCall.handleStatModifier i a.m_modifier.m_amount apply] ++
            (if q.targetIsPlayer then
              [HandlerCall.applyStatBuffMod i a.m_modifier.m_amount apply]
            else [])
        else []) = if apply then a.m_modifier.m_amount else -a.m_modifier.m_amount := by
    rw [statDelta_flatMap_single stat _ _ ((List.nodup_range _).filter _)
      (by simp [List.mem_filter, hs1, hs2])]
    · rw [if_pos hs3]
      cases q.targetIsPlayer <;> simp [statDelta]
    · intro i _ hi
      split_ifs <;> simp [statDelta, hi]
  cases hf : q.fitsFamilyMask with
  | false =>
    refine ⟨_, rfl, ?_⟩
    exact hloop
  | true =>
    rw [if_pos rfl, hfit hf]
    cases apply with
    | true =>
      refine ⟨_, rfl, ?_⟩
      exact hloop
    | false =>
      refine ⟨_, rfl, ?_⟩
      dsimp only
      rw [statDelta_append, hloop]
      simp [statDelta]


theorem SetStackAmount_aura_stat (c : Consts) (env : Env) (sp : SpellEntry) (n : Nat)
    (old : Int) (a : Aura) (s : Nat)
    (hT : SPELL_AURA_MOD_STAT < c.TOTAL_AURAS)
    (hid : ∀ apply real b, env.AuraHandler SPELL_AURA_MOD_STAT apply real b = b)
    (hrem : env.IsAuraRemoveOnStacking sp 0 = true)
    (ht : a.m_modifier.m_auraname = SPELL_AURA_MOD_STAT)
    (hb : a.m_modifier.m_baseAmount = 2) (ha : a.m_modifier.m_amount = 2 * (s : Int))
    (he : a.m_effIndex = 0) (hn : n ≤ 5) (hs : s ≤ 5) :
    (SetStackAmount_aura c env sp n n old a).1.m_modifier.m_auraname = SPELL_AURA_MOD_STAT ∧
      (SetStackAmount_aura c env sp n n old a).1.m_modifier.m_baseAmount = 2 ∧
      (SetStackAmount_aura c env sp n n old a).1.m_modifier.m_amount = 2 * (n : Int) ∧
      (SetStackAmount_aura c env sp n n old a).1.m_modifier.m_miscvalue =
        a.m_modifier.m_miscvalue ∧
      (SetStackAmount_aura c env sp n n old a).1.m_effIndex = 0 ∧
      ((n = s ∧ (SetStackAmount_aura c env sp n n old a).2 = []) ∨
        (n ≠ s ∧ ∃ a1 a2 : Aura,
          (SetStackAmount_aura c env sp n n old a).2 =
            [Event.applyModifier a1 false true, Event.applyModifier a2 true true] ∧
          a1.m_modifier.m_auraname = SPELL_AURA_MOD_STAT ∧
          a2.m_modifier.m_auraname = SPELL_AURA_MOD_STAT ∧
          a1.m_modifier.m_miscvalue = a.m_modifier.m_miscvalue ∧
          a2.m_modifier.m_miscvalue = a.m_modifier.m_miscvalue ∧
          a1.m_modifier.m_amount = 2 * (s : Int) ∧ a2.m_modifier.m_amount = 2 * (n : Int))) := by
  have hprod : toInt32 ((n : Int) * a.m_modifier.m_baseAmount) = 2 * (n : Int) := by
    rw [hb]
    exact (toInt32_of_range _ (by omega) (by omega)).trans (by ring)
  have hAM : ∀ (b : Aura) (apply real : Bool), b.m_modifier.m_auraname = SPELL_AURA_MOD_STAT →
      b.ApplyModifier c env apply real = (b, [Event.applyModifier b apply real]) := by
    intro b apply real hbt
    unfold Aura.ApplyModifier
    rw [hbt, if_pos hT, hid]
  rw [SetStackAmount_aura_eq, hprod]
  by_cases hns : n = s
  · subst hns
    rw [if_neg (by rw [hb, ha]; simp)]
    exact ⟨ht, hb, ha, rfl, he, Or.inl ⟨rfl, rfl⟩⟩
  · rw [if_pos (Or.inr (by rw [ha]; omega))]
    have hrem2 : env.IsAuraRemoveOnStacking sp a.m_effIndex = true := by rw [he]; exact hrem
    simp only [Aura.ApplyModifier, ht, hT, hid, if_true, hrem2]
    refine ⟨trivial, hb, trivial, trivial, he, Or.inr ⟨hns, _, _, rfl, ht, rfl, rfl, rfl, ha, rfl⟩⟩

theorem statHandlerCalls_pair (q : HandlerQuery) (stat : Nat) (a1 a2 : Aura) (m : Int)
    (hm1 : -2 ≤ m) (hm2 : m ≤ 4)
    (hfit : q.fitsFamilyMask = true → q.classScripts = [])
    (hs1 : q.STAT_STRENGTH ≤ stat) (hs2 : stat < q.MAX_STATS)
    (hs3 : m < 0 ∨ m = (stat : Int))
    (ht1 : a1.m_modifier.m_auraname = SPELL_AURA_MOD_STAT)
    (ht2 : a2.m_modifier.m_auraname = SPELL_AURA_MOD_STAT)
    (hv1 : a1.m_modifier.m_miscvalue = m) (hv2 : a2.m_modifier.m_miscvalue = m) :
    ∃ calls,
      statHandlerCalls q [Event.applyModifier a1 false true, Event.applyModifier a2 true true] =
        some calls ∧
      statDelta stat calls = a2.m_modifier.m_amount - a1.m_modifier.m_amount := by
  obtain ⟨c1, hc1, hd1⟩ := HandleAuraModStat_delta q stat false true a1 (by omega) (by omega) hfit
    hs1 hs2 (by rw [hv1]; exact hs3)
  obtain ⟨c2, hc2, hd2⟩ := HandleAuraModStat_delta q stat true true a2 (by omega) (by omega) hfit
    hs1 hs2 (by rw [hv2]; exact hs3)
  refine ⟨c1 ++ (c2 ++ []), ?_, ?_⟩
  · simp only [statHandlerCalls, if_pos ht1, if_pos ht2, hc1, hc2]
  · rw [statDelta_append, statDelta_append, hd1, hd2, statDelta_nil]
    simp only [if_true, Bool.false_eq_true, if_false]
    omega

/-- One `ModStackAmount(+1)` on a stat buff holder with stack count `s` whose
amount stands at `m` stacks. -/
theorem ModStackAmount_stat_step_from (c : Consts) (env : Env) (q : HandlerQuery)
    (sp : SpellEntry) (stat g : Nat) (h : SpellAuraHolder) (t : UnitFields) (s m : Nat)
    (hT : SPELL_AURA_MOD_STAT < c.TOTAL_AURAS)
    (hid : ∀ apply real b, env.AuraHandler SPELL_AURA_MOD_STAT apply real b = b)
    (hrem : env.IsAuraRemoveOnStacking sp 0 = true)
    (hcap : sp.StackAmount = 5)
    (hm1 : -2 ≤ sp.EffectMiscValue 0) (hm2 : sp.EffectMiscValue 0 ≤ 4)
    (hfit : q.fitsFamilyMask = true → q.classScripts = [])
    (hs1 : q.STAT_STRENGTH ≤ stat) (hs2 : stat < q.MAX_STATS)
    (hs3 : sp.EffectMiscValue 0 < 0 ∨ sp.EffectMiscValue 0 = (stat : Int))
    (hp : h.m_spellProto = sp) (hst : h.m_stackAmount = s)
    (ha1 : h.m_auras 1 = none) (ha2 : h.m_auras 2 = none) (a : Aura)
    (ha0 : h.m_auras 0 = some a) (hat : a.m_modifier.m_auraname = SPELL_AURA_MOD_STAT)
    (hab : a.m_modifier.m_baseAmount = 2) (haa : a.m_modifier.m_amount = 2 * (m : Int))
    (ham : a.m_modifier.m_miscvalue = sp.EffectMiscValue 0) (hae : a.m_effIndex = 0)
    (h1 : 1 ≤ s) (h5 : s ≤ 5) (hm5 : m ≤ 5) :
    ∃ h2 t2 ev calls, h.ModStackAmount c env t 1 (some g) = some (false, h2, t2, ev) ∧
      StatInv sp (min (s + 1) 5) h2 ∧ statHandlerCalls q ev = some calls ∧
      statDelta stat calls = 2 * ((min (s + 1) 5 : Nat) : Int) - 2 * (m : Int) := by
  have e := ModStackAmount_eq c env h t 1 (some g) (by rw [hp, hcap]; norm_num) (by omega)
    (by rw [hst]; omega)
  rw [if_neg (by rw [hp, hcap]; norm_num), if_neg (by omega)] at e
  have hn : min ((h.m_stackAmount : Int) + 1).toNat h.m_spellProto.StackAmount = min (s + 1) 5 := by
    rw [hst, hp, hcap]
    congr 1
  rw [hn] at e
  obtain ⟨r, hr⟩ := SetStackAmount_isSome c env h t (min (s + 1) 5) g
  rw [hr] at e
  obtain ⟨e1, e2, _, e4, _, _, _, ev1, e8, e9⟩ := SetStackAmount_spec c env h t _ (some g) r hr
  rw [hp] at e4 e8
  obtain ⟨f1, f2, f3, f4, f5, f6⟩ := SetStackAmount_aura_stat c env sp (min (s + 1) 5)
    (toInt32 h.m_stackAmount) a m hT hid hrem hat hab haa hae (by omega) hm5
  have hev : (forEachAura
      (SetStackAmount_aura c env sp (min (s + 1) 5) (min (s + 1) 5) (toInt32 h.m_stackAmount))
      h.m_auras).2 =
      (SetStackAmount_aura c env sp (min (s + 1) 5) (min (s + 1) 5) (toInt32 h.m_stackAmount) a).2
      := by
    rw [forEachAura_snd, ha0, ha1, ha2]
    simp
  have hcalls : ∃ calls, statHandlerCalls q r.2.2 = some calls ∧
      statDelta stat calls = 2 * ((min (s + 1) 5 : Nat) : Int) - 2 * (m : Int) := by
    rw [e8, statHandlerCalls_append, statHandlerCalls_no_apply q ev1 e9, hev]
    rcases f6 with ⟨g1, g2⟩ | ⟨_, b1, b2, g2, g3, g4, g5, g6, g7, g8⟩
    · rw [g2]
      refine ⟨[], rfl, ?_⟩
      rw [statDelta_nil]
      omega
    · rw [g2]
      obtain ⟨calls, k1, k2⟩ := statHandlerCalls_pair q stat b1 b2 (sp.EffectMiscValue 0)
        hm1 hm2 hfit hs1 hs2 hs3 g3 g4 (g5.trans ham) (g6.trans ham)
      rw [k1]
      refine ⟨[] ++ calls, rfl, ?_⟩
      rw [List.nil_append, k2, g7, g8]
  obtain ⟨calls, k1, k2⟩ := hcalls
  refine ⟨r.1, r.2.1, r.2.2, calls, by rw [e]; rfl, ?_, k1, k2⟩
  refine ⟨e2.trans hp, e1, ?_, ?_, _, ?_, f1, f2, f3, f4.trans ham, f5⟩
  · rw [e4, forEachAura_fst, ha1]; rfl
  · rw [e4, forEachAura_fst, ha2]; rfl
  · rw [e4, forEachAura_fst, ha0]; rfl

theorem ModStackAmount_stat_step (c : Consts) (env : Env) (q : HandlerQuery) (sp : SpellEntry)
    (stat g : Nat) (h : SpellAuraHolder) (t : UnitFields) (s : Nat)
    (hT : SPELL_AURA_MOD_STAT < c.TOTAL_AURAS)
    (hid : ∀ apply real b, env.AuraHandler SPELL_AURA_MOD_STAT apply real b = b)
    (hrem : env.IsAuraRemoveOnStacking sp 0 = true)
    (hcap : sp.StackAmount = 5)
    (hm1 : -2 ≤ sp.EffectMiscValue 0) (hm2 : sp.EffectMiscValue 0 ≤ 4)
    (hfit : q.fitsFamilyMask = true → q.classScripts = [])
    (hs1 : q.STAT_STRENGTH ≤ stat) (hs2 : stat < q.MAX_STATS)
    (hs3 : sp.EffectMiscValue 0 < 0 ∨ sp.EffectMiscValue 0 = (stat : Int))
    (hinv : StatInv sp s h) (h1 : 1 ≤ s) (h5 : s ≤ 5) :
    ∃ h2 t2 ev calls, h.ModStackAmount c env t 1 (some g) = some (false, h2, t2, ev) ∧
      StatInv sp (min (s + 1) 5) h2 ∧ statHandlerCalls q ev = some calls ∧
      statDelta stat calls = 2 * ((min (s + 1) 5 : Nat) : Int) - 2 * (s : Int) := by
  obtain ⟨hp, hst, ha1, ha2, a, ha0, hat, hab, haa, ham, hae⟩ := hinv
  exact ModStackAmount_stat_step_from c env q sp stat g h t s s hT hid hrem hcap hm1 hm2 hfit
    hs1 hs2 hs3 hp hst ha1 ha2 a ha0 hat hab haa ham hae h1 h5 h5

theorem ModStackAmount_trace_stat (c : Consts) (env : Env) (q : HandlerQuery) (sp : SpellEntry)
    (stat g : Nat)
    (hT : SPELL_AURA_MOD_STAT < c.TOTAL_AURAS)
    (hid : ∀ apply real b, env.AuraHandler SPELL_AURA_MOD_STAT apply real b = b)
    (hrem : env.IsAuraRemoveOnStacking sp 0 = true)
    (hcap : sp.StackAmount = 5)
    (hm1 : -2 ≤ sp.EffectMiscValue 0) (hm2 : sp.EffectMiscValue 0 ≤ 4)
    (hfit : q.fitsFamilyMask = true → q.classScripts = [])
    (hs1 : q.STAT_STRENGTH ≤ stat) (hs2 : stat < q.MAX_STATS)
    (hs3 : sp.EffectMiscValue 0 < 0 ∨ sp.EffectMiscValue 0 = (stat : Int)) (k : Nat) :
    ∀ (h : SpellAuraHolder) (t : UnitFields) (s : Nat), StatInv sp s h → 1 ≤ s → s ≤ 5 →
      ∃ h2 t2 ev calls, ModStackAmount_trace c env (some g) k h t = some (h2, t2, ev) ∧
        StatInv sp (min (s + k) 5) h2 ∧ statHandlerCalls q ev = some calls ∧
        statDelta stat calls = 2 * ((min (s + k) 5 : Nat) : Int) - 2 * (s : Int) := by
  induction k with
  | zero =>
    intro h t s hinv h1 h5
    refine ⟨h, t, [], [], rfl, ?_, rfl, ?_⟩
    · rw [Nat.add_zero, min_eq_left h5]; exact hinv
    · rw [statDelta_nil, Nat.add_zero, min_eq_left h5]; omega
  | succ k ih =>
    intro h t s hinv h1 h5
    obtain ⟨h2, t2, ev, calls, e1, e2, e3, e4⟩ := ModStackAmount_stat_step c env q sp stat g h t s
      hT hid hrem hcap hm1 hm2 hfit hs1 hs2 hs3 hinv h1 h5
    obtain ⟨h3, t3, ev3, calls3, d1, d2, d3, d4⟩ := ih h2 t2 (min (s + 1) 5) e2 (by omega)
      (by omega)
    refine ⟨h3, t3, ev ++ ev3, calls ++ calls3, ?_, ?_, ?_, ?_⟩
    · simp only [ModStackAmount_trace, e1, d1, Option.map_some']
    · have : min (min (s + 1) 5 + k) 5 = min (s + (k + 1)) 5 := by omega
      rw [← this]; exact d2
    · rw [statHandlerCalls_append, e3, d3]
    · rw [statDelta_append, e4, d4]
      omega


theorem Aura_ctor_fields (sp : SpellEntry) (eff : Nat) (bp damage : Int) (pos : Bool)
    (pm : Nat → Nat) :
    (Aura.ctor sp eff bp damage pos pm).m_modifier.m_auraname = sp.EffectApplyAuraName eff ∧
      (Aura.ctor sp eff bp damage pos pm).m_modifier.m_baseAmount = damage ∧
      (Aura.ctor sp eff bp damage pos pm).m_modifier.m_amount = damage ∧
      (Aura.ctor sp eff bp damage pos pm).m_modifier.m_miscvalue = sp.EffectMiscValue eff ∧
      (Aura.ctor sp eff bp damage pos pm).m_effIndex = eff := by
  unfold Aura.ctor
  dsimp only
  split_ifs <;> exact ⟨rfl, rfl, rfl, rfl, rfl⟩

theorem firstApplication_stat (c : Consts) (env : Env) (q : HandlerQuery) (sp : SpellEntry)
    (target g stat : Nat) (bp : Int) (pos : Bool) (pm : Nat → Nat)
    (hT : SPELL_AURA_MOD_STAT < c.TOTAL_AURAS)
    (hid : ∀ apply real b, env.AuraHandler SPELL_AURA_MOD_STAT apply real b = b)
    (htype : sp.EffectApplyAuraName 0 = SPELL_AURA_MOD_STAT)
    (hcap : sp.StackAmount = 5)
    (hm1 : -2 ≤ sp.EffectMiscValue 0) (hm2 : sp.EffectMiscValue 0 ≤ 4)
    (hfit : q.fitsFamilyMask = true → q.classScripts = [])
    (hs1 : q.STAT_STRENGTH ≤ stat) (hs2 : stat < q.MAX_STATS)
    (hs3 : sp.EffectMiscValue 0 < 0 ∨ sp.EffectMiscValue 0 = (stat : Int)) :
    (firstApplication c env sp target g bp 2 pos pm).1.m_spellProto = sp ∧
      ((firstApplication c env sp target g bp 2 pos pm).1.m_stackAmount = 1 ∨
        (firstApplication c env sp target g bp 2 pos pm).1.m_stackAmount = 5) ∧
      (firstApplication c env sp target g bp 2 pos pm).1.m_auras 1 = none ∧
      (firstApplication c env sp target g bp 2 pos pm).1.m_auras 2 = none ∧
      (∃ a, (firstApplication c env sp target g bp 2 pos pm).1.m_auras 0 = some a ∧
        a.m_modifier.m_auraname = SPELL_AURA_MOD_STAT ∧ a.m_modifier.m_baseAmount = 2 ∧
        a.m_modifier.m_amount = 2 * ((1 : Nat) : Int) ∧
        a.m_modifier.m_miscvalue = sp.EffectMiscValue 0 ∧ a.m_effIndex = 0) ∧
      ∃ calls, statHandlerCalls q (firstApplication c env sp target g bp 2 pos pm).2 = some calls ∧
        statDelta stat calls = 2 := by
  obtain ⟨k1, k2, k3, k4, k5⟩ := Aura_ctor_fields sp 0 bp 2 pos pm
  have hAM : (Aura.ctor sp 0 bp 2 pos pm).ApplyModifier c env true true =
      (Aura.ctor sp 0 bp 2 pos pm, [Event.applyModifier (Aura.ctor sp 0 bp 2 pos pm) true true]) := by
    unfold Aura.ApplyModifier
    rw [k1, htype, if_pos hT, hid]
  have hfa : firstApplication c env sp target g bp 2 pos pm =
      ({ (CreateSpellAuraHolder c env sp target (some g)).AddAura
            (Aura.ctor sp 0 bp 2 pos pm) 0 with
          m_auras := (forEachAura (fun aur => aur.ApplyModifier c env true true)
            ((CreateSpellAuraHolder c env sp target (some g)).AddAura
              (Aura.ctor sp 0 bp 2 pos pm) 0).m_auras).1 },
        (forEachAura (fun aur => aur.ApplyModifier c env true true)
            ((CreateSpellAuraHolder c env sp target (some g)).AddAura
              (Aura.ctor sp 0 bp 2 pos pm) 0).m_auras).2) := rfl
  have ha0 : ((CreateSpellAuraHolder c env sp target (some g)).AddAura
      (Aura.ctor sp 0 bp 2 pos pm) 0).m_auras 0 = some (Aura.ctor sp 0 bp 2 pos pm) := by
    simp [SpellAuraHolder.AddAura]
  have ha1 : ((CreateSpellAuraHolder c env sp target (some g)).AddAura
      (Aura.ctor sp 0 bp 2 pos pm) 0).m_auras 1 = none := by
    simp [SpellAuraHolder.AddAura, CreateSpellAuraHolder]
  have ha2 : ((CreateSpellAuraHolder c env sp target (some g)).AddAura
      (Aura.ctor sp 0 bp 2 pos pm) 0).m_auras 2 = none := by
    simp [SpellAuraHolder.AddAura, CreateSpellAuraHolder]
  rw [hfa]
  dsimp only
  refine ⟨rfl, ?_, ?_, ?_, ⟨Aura.ctor sp 0 bp 2 pos pm, ?_, k1.trans htype, k2, ?_, k4, k5⟩, ?_⟩
  · show (if sp.Id = 24575 ∨ sp.Id = 24659 ∨ sp.Id = 24662 ∨ sp.Id = 26464 then sp.StackAmount
        else 1) = 1 ∨
      (if sp.Id = 24575 ∨ sp.Id = 24659 ∨ sp.Id = 24662 ∨ sp.Id = 26464 then sp.StackAmount
        else 1) = 5
    by_cases hsp : sp.Id = 24575 ∨ sp.Id = 24659 ∨ sp.Id = 24662 ∨ sp.Id = 26464
    · rw [if_pos hsp]; exact Or.inr hcap
    · rw [if_neg hsp]; exact Or.inl rfl
  · dsimp only
    rw [forEachAura_fst, ha1]; rfl
  · dsimp only
    rw [forEachAura_fst, ha2]; rfl
  · dsimp only
    rw [forEachAura_fst, ha0, if_pos (by norm_num), Option.map_some', hAM]
  · rw [k3]; norm_num
  · rw [forEachAura_snd, ha0, ha1, ha2]
    simp only [Option.elim, List.append_nil, hAM]
    obtain ⟨calls, e1, e2⟩ := HandleAuraModStat_delta q stat true true (Aura.ctor sp 0 bp 2 pos pm)
      (by rw [k4]; exact hm1) (by rw [k4]; exact hm2) hfit hs1 hs2 (by rw [k4]; exact hs3)
    refine ⟨calls ++ [], ?_, ?_⟩
    · simp only [statHandlerCalls, if_pos (k1.trans htype), e1]
    · rw [List.append_nil, e2, if_pos rfl, k3]

/-- C15: a stackable stat buff (effect 0 of type `SPELL_AURA_MOD_STAT`, stack
cap 5, magnitude 2 per stack, misc value naming the stat `stat` or all stats)
is really applied once and then stacked by four `ModStackAmount(+1)` calls.
All calls return without asking for removal, the stack count is 5 and the
`HandleAuraModStat` calls made through the dispatch table leave a net delta of
exactly 10 on the stat. A further `ModStackAmount(+1)` returns "keep", leaves
the stack count at 5 and the net delta at exactly 10. This holds for every
spell id, the four that start at full stack included; the effect is
re-applied on stacking (`IsAuraRemoveOnStacking`), and the class-script loop
of the handler has nothing to iterate over (with something to iterate over
the handler does not return). -/
theorem stat_buff_stacks_to_cap (c : Consts) (env : Env) (q : HandlerQuery) (sp : SpellEntry)
    (target g stat : Nat) (bp : Int) (pos : Bool) (pm : Nat → Nat) (t : UnitFields)
    (hT : SPELL_AURA_MOD_STAT < c.TOTAL_AURAS)
    (hid : ∀ apply real b, env.AuraHandler SPELL_AURA_MOD_STAT apply real b = b)
    (hrem : env.IsAuraRemoveOnStacking sp 0 = true)
    (htype : sp.EffectApplyAuraName 0 = SPELL_AURA_MOD_STAT)
    (hcap : sp.StackAmount = 5)
    (hm : -2 ≤ sp.EffectMiscValue 0 ∧ sp.EffectMiscValue 0 ≤ 4)
    (hfit : q.fitsFamilyMask = true → q.classScripts = [])
    (hs : q.STAT_STRENGTH ≤ stat ∧ stat < q.MAX_STATS ∧
      (sp.EffectMiscValue 0 < 0 ∨ sp.EffectMiscValue 0 = (stat : Int))) :
    ∃ h4 t4 ev4 h5 t5 ev5,
      ModStackAmount_trace c env (some g) 4 (firstApplication c env sp target g bp 2 pos pm).1 t =
          some (h4, t4, ev4) ∧
        h4.m_stackAmount = 5 ∧
        (statHandlerCalls q ((firstApplication c env sp target g bp 2 pos pm).2 ++ ev4)).map
          (statDelta stat) = some 10 ∧
        h4.ModStackAmount c env t4 1 (some g) = some (false, h5, t5, ev5) ∧
        h5.m_stackAmount = 5 ∧
        (statHandlerCalls q
          ((firstApplication c env sp target g bp 2 pos pm).2 ++ ev4 ++ ev5)).map
            (statDelta stat) = some 10 := by
  obtain ⟨hp, hst, ha1, ha2, ⟨a, ha0, hat, hab, haa, ham, hae⟩, c0, a1, a2⟩ :=
    firstApplication_stat c env q sp target g stat bp pos pm hT hid htype hcap hm.1 hm.2 hfit
      hs.1 hs.2.1 hs.2.2
  have hstep : ∃ s' : Nat, (s' = 2 ∨ s' = 5) ∧ ∃ h1 t1 ev1 calls1,
      (firstApplication c env sp target g bp 2 pos pm).1.ModStackAmount c env t 1 (some g) =
        some (false, h1, t1, ev1) ∧
      StatInv sp s' h1 ∧ statHandlerCalls q ev1 = some calls1 ∧
      statDelta stat calls1 = 2 * (s' : Int) - 2 := by
    rcases hst with hst | hst
    · obtain ⟨h1, t1, ev1, calls1, e1, e2, e3, e4⟩ := ModStackAmount_stat_step_from c env q sp
        stat g _ t 1 1 hT hid hrem hcap hm.1 hm.2 hfit hs.1 hs.2.1 hs.2.2 hp hst ha1 ha2 a ha0
        hat hab haa ham hae (le_refl 1) (by norm_num) (by norm_num)
      have hmin : min (1 + 1) 5 = 2 := by decide
      rw [hmin] at e2 e4
      exact ⟨2, Or.inl rfl, h1, t1, ev1, calls1, e1, e2, e3, by rw [e4]; norm_num⟩
    · obtain ⟨h1, t1, ev1, calls1, e1, e2, e3, e4⟩ := ModStackAmount_stat_step_from c env q sp
        stat g _ t 5 1 hT hid hrem hcap hm.1 hm.2 hfit hs.1 hs.2.1 hs.2.2 hp hst ha1 ha2 a ha0
        hat hab haa ham hae (by norm_num) (le_refl 5) (by norm_num)
      have hmin : min (5 + 1) 5 = 5 := by decide
      rw [hmin] at e2 e4
      exact ⟨5, Or.inr rfl, h1, t1, ev1, calls1, e1, e2, e3, by rw [e4]; norm_num⟩
  obtain ⟨s', hs', h1, t1, ev1, calls1, e1, e2, e3, e4⟩ := hstep
  obtain ⟨h4, t4, ev3, c3, b1, b2, b3, b4⟩ := ModStackAmount_trace_stat c env q sp stat g hT hid
    hrem hcap hm.1 hm.2 hfit hs.1 hs.2.1 hs.2.2 3 h1 t1 s' e2 (by omega) (by omega)
  have hmin : min (s' + 3) 5 = 5 := by omega
  rw [hmin] at b2 b4
  obtain ⟨h5, t5, ev5, c5, d1, d2, d3, d4⟩ := ModStackAmount_stat_step c env q sp stat g h4 t4 5
    hT hid hrem hcap hm.1 hm.2 hfit hs.1 hs.2.1 hs.2.2 b2 (by norm_num) (le_refl 5)
  have hmin5 : min (5 + 1) 5 = 5 := by decide
  rw [hmin5] at d2 d4
  have htrace : ModStackAmount_trace c env (some g) (3 + 1)
      (firstApplication c env sp target g bp 2 pos pm).1 t = some (h4, t4, ev1 ++ ev3) := by
    rw [ModStackAmount_trace, e1]
    dsimp only
    rw [b1]
    rfl
  refine ⟨h4, t4, ev1 ++ ev3, h5, t5, ev5, htrace, b2.2.1, ?_, d1, d2.2.1, ?_⟩
  · rw [statHandlerCalls_append, statHandlerCalls_append, a1, e3, b3]
    simp only [Option.map_some', statDelta_append, a2, e4, b4]
    congr 1
    push_cast
    omega
  · rw [statHandlerCalls_append, statHandlerCalls_append, statHandlerCalls_append, a1, e3, b3]
    dsimp only
    rw [d3]
    simp only [Option.map_some', statDelta_append, a2, e4, b4, d4]
    congr 1
    push_cast
    omega

/-- C15 (witness): the stat buff 15366 (cap 5, magnitude 2, stat 0) cast by
unit 9 on the player 7. -/
theorem stat_buff_stacks_to_cap_witness :
    ∃ h4 t4 ev4 h5 t5 ev5,
      ModStackAmount_trace sampleConsts (sampleEnv 6000 0) (some 9) 4
          (firstApplication sampleConsts (sampleEnv 6000 0) statBuff 7 9 2 2 true id).1
          noAuraFields = some (h4, t4, ev4) ∧
        h4.m_stackAmount = 5 ∧
        (statHandlerCalls (plainQuery 15366)
          ((firstApplication sampleConsts (sampleEnv 6000 0) statBuff 7 9 2 2 true id).2 ++
            ev4)).map (statDelta 0) = some 10 ∧
        h4.ModStackAmount sampleConsts (sampleEnv 6000 0) t4 1 (some 9) =
          some (false, h5, t5, ev5) ∧
        h5.m_stackAmount = 5 ∧
        (statHandlerCalls (plainQuery 15366)
          ((firstApplication sampleConsts (sampleEnv 6000 0) statBuff 7 9 2 2 true id).2 ++
            ev4 ++ ev5)).map (statDelta 0) = some 10 :=
  stat_buff_stacks_to_cap sampleConsts (sampleEnv 6000 0) (plainQuery 15366) statBuff 7 9 0 2
    true id noAuraFields (by decide) (fun _ _ _ => rfl) rfl rfl rfl (by decide)
    (by decide) (by decide)

/-! ## The flag group and the application byte of a slot -/

theorem SetAuraFlag_word_flags (c : Consts) (hwf : c.WellFormed) (h : SpellAuraHolder)
    (t : UnitFields) (slot : Nat) (add : Bool) :
    h.auraFlags c add < 16 ∧
      h.SetAuraFlag c t slot add =
        { t with
          UNIT_FIELD_AURAFLAGS :=
            Function.update t.UNIT_FIELD_AURAFLAGS (slot / 8)
              ((t.UNIT_FIELD_AURAFLAGS (slot / 8) &&& not32 (shl32 15 (4 * (slot % 8)))) |||
                shl32 (h.auraFlags c add) (4 * (slot % 8))) } := by
  obtain ⟨_, _, hmask, hc, h3, h4⟩ := hwf
  have hz : ∀ x b, x ||| shl32 0 b = x := by
    intro x b
    simp [shl32]
  have h16 : ∀ x, x ≤ 15 → x < 2 ^ 4 := fun x hx => lt_of_le_of_lt hx (by norm_num)
  constructor
  · unfold SpellAuraHolder.auraFlags
    split_ifs
    · exact Nat.or_lt_two_pow (n := 4) (h16 _ hc) (h16 _ h3)
    · exact Nat.or_lt_two_pow (n := 4) (by norm_num) (h16 _ h3)
    · omega
    · norm_num
  · unfold SpellAuraHolder.SetAuraFlag SpellAuraHolder.auraFlags
    simp only [slot_shift, slot_index, hmask]
    cases add with
    | false => simp [hz]
    | true =>
      cases hp : h.IsPositive <;>
        cases hcc : h.m_spellProto.HasAttribute .SPELL_ATTR_CANT_CANCEL <;> simp

/-- C24: `SpellAuraHolder::SetAuraFlag(slot, add)`, for header values with
`AFLAG_MASK_ALL = 0x0F` and flags below 16. The 4-bit group at bit offset
`4 * (slot mod 8)` of the word `UNIT_FIELD_AURAFLAGS + slot div 8` becomes
`(CANCELABLE unless the definition has SPELL_ATTR_CANT_CANCEL) | UNK3` for a
positive holder and `UNK4` for a negative one when `add` is set, and 0 when it
is not; the seven other groups of that word, every other word of the flags,
and the other fields of the target are unchanged. -/
theorem SetAuraFlag_group (c : Consts) (hwf : c.WellFormed) (h : SpellAuraHolder)
    (t : UnitFields) (slot : Nat) (add : Bool) :
    ((h.SetAuraFlag c t slot add).UNIT_FIELD_AURAFLAGS (slot / 8) >>> (4 * (slot % 8))) &&& 15 =
        (if add then
          if h.IsPositive then
            (if h.m_spellProto.HasAttribute .SPELL_ATTR_CANT_CANCEL then 0
              else c.AFLAG_CANCELABLE) ||| c.AFLAG_UNK3
          else c.AFLAG_UNK4
        else 0) ∧
      (∀ k, k < 8 → k ≠ slot % 8 →
        ((h.SetAuraFlag c t slot add).UNIT_FIELD_AURAFLAGS (slot / 8) >>> (4 * k)) &&& 15 =
          (t.UNIT_FIELD_AURAFLAGS (slot / 8) >>> (4 * k)) &&& 15) ∧
      (∀ i, i ≠ slot / 8 →
        (h.SetAuraFlag c t slot add).UNIT_FIELD_AURAFLAGS i = t.UNIT_FIELD_AURAFLAGS i) ∧
      (h.SetAuraFlag c t slot add).UNIT_FIELD_AURA = t.UNIT_FIELD_AURA ∧
      (h.SetAuraFlag c t slot add).UNIT_FIELD_AURALEVELS = t.UNIT_FIELD_AURALEVELS ∧
      (h.SetAuraFlag c t slot add).UNIT_FIELD_AURAAPPLICATIONS =
        t.UNIT_FIELD_AURAAPPLICATIONS := by
  obtain ⟨hlt, hw⟩ := SetAuraFlag_word_flags c hwf h t slot add
  rw [hw]
  dsimp only
  refine ⟨?_, ?_, ?_, rfl, rfl, rfl⟩
  · rw [Function.update_same, flagGroup_write_same _ _ _ (Nat.mod_lt _ (by norm_num))]
    have h15 : h.auraFlags c add &&& 15 = h.auraFlags c add := by
      have := Nat.and_pow_two_sub_one_eq_mod (h.auraFlags c add) 4
      norm_num at this
      rw [this]
      omega
    rw [h15]
    unfold SpellAuraHolder.auraFlags
    cases add <;> cases h.IsPositive <;>
      cases h.m_spellProto.HasAttribute .SPELL_ATTR_CANT_CANCEL <;> rfl
  · intro k hk hne
    rw [Function.update_same]
    exact flagGroup_write_other _ _ _ _ hk (Ne.symm hne) hlt
  · intro i hi
    exact Function.update_noteq hi _ _

/-- C24 (witness): slot 9 of the stat buff holder (positive, cancelable) on
target fields without auras: group 1 of word 1 becomes 5. -/
theorem SetAuraFlag_group_witness :
    ((statHolder.SetAuraFlag sampleConsts noAuraFields 9 true).UNIT_FIELD_AURAFLAGS 1 >>> 4)
      &&& 15 = 5 :=
  (SetAuraFlag_group sampleConsts (by decide) statHolder noAuraFields 9 true).1.trans
    (by decide)


theorem testBit_255 (i : Nat) : (255 : Nat).testBit i = decide (i < 8) :=
  Nat.testBit_two_pow_sub_one 8 i

theorem byteGroup_write_same (val f k : Nat) (hk : k < 4) :
    (((val &&& not32 (shl32 255 (k * 8))) ||| shl32 f (k * 8)) >>> (k * 8)) &&& 255 =
      f &&& 255 := by
  apply Nat.eq_of_testBit_eq
  intro i
  simp only [Nat.testBit_and, Nat.testBit_or, Nat.testBit_shiftRight, testBit_not32,
    testBit_shl32, testBit_255]
  by_cases hi : i < 8
  · have h1 : k * 8 + i < 32 := by omega
    have h2 : k * 8 ≤ k * 8 + i := by omega
    have h3 : k * 8 + i - k * 8 = i := by omega
    simp [hi, h1, h2, h3]
  · simp [hi]

theorem byteGroup_write_other (val f k k2 : Nat) (hk2 : k2 < 4) (hne : k ≠ k2) (hf : f < 256) :
    (((val &&& not32 (shl32 255 (k * 8))) ||| shl32 f (k * 8)) >>> (k2 * 8)) &&& 255 =
      (val >>> (k2 * 8)) &&& 255 := by
  apply Nat.eq_of_testBit_eq
  intro i
  simp only [Nat.testBit_and, Nat.testBit_or, Nat.testBit_shiftRight, testBit_not32,
    testBit_shl32, testBit_255]
  by_cases hi : i < 8
  · have h1 : k2 * 8 + i < 32 := by omega
    by_cases hle : k * 8 ≤ k2 * 8 + i
    · have h4 : 8 ≤ k2 * 8 + i - k * 8 := by omega
      have h5 : ¬ (k2 * 8 + i - k * 8 < 8) := by omega
      have h6 : f.testBit (k2 * 8 + i - k * 8) = false :=
        Nat.testBit_lt_two_pow (lt_of_lt_of_le (show f < 2 ^ 8 by simpa using hf)
          (Nat.pow_le_pow_right (by norm_num) h4))
      simp [hi, h1, hle, h5, h6]
    · simp [hi, h1, hle]
  · simp [hi]

theorem UpdateAuraApplication_word (c : Consts) (h : SpellAuraHolder) (t : UnitFields)
    (hs : h.m_auraSlot < c.MAX_AURAS) :
    h.UpdateAuraApplication c t =
      { t with
        UNIT_FIELD_AURAAPPLICATIONS :=
          Function.update t.UNIT_FIELD_AURAAPPLICATIONS (h.m_auraSlot / 4)
            ((t.UNIT_FIELD_AURAAPPLICATIONS (h.m_auraSlot / 4) &&&
                not32 (shl32 255 (h.m_auraSlot % 4 * 8))) |||
              shl32 ((if h.stackCount ≤ 255 then (h.stackCount + 4294967295) % 4294967296
                else 254) % 256) (h.m_auraSlot % 4 * 8)) } := by
  unfold SpellAuraHolder.UpdateAuraApplication SpellAuraHolder.stackCount
  rw [if_neg (by omega)]

/-- C25: `SpellAuraHolder::UpdateAuraApplication` for a holder with
visibility slot `s < MAX_AURAS` and `uint32` stack count `n >= 1` (`n` is
`procCharges * stackAmount` computed in `uint32` when `procCharges > 0`, and
`stackAmount` otherwise) writes `min(n, 255) - 1` into byte `s mod 4` of the
word `UNIT_FIELD_AURAAPPLICATIONS + s div 4`; the three other bytes of that
word, every other word and the other fields of the target are unchanged. For
a holder with `s >= MAX_AURAS` the target fields are returned as they are.
When the product fits `uint32`, `n` is the product itself. -/
theorem UpdateAuraApplication_byte (c : Consts) (h : SpellAuraHolder) (t : UnitFields) :
    (h.m_auraSlot < c.MAX_AURAS → 1 ≤ h.stackCount →
      ((h.UpdateAuraApplication c t).UNIT_FIELD_AURAAPPLICATIONS (h.m_auraSlot / 4) >>>
          (h.m_auraSlot % 4 * 8)) &&& 255 = min h.stackCount 255 - 1 ∧
        (∀ k, k < 4 → k ≠ h.m_auraSlot % 4 →
          ((h.UpdateAuraApplication c t).UNIT_FIELD_AURAAPPLICATIONS (h.m_auraSlot / 4) >>>
              (k * 8)) &&& 255 =
            (t.UNIT_FIELD_AURAAPPLICATIONS (h.m_auraSlot / 4) >>> (k * 8)) &&& 255) ∧
        (∀ i, i ≠ h.m_auraSlot / 4 →
          (h.UpdateAuraApplication c t).UNIT_FIELD_AURAAPPLICATIONS i =
            t.UNIT_FIELD_AURAAPPLICATIONS i) ∧
        (h.UpdateAuraApplication c t).UNIT_FIELD_AURA = t.UNIT_FIELD_AURA ∧
        (h.UpdateAuraApplication c t).UNIT_FIELD_AURAFLAGS = t.UNIT_FIELD_AURAFLAGS ∧
        (h.UpdateAuraApplication c t).UNIT_FIELD_AURALEVELS = t.UNIT_FIELD_AURALEVELS) ∧
    (c.MAX_AURAS ≤ h.m_auraSlot → h.UpdateAuraApplication c t = t) ∧
    (h.m_procCharges * h.m_stackAmount < 4294967296 →
      h.stackCount =
        if h.m_procCharges > 0 then h.m_procCharges * h.m_stackAmount else h.m_stackAmount) := by
  refine ⟨?_, ?_, ?_⟩
  · intro hs hn
    rw [UpdateAuraApplication_word c h t hs]
    dsimp only
    have hlt : (if h.stackCount ≤ 255 then (h.stackCount + 4294967295) % 4294967296
        else 254) % 256 < 256 := Nat.mod_lt _ (by norm_num)
    refine ⟨?_, ?_, ?_, rfl, rfl, rfl⟩
    · rw [Function.update_same, byteGroup_write_same _ _ _ (Nat.mod_lt _ (by norm_num))]
      have h255 : ∀ x, x < 256 → x &&& 255 = x := by
        intro x hx
        have := Nat.and_pow_two_sub_one_eq_mod x 8
        norm_num at this
        rw [this]
        omega
      rw [h255 _ hlt]
      split_ifs with hle
      · rw [min_eq_left hle]
        omega
      · rw [min_eq_right (by omega)]
    · intro k hk hne
      rw [Function.update_same]
      exact byteGroup_write_other _ _ _ _ hk (Ne.symm hne) hlt
    · intro i hi
      exact Function.update_noteq hi _ _
  · intro hs
    unfold SpellAuraHolder.UpdateAuraApplication
    rw [if_pos hs]
  · intro hp
    unfold SpellAuraHolder.stackCount
    rw [Nat.mod_eq_of_lt hp]

/-- C25 (witness): the holder in slot 6 with 3 charges and 2 stacks writes 5
into byte 2 of application word 1, which was `0x04030201` and becomes
`0x04050201`. -/
theorem UpdateAuraApplication_byte_witness :
    ((chargedHolder.UpdateAuraApplication sampleConsts patternFields).UNIT_FIELD_AURAAPPLICATIONS
        1 >>> 16) &&& 255 = 5 ∧
      (chargedHolder.UpdateAuraApplication sampleConsts patternFields).UNIT_FIELD_AURAAPPLICATIONS
        1 = 67437057 :=
  ⟨((UpdateAuraApplication_byte sampleConsts chargedHolder patternFields).1 (by decide)
      (by decide)).1.trans (by decide), by decide⟩


/-! ## Persistent area instances -/

theorem Aura_Update_events (a : Aura) (diff : Nat) :
    ∀ e ∈ (a.Update diff).2, ∃ b, e = Event.periodicTick b := by
  intro e he
  rw [Aura_Update_eq] at he
  split_ifs at he <;> simp at he
  exact ⟨_, he⟩

/-- C22: `PersistentAreaAura::Update`. When the caster does not resolve, or
has no dynamic object for this spell id, the single effect is removed with
reason `AURA_REMOVE_BY_EXPIRE`; when the target is outside the radius of the
object, the target is taken off the object's affected list and the effect is
removed with reason `AURA_REMOVE_BY_DEFAULT`; in these three cases the base
update does not run (the instance is unchanged, no tick). Otherwise the update
is `Aura::Update(diff)` and nothing is removed. So a removal happens exactly
in the three cases. -/
theorem PersistentAreaAura_Update_contract (env : Env) (h : SpellAuraHolder) (a : Aura)
    (diff : Nat) :
    (h.GetCaster env = none →
      PersistentAreaAura.Update env h a diff =
        (a, [Event.removeSingleAura h.m_spellProto.Id a.m_effIndex AURA_REMOVE_BY_EXPIRE])) ∧
    (∀ g, h.GetCaster env = some g → env.GetDynObject g h.m_spellProto.Id = false →
      PersistentAreaAura.Update env h a diff =
        (a, [Event.removeSingleAura h.m_spellProto.Id a.m_effIndex AURA_REMOVE_BY_EXPIRE])) ∧
    (∀ g, h.GetCaster env = some g → env.GetDynObject g h.m_spellProto.Id = true →
      (env.areaQuery h.m_casterGuid h.m_target a).outOfDynObjectRadius = true →
      PersistentAreaAura.Update env h a diff =
        (a, [Event.dynObjRemoveAffected h.m_spellProto.Id,
          Event.removeSingleAura h.m_spellProto.Id a.m_effIndex AURA_REMOVE_BY_DEFAULT])) ∧
    (∀ g, h.GetCaster env = some g → env.GetDynObject g h.m_spellProto.Id = true →
      (env.areaQuery h.m_casterGuid h.m_target a).outOfDynObjectRadius = false →
      PersistentAreaAura.Update env h a diff = a.Update diff) ∧
    ((∃ mode, Event.removeSingleAura h.m_spellProto.Id a.m_effIndex mode ∈
        (PersistentAreaAura.Update env h a diff).2) ↔
      (h.GetCaster env = none ∨
        (∃ g, h.GetCaster env = some g ∧
          (env.GetDynObject g h.m_spellProto.Id = false ∨
            (env.areaQuery h.m_casterGuid h.m_target a).outOfDynObjectRadius = true)))) := by
  have hnot : ∀ mode, Event.removeSingleAura h.m_spellProto.Id a.m_effIndex mode ∉
      (a.Update diff).2 := by
    intro mode hmem
    obtain ⟨b, hb⟩ := Aura_Update_events a diff _ hmem
    cases hb
  have h1 : h.GetCaster env = none →
      PersistentAreaAura.Update env h a diff =
        (a, [Event.removeSingleAura h.m_spellProto.Id a.m_effIndex AURA_REMOVE_BY_EXPIRE]) := by
    intro hc
    unfold PersistentAreaAura.Update
    rw [hc]
    rfl
  have h2 : ∀ g, h.GetCaster env = some g → env.GetDynObject g h.m_spellProto.Id = false →
      PersistentAreaAura.Update env h a diff =
        (a, [Event.removeSingleAura h.m_spellProto.Id a.m_effIndex AURA_REMOVE_BY_EXPIRE]) := by
    intro g hc hd
    unfold PersistentAreaAura.Update
    rw [hc]
    dsimp only
    rw [hd]
    rfl
  have h3 : ∀ g, h.GetCaster env = some g → env.GetDynObject g h.m_spellProto.Id = true →
      (env.areaQuery h.m_casterGuid h.m_target a).outOfDynObjectRadius = true →
      PersistentAreaAura.Update env h a diff =
        (a, [Event.dynObjRemoveAffected h.m_spellProto.Id,
          Event.removeSingleAura h.m_spellProto.Id a.m_effIndex AURA_REMOVE_BY_DEFAULT]) := by
    intro g hc hd ho
    unfold PersistentAreaAura.Update
    rw [hc]
    dsimp only
    rw [hd, ho]
    rfl
  have h4 : ∀ g, h.GetCaster env = some g → env.GetDynObject g h.m_spellProto.Id = true →
      (env.areaQuery h.m_casterGuid h.m_target a).outOfDynObjectRadius = false →
      PersistentAreaAura.Update env h a diff = a.Update diff := by
    intro g hc hd ho
    unfold PersistentAreaAura.Update
    rw [hc]
    dsimp only
    rw [hd, ho]
    rfl
  refine ⟨h1, h2, h3, h4, ?_⟩
  cases hc : h.GetCaster env with
  | none =>
    rw [h1 hc]
    simp
  | some g =>
    cases hd : env.GetDynObject g h.m_spellProto.Id with
    | false =>
      rw [h2 g hc hd]
      simp [hd]
    | true =>
      cases ho : (env.areaQuery h.m_casterGuid h.m_target a).outOfDynObjectRadius with
      | true =>
        rw [h3 g hc hd ho]
        simp [hd]
      | false =>
        rw [h4 g hc hd ho]
        constructor
        · rintro ⟨mode, hm⟩
          exact absurd hm (hnot mode)
        · rintro (hx | ⟨g2, hg2, hx⟩)
          · cases hx
          · cases hg2
            rcases hx with hx | hx
            · rw [hd] at hx
              cases hx
            · cases hx


/-! ## Proc charges -/

/-- C30: `SpellAuraHolder::DropAuraCharge` on a holder with `n` proc charges
(a `uint32`). With `n = 0` it returns false and changes nothing. With `n > 0`
the charges become `n - 1`, every present instance that has a spell modifier
gets that modifier's charges set to `n - 1` (the instances are otherwise
unchanged, empty slots stay empty), and it returns true exactly when
`n - 1 = 0`; the new count is below the old one, there is no wrap-around. -/
theorem DropAuraCharge_contract (c : Consts) (env : Env) (h : SpellAuraHolder) (t : UnitFields)
    (hn : h.m_procCharges < 4294967296) :
    (h.m_procCharges = 0 → h.DropAuraCharge c env t = (false, h, t, [])) ∧
    (0 < h.m_procCharges →
      (h.DropAuraCharge c env t).2.1.m_procCharges = h.m_procCharges - 1 ∧
      (h.DropAuraCharge c env t).2.1.m_procCharges < h.m_procCharges ∧
      (∀ i, i < 3 →
        (h.DropAuraCharge c env t).2.1.m_auras i =
          (h.m_auras i).map fun aur =>
            { aur with
              m_spellmod := aur.m_spellmod.map fun (m : SpellModifier) =>
                { m with charges := h.m_procCharges - 1 } }) ∧
      ((h.DropAuraCharge c env t).1 = true ↔ h.m_procCharges - 1 = 0)) := by
  constructor
  · intro h0
    unfold SpellAuraHolder.DropAuraCharge
    rw [if_pos h0]
  · intro hpos
    have hdec : (h.m_procCharges + 4294967295) % 4294967296 = h.m_procCharges - 1 := by omega
    unfold SpellAuraHolder.DropAuraCharge
    rw [if_neg (by omega)]
    dsimp only
    rw [hdec]
    refine ⟨rfl, by omega, ?_, ?_⟩
    · intro i hi
      rw [forEachAura_fst, if_pos hi]
    · simp

/-- C30 (witness): a holder with 1 charge whose instance carries a spell
modifier with 7 charges: the call returns true, the charges are 0 and the
modifier's charges are 0. -/
theorem DropAuraCharge_contract_witness :
    ((modHolder 1).DropAuraCharge sampleConsts (sampleEnv 6000 0) noAuraFields).1 = true ∧
      ((modHolder 1).DropAuraCharge sampleConsts (sampleEnv 6000 0)
        noAuraFields).2.1.m_procCharges = 0 ∧
      (((modHolder 1).DropAuraCharge sampleConsts (sampleEnv 6000 0)
        noAuraFields).2.1.m_auras 0).map (fun aur => aur.m_spellmod) =
          some (some { charges := 0 }) :=
  ⟨((DropAuraCharge_contract sampleConsts (sampleEnv 6000 0) (modHolder 1) noAuraFields
      (by decide)).2 (by decide)).2.2.2.2 (by decide),
    ((DropAuraCharge_contract sampleConsts (sampleEnv 6000 0) (modHolder 1) noAuraFields
      (by decide)).2 (by decide)).1,
    by rfl⟩


/-! ## Mechanic masks -/

theorem and_two_pow_ne_zero (m k : Nat) : (m &&& 2 ^ k ≠ 0) ↔ m.testBit k = true := by
  rw [Nat.and_two_pow]
  cases m.testBit k <;> simp

theorem two_pow_and_ne_zero (m k : Nat) : (2 ^ k &&& m ≠ 0) ↔ m.testBit k = true := by
  rw [Nat.and_comm]
  exact and_two_pow_ne_zero m k

theorem dec32_pos (x : Nat) (h1 : 1 ≤ x) (h2 : x < 4294967296) : dec32 x = x - 1 := by
  unfold dec32
  omega

theorem dec32_zero : dec32 0 = 4294967295 := rfl

theorem shlOne_lt (k : Nat) (hk : k < 32) : shlOne k = some (2 ^ k) := by
  unfold shlOne
  rw [if_pos hk]

theorem HasMechanicMask_slot_eq (h : SpellAuraHolder) (mask i : Nat)
    (hi : h.m_spellProto.EffectMechanic i ≤ 32) :
    HasMechanicMask_slot h mask i =
      some ((h.m_auras i).isSome && decide (h.m_spellProto.EffectMechanic i ≠ 0) &&
        mask.testBit (h.m_spellProto.EffectMechanic i - 1)) := by
  unfold HasMechanicMask_slot
  by_cases hc : (h.m_auras i).isSome = true ∧ h.m_spellProto.EffectMechanic i ≠ 0
  · rw [if_pos hc, dec32_pos _ (by omega) (by omega), shlOne_lt _ (by omega)]
    simp only [Option.map_some', hc.1, Bool.true_and]
    congr 1
    by_cases hb : mask.testBit (h.m_spellProto.EffectMechanic i - 1) = true
    · rw [hb]
      simp only [decide_eq_true hc.2, Bool.and_true, decide_eq_true_eq]
      exact (two_pow_and_ne_zero _ _).2 hb
    · simp only [Bool.not_eq_true] at hb
      rw [hb]
      simp only [Bool.and_false, decide_eq_false_iff_not]
      intro hx
      have := (two_pow_and_ne_zero _ _).1 hx
      rw [hb] at this
      cases this
  · rw [if_neg hc]
    congr 1
    by_cases h1 : (h.m_auras i).isSome = true
    · have h2 : h.m_spellProto.EffectMechanic i = 0 := by
        by_contra hne
        exact hc ⟨h1, hne⟩
      simp [h2]
    · simp only [Bool.not_eq_true] at h1
      simp [h1]



theorem shlOne_ge (k : Nat) (hk : 32 ≤ k) : shlOne k = none := by
  unfold shlOne
  rw [if_neg (by omega)]

theorem dec32_zero_ge : 32 ≤ dec32 0 := by
  rw [dec32_zero]
  norm_num

theorem HasMechanicMask_loop_eq (h : SpellAuraHolder) (mask : Nat)
    (he : ∀ i, i < 3 → h.m_spellProto.EffectMechanic i ≤ 32) :
    HasMechanicMask_loop h mask (List.range MAX_EFFECT_INDEX) =
      some ((List.range MAX_EFFECT_INDEX).any fun i =>
        (h.m_auras i).isSome && decide (h.m_spellProto.EffectMechanic i ≠ 0) &&
          mask.testBit (h.m_spellProto.EffectMechanic i - 1)) := by
  have hr : List.range MAX_EFFECT_INDEX = [0, 1, 2] := rfl
  rw [hr]
  simp only [HasMechanicMask_loop, HasMechanicMask_slot_eq h mask 0 (he 0 (by norm_num)),
    HasMechanicMask_slot_eq h mask 1 (he 1 (by norm_num)),
    HasMechanicMask_slot_eq h mask 2 (he 2 (by norm_num)), List.any_cons, List.any_nil,
    Bool.or_false]
  cases ((h.m_auras 0).isSome && decide (h.m_spellProto.EffectMechanic 0 ≠ 0) &&
      mask.testBit (h.m_spellProto.EffectMechanic 0 - 1)) <;>
    cases ((h.m_auras 1).isSome && decide (h.m_spellProto.EffectMechanic 1 ≠ 0) &&
      mask.testBit (h.m_spellProto.EffectMechanic 1 - 1)) <;>
    cases ((h.m_auras 2).isSome && decide (h.m_spellProto.EffectMechanic 2 ≠ 0) &&
      mask.testBit (h.m_spellProto.EffectMechanic 2 - 1)) <;> rfl

/-- C27: `SpellAuraHolder::HasMechanicMask(mask)`. For a definition whose
spell-level mechanic is 0 the function evaluates the shift `1 << (0 - 1)`,
whose count is the `uint32` 4294967295: the call has no defined result,
whatever the mask and the effect slots are. When the spell-level mechanic is
in `1..32` and the effect mechanics are at most 32 the result is the one the
claim describes: true exactly when the bit `1 << (m - 1)` of the mask is set
for the spell-level mechanic or for the effect mechanic `m != 0` of a
non-null slot. -/
theorem HasMechanicMask_contract (h : SpellAuraHolder) (mask : Nat) :
    (h.m_spellProto.Mechanic = 0 → h.HasMechanicMask mask = none) ∧
    (1 ≤ h.m_spellProto.Mechanic → h.m_spellProto.Mechanic ≤ 32 →
      (∀ i, i < 3 → h.m_spellProto.EffectMechanic i ≤ 32) →
      h.HasMechanicMask mask = some (HasMechanicMask_spec h mask)) := by
  constructor
  · intro h0
    have hge : 32 ≤ dec32 h.m_spellProto.Mechanic := h0 ▸ dec32_zero_ge
    have hs := shlOne_ge _ hge
    unfold SpellAuraHolder.HasMechanicMask
    rw [hs]
    rfl
  · intro h1 h2 he
    have hs : shlOne (dec32 h.m_spellProto.Mechanic) = some (2 ^ (h.m_spellProto.Mechanic - 1)) := by
      rw [dec32_pos _ h1 (by omega)]
      exact shlOne_lt _ (by omega)
    unfold SpellAuraHolder.HasMechanicMask HasMechanicMask_spec
    rw [hs, Option.some_bind]
    have hne : h.m_spellProto.Mechanic ≠ 0 := by omega
    simp only [decide_eq_true hne, Bool.true_and]
    by_cases hb : mask.testBit (h.m_spellProto.Mechanic - 1) = true
    · rw [if_pos ((and_two_pow_ne_zero _ _).2 hb), hb]
      rfl
    · rw [if_neg (fun hx => hb ((and_two_pow_ne_zero _ _).1 hx)), HasMechanicMask_loop_eq h mask he]
      simp only [Bool.not_eq_true] at hb
      rw [hb]
      rfl

/-- C27 (failing input): the periodic damage holder (spell-level mechanic 0,
effect mechanics 0) asked for the mask `0x80000000`: the claim's description
gives false, the code has no defined result. -/
theorem HasMechanicMask_failing_input :
    dotHolder.m_spellProto.Mechanic = 0 ∧ HasMechanicMask_spec dotHolder 2147483648 = false ∧
      dotHolder.HasMechanicMask 2147483648 = none :=
  ⟨rfl, by decide, (HasMechanicMask_contract dotHolder 2147483648).1 rfl⟩


/-! ## The class-script loop of the stat handler -/

theorem classScriptLoop_diverges (amount : Int) (scripts : List Int) (hne : scripts ≠ []) :
    ∀ (fuel : Nat) (stamina : Int), classScriptLoop amount scripts 0 fuel stamina = none := by
  have hlen : ¬ (0 = scripts.length) := by
    intro h
    exact hne (List.length_eq_zero.1 h.symm)
  intro fuel
  induction fuel with
  | zero =>
    intro stamina
    rw [classScriptLoop, if_neg hlen]
  | succ n ih =>
    intro stamina
    rw [classScriptLoop, if_neg hlen]
    exact ih _

theorem classScriptLoop_nil (amount : Int) (fuel : Nat) (stamina : Int) :
    classScriptLoop amount [] 0 fuel stamina = some stamina := by
  cases fuel <;> simp [classScriptLoop]

theorem HandleAuraModStat_run_eq (fuel : Nat) (q : HandlerQuery) (apply real : Bool) (a : Aura) :
    a.HandleAuraModStat_run fuel q apply real = a.HandleAuraModStat q apply real := by
  unfold Aura.HandleAuraModStat_run Aura.HandleAuraModStat
  by_cases hr : a.m_modifier.m_miscvalue < -2 ∨ a.m_modifier.m_miscvalue > 4
  · rw [if_pos hr, if_pos hr]
  · rw [if_neg hr, if_neg hr]
    dsimp only
    cases hf : q.fitsFamilyMask with
    | false => rfl
    | true =>
      cases apply with
      | false => rfl
      | true =>
        by_cases hs : q.classScripts = []
        · rw [hs]
          simp [classScriptLoop_nil]
        · simp [hs, classScriptLoop_diverges _ _ hs]

/-- C26: `Aura::HandleAuraModStat(apply = true, isReal)` on an instance whose
misc value is in range, for a spell that fits family mask 0x8000 and a target
that carries at least one `SPELL_AURA_OVERRIDE_CLASS_SCRIPTS` aura: whatever
number of iterations the class-script loop is given, it has not ended, so the
handler never reaches the stat modifiers and never returns. When the target
carries no such aura the loop ends at once, nothing is cast and the handler
returns with the calls of the stat loop. -/
theorem HandleAuraModStat_termination (q : HandlerQuery) (real : Bool) (a : Aura) :
    (-2 ≤ a.m_modifier.m_miscvalue → a.m_modifier.m_miscvalue ≤ 4 →
      q.fitsFamilyMask = true → q.classScripts ≠ [] →
      ∀ fuel, a.HandleAuraModStat_run fuel q true real = none) ∧
    (q.classScripts = [] →
      ∀ fuel, ∃ calls, a.HandleAuraModStat_run fuel q true real = some calls ∧
        ∀ call ∈ calls, ∃ stat amount,
          call = HandlerCall.handleStatModifier stat amount true ∨
            call = HandlerCall.applyStatBuffMod stat amount true) := by
  constructor
  · intro h1 h2 hf hs fuel
    unfold Aura.HandleAuraModStat_run
    rw [if_neg (by omega)]
    dsimp only
    rw [hf, if_pos rfl, if_pos rfl, classScriptLoop_diverges _ _ hs]
    rfl
  · intro hs fuel
    unfold Aura.HandleAuraModStat_run
    by_cases hr : a.m_modifier.m_miscvalue < -2 ∨ a.m_modifier.m_miscvalue > 4
    · rw [if_pos hr]
      exact ⟨[], rfl, by simp⟩
    · rw [if_neg hr]
      dsimp only
      rw [hs, classScriptLoop_nil]
      have hloop : ∀ call ∈
          (((List.range q.MAX_STATS).filter fun i => decide (q.STAT_STRENGTH ≤ i)).flatMap fun i =>
            if a.m_modifier.m_miscvalue < 0 ∨ a.m_modifier.m_miscvalue = (i : Int) then
              [HandlerCall.handleStatModifier i a.m_modifier.m_amount true] ++
                (if q.targetIsPlayer then
                  [HandlerCall.applyStatBuffMod i a.m_modifier.m_amount true]
                else [])
            else []),
          ∃ stat amount, call = HandlerCall.handleStatModifier stat amount true ∨
            call = HandlerCall.applyStatBuffMod stat amount true := by
        intro call hc
        rw [List.mem_flatMap] at hc
        obtain ⟨i, _, hi⟩ := hc
        split_ifs at hi
        · simp at hi
          rcases hi with hi | hi
          · exact ⟨i, _, Or.inl hi⟩
          · exact ⟨i, _, Or.inr hi⟩
        · simp at hi
          exact ⟨i, _, Or.inl hi⟩
        · simp at hi
      cases hf : q.fitsFamilyMask with
      | false => exact ⟨_, rfl, hloop⟩
      | true => exact ⟨_, rfl, hloop⟩

/-- C26 (failing input): the stat instance of spell 15366 (misc value 0,
amount 2) is applied to a player that carries one class-script aura while the
spell fits the family mask. No number of loop iterations lets the handler
return. -/
theorem HandleAuraModStat_failing_input :
    (Aura.ctor statBuff 0 2 2 true id).m_modifier.m_miscvalue = 0 ∧
      (scriptedQuery 15366).classScripts = [2388] ∧
      ∀ fuel, (Aura.ctor statBuff 0 2 2 true id).HandleAuraModStat_run fuel (scriptedQuery 15366)
        true true = none :=
  ⟨rfl, rfl,
    (HandleAuraModStat_termination (scriptedQuery 15366) true (Aura.ctor statBuff 0 2 2 true id)).1
      (by decide) (by decide) rfl (by decide)⟩

/-- C15 (failing input): the same stat buff cast on a player that carries one
class-script aura, for a definition that fits the family mask. The first
application makes one `ApplyModifier(true, true)` call on the stat instance,
and that handler call does not return, whatever number of iterations its
class-script loop is given: no stacking follows and no net delta of 10 is
reached. -/
theorem stat_buff_class_script_failing_input :
    (scriptedQuery 15366).fitsFamilyMask = true ∧ (scriptedQuery 15366).classScripts = [2388] ∧
      (firstApplication sampleConsts (sampleEnv 6000 0) statBuff 7 9 2 2 true id).2 =
        [Event.applyModifier (Aura.ctor statBuff 0 2 2 true id) true true] ∧
      (∀ fuel, (Aura.ctor statBuff 0 2 2 true id).HandleAuraModStat_run fuel
        (scriptedQuery 15366) true true = none) ∧
      statHandlerCalls (scriptedQuery 15366)
        (firstApplication sampleConsts (sampleEnv 6000 0) statBuff 7 9 2 2 true id).2 = none :=
  ⟨rfl, rfl, rfl,
    fun fuel => (HandleAuraModStat_run_eq fuel _ true true _).trans (by decide),
    by decide⟩


/-! ## Periodic ticks -/

/-- C23: `Aura::PeriodicTick` for the effect types periodic damage, periodic
damage percent, periodic leech, health funnel, periodic heal, periodic mana
leech and power burn: when the caster does not resolve, or when the target is
not alive, the tick makes no call at all (no health or power change, no
damage, no heal, no log). -/
theorem PeriodicTick_no_caster_or_dead (env : Env) (q : TickQuery) (h : SpellAuraHolder)
    (a : Aura)
    (ht : a.m_modifier.m_auraname = SPELL_AURA_PERIODIC_DAMAGE ∨
      a.m_modifier.m_auraname = SPELL_AURA_PERIODIC_DAMAGE_PERCENT ∨
      a.m_modifier.m_auraname = SPELL_AURA_PERIODIC_LEECH ∨
      a.m_modifier.m_auraname = SPELL_AURA_PERIODIC_HEALTH_FUNNEL ∨
      a.m_modifier.m_auraname = SPELL_AURA_PERIODIC_HEAL ∨
      a.m_modifier.m_auraname = SPELL_AURA_PERIODIC_MANA_LEECH ∨
      a.m_modifier.m_auraname = SPELL_AURA_POWER_BURN_MANA)
    (hc : h.GetCaster env = none ∨ q.targetAlive = false) :
    a.PeriodicTick env q h = [] := by
  have hdmg : a.PeriodicTick_damage env q h = [] := by
    unfold Aura.PeriodicTick_damage
    rcases hc with hc | hc
    · rw [hc]; split_ifs <;> rfl
    · rw [hc]; rfl
  have hleech : a.PeriodicTick_leech env q h = [] := by
    unfold Aura.PeriodicTick_leech
    rcases hc with hc | hc
    · rw [hc]; split_ifs <;> rfl
    · rw [hc]; rfl
  have hheal : a.PeriodicTick_heal env q h = [] := by
    unfold Aura.PeriodicTick_heal
    rcases hc with hc | hc
    · rw [hc]
    · cases h.GetCaster env with
      | none => rfl
      | some g =>
        dsimp only
        rw [hc]
        rfl
  have hml : a.PeriodicTick_manaLeech env q h = [] := by
    unfold Aura.PeriodicTick_manaLeech
    rcases hc with hc | hc
    · rw [hc]; split_ifs <;> rfl
    · rw [hc]; rfl
  have hpb : a.PeriodicTick_powerBurn env q h = [] := by
    unfold Aura.PeriodicTick_powerBurn
    rcases hc with hc | hc
    · rw [hc]; split_ifs <;> rfl
    · rw [hc]; rfl
  unfold Aura.PeriodicTick
  rw [hdmg, hleech, hheal, hml, hpb]
  rcases ht with ht | ht | ht | ht | ht | ht | ht <;> rw [ht] <;>
    simp [SPELL_AURA_PERIODIC_DAMAGE, SPELL_AURA_PERIODIC_DAMAGE_PERCENT,
      SPELL_AURA_PERIODIC_LEECH, SPELL_AURA_PERIODIC_HEALTH_FUNNEL, SPELL_AURA_PERIODIC_HEAL,
      SPELL_AURA_OBS_MOD_HEALTH, SPELL_AURA_PERIODIC_MANA_LEECH, SPELL_AURA_POWER_BURN_MANA]

/-- The caster of the sample holders resolves in `tickEnv`, the sample
instances are a periodic damage of 10 and a periodic leech of 15. -/
theorem tick_samples :
    dotHolder.GetCaster tickEnv = some 9 ∧ leechHolder.GetCaster tickEnv = some 9 ∧
      dotAura.m_modifier.m_auraname = SPELL_AURA_PERIODIC_DAMAGE ∧
      dotAura.m_modifier.m_amount = 10 ∧
      leechInstance.m_modifier.m_auraname = SPELL_AURA_PERIODIC_LEECH ∧
      leechInstance.m_modifier.m_amount = 15 := by
  refine ⟨rfl, rfl, rfl, rfl, rfl, rfl⟩

/-- C23 (witness): the periodic damage of 10 whose caster is gone, and the
one whose target is dead, make no call; with both present it deals 10. -/
theorem PeriodicTick_no_caster_or_dead_witness :
    dotAura.PeriodicTick casterGoneEnv (plainTick 1000) dotHolder = [] ∧
      dotAura.PeriodicTick tickEnv { plainTick 1000 with targetAlive := false } dotHolder = [] ∧
      dealtDamage (dotAura.PeriodicTick tickEnv (plainTick 1000) dotHolder) = [10] :=
  ⟨PeriodicTick_no_caster_or_dead casterGoneEnv (plainTick 1000) dotHolder dotAura
      (Or.inl rfl) (Or.inl rfl),
    PeriodicTick_no_caster_or_dead tickEnv { plainTick 1000 with targetAlive := false } dotHolder
      dotAura (Or.inl rfl) (Or.inr rfl),
    by decide⟩

/-- The sum of the scaled damage over the ticks 1 to 12. -/
theorem curseScale_sum (d : Nat) :
    ((List.range 12).map fun i => curseScale (i + 1) d).sum =
      4 * curseScale 1 d + 4 * curseScale 5 d + 4 * curseScale 9 d := by
  simp [List.range_succ, curseScale]
  omega

/-- C28: Curse of Agony scaling of the periodic damage branch for a per-tick
damage `d` with `d + (d + 1) / 2` below 2^32: the damage passed on is
`curseScale` of the tick number, which is `d / 2` for ticks up to 4, `d` for
ticks 5 to 8 and `d + (d + 1) / 2` from tick 9 on; over the ticks 1 to 12 it
sums to `12 * d`. -/
theorem curse_of_agony_scaling (d : Nat) (hd : d + (d + 1) / 2 < 4294967296) :
    (∀ (q : TickQuery) (a : Aura), q.isCurseOfAgony = true → q.magicDamageClass = true →
        a.m_modifier.m_auraname = SPELL_AURA_PERIODIC_DAMAGE →
        q.SpellDamageBonusTaken (tickAmount a) = d →
        a.tickBaseDamage q = curseScale a.m_periodicTick d) ∧
      (∀ t, t ≤ 4 → curseScale t d = d / 2) ∧
      (∀ t, 5 ≤ t → t ≤ 8 → curseScale t d = d) ∧
      (∀ t, 9 ≤ t → curseScale t d = d + (d + 1) / 2) ∧
      ((List.range 12).map fun i => curseScale (i + 1) d).sum = 12 * d := by
  have h1 : ∀ t, t ≤ 4 → curseScale t d = d / 2 := fun t ht => by
    unfold curseScale; rw [if_pos ht]
  have h2 : ∀ t, 5 ≤ t → t ≤ 8 → curseScale t d = d := fun t ht ht2 => by
    unfold curseScale; rw [if_neg (by omega), if_neg (by omega)]
  have h3 : ∀ t, 9 ≤ t → curseScale t d = d + (d + 1) / 2 := fun t ht => by
    have e1 : (d + 1) % 4294967296 = d + 1 := Nat.mod_eq_of_lt (by omega)
    unfold curseScale
    rw [if_neg (by omega), if_pos ht, e1, Nat.mod_eq_of_lt hd]
  refine ⟨fun q a hc hm ht hb => ?_, h1, h2, h3, ?_⟩
  · unfold Aura.tickBaseDamage
    dsimp only
    rw [if_pos ht, hm, hc, if_pos rfl, if_pos rfl, hb]
  · rw [curseScale_sum, h1 1 (by omega), h2 5 (by omega) (by omega), h3 9 (by omega)]
    omega

/-- C28 (witness): a curse of 11 per tick deals 5 on tick 1, 11 on tick 5
and 17 on tick 9, 132 over its twelve ticks. -/
theorem curse_of_agony_scaling_witness :
    (agonyAura 11 1).tickBaseDamage agonyTick = 5 ∧ (agonyAura 11 5).tickBaseDamage agonyTick = 11 ∧
      (agonyAura 11 9).tickBaseDamage agonyTick = 17 ∧
      ((List.range 12).map fun i => curseScale (i + 1) 11).sum = 12 * 11 :=
  ⟨(curse_of_agony_scaling 11 (by decide)).1 agonyTick (agonyAura 11 1) rfl rfl rfl rfl,
    (curse_of_agony_scaling 11 (by decide)).1 agonyTick (agonyAura 11 5) rfl rfl rfl rfl,
    (curse_of_agony_scaling 11 (by decide)).1 agonyTick (agonyAura 11 9) rfl rfl rfl rfl,
    (curse_of_agony_scaling 11 (by decide)).2.2.2.2⟩

/-- C28 (counterexample to the claim as stated): for a per-tick damage of 2863311531
the addition of tick 9 leaves the `uint32` range and the damage passed on is
1, so the twelve ticks do not sum to twelve times the damage. -/
theorem curse_of_agony_counterexample :
    curseScale 9 2863311531 = 1 ∧
      (agonyAura 10 9).tickBaseDamage
        { agonyTick with SpellDamageBonusTaken := fun _ => 2863311531 } = 1 ∧
      2863311531 + (2863311531 + 1) / 2 = 4294967297 ∧
      ((List.range 12).map fun i => curseScale (i + 1) 2863311531).sum ≠ 12 * 2863311531 := by
  have h9 : curseScale 9 2863311531 = 1 := by
    unfold curseScale; norm_num
  refine ⟨h9, ?_, by norm_num, ?_⟩
  · show (if agonyTick.isCurseOfAgony = true then curseScale 9 2863311531 else 2863311531) = 1
    have hc : agonyTick.isCurseOfAgony = true := rfl
    rw [if_pos hc, h9]
  · rw [curseScale_sum, h9]
    unfold curseScale
    norm_num


/-! ## The caster's side of an area aura -/

/-- A live holder of the list with an instance at the effect index stops the
loop with `apply` cleared: always for a pet aura, and for a party aura when
one of the four tests holds. -/
theorem applyLoop_blocked (env : Env) (q : CasterSideQuery) (a : Aura) (self caster : Nat)
    (actual : SpellEntry) (x : Nat × SpellAuraHolder) (hdel : x.2.m_deleted = false)
    (hslot : (x.2.m_auras a.m_effIndex).isSome = true)
    (hcond : a.m_areaAuraType = .AREA_AURA_PARTY →
      (x.1 = self ∨ x.2.GetCaster env = some caster ∨ q.casterIsPlayer = true ∨
        actual.SpellFamilyName = 0)) :
    ∀ l : List (Nat × SpellAuraHolder), x ∈ l →
      AreaAura.applyLoop env q a self caster actual l = false := by
  intro l
  induction l with
  | nil => intro hx; exact absurd hx (List.not_mem_nil _)
  | cons i rest ih =>
    intro hx
    obtain ⟨aur, haur⟩ := Option.isSome_iff_exists.1 hslot
    rw [AreaAura.applyLoop]
    rcases List.mem_cons.1 hx with hxi | hmem
    · subst hxi
      rw [hdel, haur]
      cases hty : a.m_areaAuraType with
      | AREA_AURA_PARTY => simp [hcond hty]
      | AREA_AURA_PET => simp
    · rw [ih hmem]
      cases i.2.m_deleted
      · cases i.2.m_auras a.m_effIndex <;> simp
      · simp

/-- The caster of a holder whose caster guid resolves is that guid. -/
theorem GetCaster_of_resolved (env : Env) (x : SpellAuraHolder)
    (hunit : env.GetUnit x.m_casterGuid = true) : x.GetCaster env = some x.m_casterGuid := by
  unfold SpellAuraHolder.GetCaster
  by_cases hc : x.m_casterGuid = x.m_target
  · rw [if_pos hc, hc]
  · rw [if_neg hc, if_pos hunit]

/-- When the loop leaves `apply` set, the unit has no registered instance of
the selected spell id at the effect index from this caster. -/
theorem key_not_registered (env : Env) (q : CasterSideQuery) (h : SpellAuraHolder) (a : Aura)
    (self : Nat) (actual : SpellEntry) (u : UnitAuras)
    (hside : h.m_casterGuid = h.m_target) (hunit : env.GetUnit h.m_target = true)
    (hreg : u.Registered)
    (happly : AreaAura.applyLoop env q a self h.m_target actual
      (u.holders.filter fun e => decide (e.2.m_spellProto.Id = actual.Id)) = true) :
    (actual.Id, a.m_effIndex, h.m_casterGuid) ∉ u.modList := by
  intro hmem
  obtain ⟨e, he, hkey, hsome⟩ := hreg.2 _ hmem
  dsimp only at hkey hsome
  have hid : e.2.m_spellProto.Id = actual.Id := congrArg Prod.fst hkey
  have hcg : e.2.m_casterGuid = h.m_casterGuid := congrArg (fun p => p.2.2) hkey
  have hc : e.2.GetCaster env = some h.m_target := by
    rw [GetCaster_of_resolved env e.2 (by rw [hcg, hside]; exact hunit), hcg, hside]
  have hblock := applyLoop_blocked env q a self h.m_target actual e (hreg.1 e he) hsome
    (fun _ => Or.inr (Or.inl hc))
    (u.holders.filter fun e => decide (e.2.m_spellProto.Id = actual.Id))
    (List.mem_filter.2 ⟨he, by simpa using hid⟩)
  rw [hblock] at happly
  exact Bool.noConfusion happly

/-- Adding an instance to the holders at one address keeps the unit
registered and registers the new instance. -/
theorem registered_add_existing (u : UnitAuras) (found : Nat × SpellAuraHolder) (d : Int)
    (aur : Aura) (eff : Nat) (hreg : u.Registered) (hfound : found ∈ u.holders) :
    UnitAuras.Registered
      { holders := u.holders.map fun e =>
          if e.1 = found.1 then (e.1, (e.2.SetAuraDuration d).AddAura aur eff) else e
        modList := u.modList ++ [instanceKey found.2 eff] } := by
  have hg : ∀ e0 : Nat × SpellAuraHolder, ∀ j : Nat,
      ((if e0.1 = found.1 then (e0.1, (e0.2.SetAuraDuration d).AddAura aur eff) else e0).2.m_deleted
          = e0.2.m_deleted) ∧
        instanceKey (if e0.1 = found.1 then (e0.1, (e0.2.SetAuraDuration d).AddAura aur eff)
          else e0).2 j = instanceKey e0.2 j ∧
        ((e0.2.m_auras j).isSome = true →
          ((if e0.1 = found.1 then (e0.1, (e0.2.SetAuraDuration d).AddAura aur eff)
            else e0).2.m_auras j).isSome = true) := by
    intro e0 j
    by_cases hc : e0.1 = found.1
    · rw [if_pos hc]
      refine ⟨rfl, rfl, fun hs => ?_⟩
      show (Function.update e0.2.m_auras eff (some aur) j).isSome = true
      by_cases hj : j = eff
      · rw [hj, Function.update_same]; rfl
      · rw [Function.update_noteq hj]; exact hs
    · rw [if_neg hc]
      exact ⟨rfl, rfl, fun hs => hs⟩
  refine ⟨fun e he => ?_, fun k hk => ?_⟩
  · obtain ⟨e0, he0, rfl⟩ := List.mem_map.1 he
    rw [(hg e0 0).1]
    exact hreg.1 e0 he0
  · rcases List.mem_append.1 hk with hk | hk
    · obtain ⟨e0, he0, hkey, hsome⟩ := hreg.2 k hk
      exact ⟨_, List.mem_map.2 ⟨e0, he0, rfl⟩, (hg e0 k.2.1).2.1.trans hkey,
        (hg e0 k.2.1).2.2 hsome⟩
    · rw [List.mem_singleton.1 hk]
      refine ⟨_, List.mem_map.2 ⟨found, hfound, rfl⟩, ?_, ?_⟩
      · rw [if_pos rfl]; rfl
      · rw [if_pos rfl]
        show (Function.update found.2.m_auras eff (some aur) eff).isSome = true
        rw [Function.update_same]; rfl

/-- Putting a new live holder into the map and registering instances of it
keeps the unit registered. -/
theorem registered_add_new (u : UnitAuras) (addr : Nat) (holder : SpellAuraHolder)
    (keys : List (Nat × Nat × Nat)) (hreg : u.Registered) (hdel : holder.m_deleted = false)
    (hkeys : ∀ k ∈ keys, instanceKey holder k.2.1 = k ∧ (holder.m_auras k.2.1).isSome = true) :
    UnitAuras.Registered
      { holders := u.holders ++ [(addr, holder)]
        modList := u.modList ++ keys } := by
  refine ⟨fun e he => ?_, fun k hk => ?_⟩
  · rcases List.mem_append.1 he with he | he
    · exact hreg.1 e he
    · rw [List.mem_singleton.1 he]; exact hdel
  · rcases List.mem_append.1 hk with hk | hk
    · obtain ⟨e0, he0, hkey, hs⟩ := hreg.2 k hk
      exact ⟨e0, List.mem_append.2 (Or.inl he0), hkey, hs⟩
    · exact ⟨(addr, holder), List.mem_append.2 (Or.inr (List.mem_singleton.2 rfl)),
        (hkeys k hk).1, (hkeys k hk).2⟩

/-- The instances of a holder that has the one instance added to it. -/
theorem new_holder_keys (x : SpellAuraHolder) (hx : x.m_auras = fun _ => none) (aur : Aura)
    (eff : Nat) :
    ((List.range MAX_EFFECT_INDEX).filterMap fun i =>
        ((x.AddAura aur eff).m_auras i).map fun _ => instanceKey (x.AddAura aur eff) i) =
      if eff < 3 then [instanceKey (x.AddAura aur eff) eff] else [] := by
  have hr : List.range MAX_EFFECT_INDEX = [0, 1, 2] := rfl
  rw [hr]
  simp only [SpellAuraHolder.AddAura, hx, Function.update_apply]
  by_cases h3 : eff < 3
  · rw [if_pos h3]
    interval_cases eff <;> simp
  · rw [if_neg h3]
    have h0 : ¬ 0 = eff := by omega
    have h1 : ¬ 1 = eff := by omega
    have h2 : ¬ 2 = eff := by omega
    simp [h0, h1, h2]

/-- Registering an instance that was not registered leaves no key with more
than one instance that did not have more than one before. -/
theorem count_add_unregistered (l : List (Nat × Nat × Nat)) (key : Nat × Nat × Nat)
    (hkey : key ∉ l) (k : Nat × Nat × Nat) : (l ++ [key]).count k ≤ max 1 (l.count k) := by
  rw [List.count_append]
  by_cases hk : key = k
  · subst hk
    rw [List.count_eq_zero_of_not_mem hkey]
    simp
  · have h0 : List.count k [key] = 0 := List.count_eq_zero_of_not_mem (by simpa using Ne.symm hk)
    rw [h0]
    exact le_max_right _ _

/-- One target of the caster's side: a registered unit stays registered, and
no key gains a second instance. -/
theorem applyToTarget_step (c : Consts) (env : Env) (q : CasterSideQuery) (h : SpellAuraHolder)
    (a : Aura) (self target : Nat) (u : UnitAuras) (r : UnitAuras × List Event)
    (hside : h.m_casterGuid = h.m_target) (hunit : env.GetUnit h.m_target = true)
    (hreg : u.Registered)
    (hrun : AreaAura.applyToTarget c env q h a self target u = some r) :
    r.1.Registered ∧ ∀ k, r.1.modList.count k ≤ max 1 (u.modList.count k) := by
  have hsame : r = (u, []) → r.1.Registered ∧ ∀ k, r.1.modList.count k ≤ max 1 (u.modList.count k) :=
    fun hr => by rw [hr]; exact ⟨hreg, fun k => le_max_right _ _⟩
  unfold AreaAura.applyToTarget at hrun
  cases hact : AreaAura.actualSpellInfo env q h target with
  | none =>
    rw [hact] at hrun
    exact hsame (Option.some.inj hrun).symm
  | some actual =>
    rw [hact] at hrun
    dsimp only at hrun
    cases happly : AreaAura.applyLoop env q a self h.m_target actual
      (u.holders.filter fun e => decide (e.2.m_spellProto.Id = actual.Id)) with
    | false =>
      rw [happly] at hrun
      exact hsame (Option.some.inj hrun).symm
    | true =>
      rw [happly] at hrun
      have hkey := key_not_registered env q h a self actual u hside hunit hreg happly
      cases hskip : (actual.HasAttribute .SPELL_ATTR_EX3_TARGET_ONLY_PLAYER &&
        !q.targetIsPlayer target) with
      | true =>
        rw [hskip] at hrun
        exact hsame (Option.some.inj hrun).symm
      | false =>
        rw [hskip] at hrun
        simp only [Bool.not_true, Bool.false_eq_true, if_false] at hrun
        obtain ⟨aur, -, hr⟩ := Option.map_eq_some'.1 hrun
        cases hfind : GetSpellAuraHolder u.holders actual.Id h.m_casterGuid with
        | some found =>
          rw [hfind] at hr
          dsimp only at hr
          have hprop := List.find?_some hfind
          have hmem := List.mem_of_find?_eq_some hfind
          simp only [Bool.and_eq_true, decide_eq_true_eq] at hprop
          have hk : instanceKey found.2 a.m_effIndex = (actual.Id, a.m_effIndex, h.m_casterGuid) := by
            unfold instanceKey; rw [hprop.1, hprop.2]
          rw [← hr]
          refine ⟨registered_add_existing u found h.m_duration _ a.m_effIndex hreg hmem, fun k => ?_⟩
          dsimp only [UnitAuras.AddAuraToModList]
          rw [hk]
          exact count_add_unregistered u.modList _ hkey k
        | none =>
          rw [hfind] at hr
          dsimp only at hr
          have hk : instanceKey
              (((CreateSpellAuraHolder c env actual target (some h.m_target)).SetAuraDuration
                h.m_duration).AddAura aur a.m_effIndex) a.m_effIndex =
              (actual.Id, a.m_effIndex, h.m_casterGuid) := by
            rw [hside]; rfl
          have hkeys := new_holder_keys
            ((CreateSpellAuraHolder c env actual target (some h.m_target)).SetAuraDuration
              h.m_duration) rfl aur a.m_effIndex
          rw [hk] at hkeys
          rw [← hr]
          unfold UnitAuras.AddSpellAuraHolder
          cases q.AddSpellAuraHolder target
            (((CreateSpellAuraHolder c env actual target (some h.m_target)).SetAuraDuration
              h.m_duration).AddAura aur a.m_effIndex) with
          | false => exact ⟨hreg, fun k => le_max_right _ _⟩
          | true =>
            rw [if_pos rfl, hkeys]
            refine ⟨registered_add_new u _ _ _ hreg rfl (fun k hkm => ?_), fun k => ?_⟩
            · by_cases h3 : a.m_effIndex < 3
              · rw [if_pos h3] at hkm
                rw [List.mem_singleton.1 hkm]
                refine ⟨hk, ?_⟩
                show (Function.update (fun _ : Nat => (none : Option Aura)) a.m_effIndex
                  (some aur) a.m_effIndex).isSome = true
                rw [Function.update_same]; rfl
              · rw [if_neg h3] at hkm
                exact absurd hkm (List.not_mem_nil _)
            · dsimp only
              by_cases h3 : a.m_effIndex < 3
              · rw [if_pos h3]
                exact count_add_unregistered u.modList _ hkey k
              · rw [if_neg h3, List.append_nil]
                exact le_max_right _ _

/-- The loop over the targets: registered units stay registered, and no key
of any unit gains a second instance. -/
theorem applyToTargets_inv (c : Consts) (env : Env) (q : CasterSideQuery) (h : SpellAuraHolder)
    (a : Aura) (self : Nat) (hside : h.m_casterGuid = h.m_target)
    (hunit : env.GetUnit h.m_target = true) :
    ∀ (targets : List Nat) (w : Nat → UnitAuras) (r : (Nat → UnitAuras) × List Event),
      (∀ t, (w t).Registered) →
      AreaAura.applyToTargets c env q h a self targets w = some r →
      ∀ t, (r.1 t).Registered ∧ ∀ k, (r.1 t).modList.count k ≤ max 1 ((w t).modList.count k) := by
  intro targets
  induction targets with
  | nil =>
    intro w r hreg hrun t
    rw [AreaAura.applyToTargets] at hrun
    rw [← Option.some.inj hrun]
    exact ⟨hreg t, fun k => le_max_right _ _⟩
  | cons target rest ih =>
    intro w r hreg hrun t
    rw [AreaAura.applyToTargets] at hrun
    obtain ⟨r1, hstep, hrest⟩ := Option.bind_eq_some.1 hrun
    obtain ⟨r2, hrec, hr⟩ := Option.map_eq_some'.1 hrest
    have h1 := applyToTarget_step c env q h a self target (w target) r1 hside hunit
      (hreg target) hstep
    have hreg1 : ∀ t, (Function.update w target r1.1 t).Registered := by
      intro t
      by_cases ht : t = target
      · rw [ht, Function.update_same]; exact h1.1
      · rw [Function.update_noteq ht]; exact hreg t
    have h2 := ih (Function.update w target r1.1) r2 hreg1 hrec t
    rw [← hr]
    refine ⟨h2.1, fun k => ?_⟩
    have hb : (Function.update w target r1.1 t).modList.count k ≤
        max 1 ((w t).modList.count k) := by
      by_cases ht : t = target
      · rw [ht, Function.update_same]; exact h1.2 k
      · rw [Function.update_noteq ht]; exact le_max_right _ _
    have h3 := h2.2 k
    dsimp only
    omega

/-- The constructor of the area variant succeeds on the two area aura
effects. -/
theorem AreaAura_ctor_isSome (c : Consts) (sp : SpellEntry) (eff : Nat) (bp dmg : Int)
    (pos : Bool) (pm : Nat → Nat) (totem : Bool) (orig : Nat)
    (heff : sp.Effect eff = c.SPELL_EFFECT_APPLY_AREA_AURA_PARTY ∨
      sp.Effect eff = c.SPELL_EFFECT_APPLY_AREA_AURA_PET) :
    (AreaAura.ctor c sp eff bp dmg pos pm totem orig).isSome = true := by
  unfold AreaAura.ctor
  dsimp only
  rw [Option.isSome_map']
  by_cases h1 : sp.Effect eff = c.SPELL_EFFECT_APPLY_AREA_AURA_PARTY
  · rw [if_pos h1]; rfl
  · rw [if_neg h1, if_pos (heff.resolve_left h1)]; rfl

/-- One target of the caster's side returns when the selected definition
has an area aura effect at the effect index. -/
theorem applyToTarget_isSome (c : Consts) (env : Env) (q : CasterSideQuery) (h : SpellAuraHolder)
    (a : Aura) (self target : Nat) (u : UnitAuras)
    (heff : ∀ actual, AreaAura.actualSpellInfo env q h target = some actual →
      actual.Effect a.m_effIndex = c.SPELL_EFFECT_APPLY_AREA_AURA_PARTY ∨
        actual.Effect a.m_effIndex = c.SPELL_EFFECT_APPLY_AREA_AURA_PET) :
    (AreaAura.applyToTarget c env q h a self target u).isSome = true := by
  unfold AreaAura.applyToTarget
  cases hact : AreaAura.actualSpellInfo env q h target with
  | none => rfl
  | some actual =>
    dsimp only
    split_ifs
    · rfl
    · rfl
    · rw [Option.isSome_map']
      exact AreaAura_ctor_isSome c actual a.m_effIndex _ _ _ _ _ _ (heff actual hact)
    · rw [Option.isSome_map']
      exact AreaAura_ctor_isSome c actual a.m_effIndex _ _ _ _ _ _ (heff actual hact)

/-- The loop over the targets returns when every selected definition has an
area aura effect at the effect index. -/
theorem applyToTargets_isSome (c : Consts) (env : Env) (q : CasterSideQuery)
    (h : SpellAuraHolder) (a : Aura) (self : Nat)
    (heff : ∀ t actual, AreaAura.actualSpellInfo env q h t = some actual →
      actual.Effect a.m_effIndex = c.SPELL_EFFECT_APPLY_AREA_AURA_PARTY ∨
        actual.Effect a.m_effIndex = c.SPELL_EFFECT_APPLY_AREA_AURA_PET) :
    ∀ (targets : List Nat) (w : Nat → UnitAuras),
      (AreaAura.applyToTargets c env q h a self targets w).isSome = true := by
  intro targets
  induction targets with
  | nil => intro w; rfl
  | cons target rest ih =>
    intro w
    rw [AreaAura.applyToTargets]
    obtain ⟨r1, hr1⟩ := Option.isSome_iff_exists.1
      (applyToTarget_isSome c env q h a self target (w target) (heff target))
    rw [hr1, Option.some_bind, Option.isSome_map']
    exact ih _

/-- The sample world is registered. -/
theorem totemWorld_registered : ∀ t, (totemWorld t).Registered := by
  intro t
  unfold totemWorld
  by_cases ht : t = 9
  · rw [if_pos ht]
    refine ⟨fun e he => ?_, fun k hk => ?_⟩
    · rw [List.mem_singleton.1 he]; rfl
    · rw [List.mem_singleton.1 hk]
      exact ⟨(1, totemRegenHolder), List.mem_singleton.2 rfl, rfl, rfl⟩
  · rw [if_neg ht]
    exact ⟨fun e he => absurd he (List.not_mem_nil _), fun k hk => absurd hk (List.not_mem_nil _)⟩

/-- C21: on the caster's side of `AreaAura::Update` (the instance `a` of
the holder `h` at address `self`, on its own caster, who resolves): a target
that carries a live holder of the selected spell id with an instance at the
effect index is left as it is, with no call made, for a party aura when that
instance is this instance, or its caster is this caster, or the caster is a
player, or the selected definition has no spell family, and for a pet aura
always. Over the whole list of targets, repeated targets included, units
whose registered instances belong to live holders stay so and no (spell id,
effect index, caster) of any unit gains a second registered instance; the
loop returns when the selected definitions have an area aura effect. -/
theorem AreaAura_caster_side_no_duplicates (c : Consts) (env : Env) (q : CasterSideQuery)
    (h : SpellAuraHolder) (a : Aura) (self : Nat) (hside : h.m_casterGuid = h.m_target)
    (hunit : env.GetUnit h.m_target = true) :
    (a.m_areaAuraType = .AREA_AURA_PARTY →
        ∀ target u actual x, AreaAura.actualSpellInfo env q h target = some actual →
          x ∈ u.holders → x.2.m_deleted = false → x.2.m_spellProto.Id = actual.Id →
          (x.2.m_auras a.m_effIndex).isSome = true →
          (x.1 = self ∨ x.2.GetCaster env = some h.m_target ∨ q.casterIsPlayer = true ∨
            actual.SpellFamilyName = 0) →
          AreaAura.applyToTarget c env q h a self target u = some (u, [])) ∧
      (a.m_areaAuraType = .AREA_AURA_PET →
        ∀ target u actual x, AreaAura.actualSpellInfo env q h target = some actual →
          x ∈ u.holders → x.2.m_deleted = false → x.2.m_spellProto.Id = actual.Id →
          (x.2.m_auras a.m_effIndex).isSome = true →
          AreaAura.applyToTarget c env q h a self target u = some (u, [])) ∧
      (∀ targets w r, (∀ t, (w t).Registered) →
        AreaAura.applyToTargets c env q h a self targets w = some r →
        ∀ t, (r.1 t).Registered ∧
          ∀ k, (r.1 t).modList.count k ≤ max 1 ((w t).modList.count k)) ∧
      ((∀ t actual, AreaAura.actualSpellInfo env q h t = some actual →
          actual.Effect a.m_effIndex = c.SPELL_EFFECT_APPLY_AREA_AURA_PARTY ∨
            actual.Effect a.m_effIndex = c.SPELL_EFFECT_APPLY_AREA_AURA_PET) →
        ∀ targets w, (AreaAura.applyToTargets c env q h a self targets w).isSome = true) := by
  have hskip : ∀ target u actual (x : Nat × SpellAuraHolder),
      AreaAura.actualSpellInfo env q h target = some actual →
      x ∈ u.holders → x.2.m_deleted = false → x.2.m_spellProto.Id = actual.Id →
      (x.2.m_auras a.m_effIndex).isSome = true →
      (a.m_areaAuraType = .AREA_AURA_PARTY →
        (x.1 = self ∨ x.2.GetCaster env = some h.m_target ∨ q.casterIsPlayer = true ∨
          actual.SpellFamilyName = 0)) →
      AreaAura.applyToTarget c env q h a self target u = some (u, []) := by
    intro target u actual x hact hx hdel hid hsome hcond
    have hb := applyLoop_blocked env q a self h.m_target actual x hdel hsome hcond
      (u.holders.filter fun e => decide (e.2.m_spellProto.Id = actual.Id))
      (List.mem_filter.2 ⟨hx, by simpa using hid⟩)
    unfold AreaAura.applyToTarget
    rw [hact]
    dsimp only
    rw [hb]
    rfl
  refine ⟨fun _ target u actual x hact hx hdel hid hsome hcond =>
      hskip target u actual x hact hx hdel hid hsome (fun _ => hcond),
    fun hpet target u actual x hact hx hdel hid hsome =>
      hskip target u actual x hact hx hdel hid hsome
        (fun hparty => by rw [hpet] at hparty; exact AreaAuraType.noConfusion hparty),
    applyToTargets_inv c env q h a self hside hunit,
    applyToTargets_isSome c env q h a self⟩

/-- C21 (witness): the totem's party aura of unit 9 with the targets 8, 8
and 9: unit 8 gets one instance, the second visit and the caster's own visit
add nothing. -/
theorem AreaAura_caster_side_no_duplicates_witness :
    ((AreaAura.applyToTargets sampleConsts (regenEnv 60000) totemQuery totemRegenHolder
        totemRegenAura 1 [8, 8, 9] totemWorld).map fun r =>
        ((r.1 8).modList, (r.1 8).holders.length, (r.1 9).modList, (r.1 9).holders.length)) =
        some ([(5672, 0, 9)], 1, [(5672, 0, 9)], 1) ∧
      ∀ r, AreaAura.applyToTargets sampleConsts (regenEnv 60000) totemQuery totemRegenHolder
          totemRegenAura 1 [8, 8, 9] totemWorld = some r →
        (r.1 8).modList.count (5672, 0, 9) ≤ max 1 ((totemWorld 8).modList.count (5672, 0, 9)) :=
  ⟨by rfl, fun r hr =>
    ((AreaAura_caster_side_no_duplicates sampleConsts (regenEnv 60000) totemQuery
      totemRegenHolder totemRegenAura 1 rfl rfl).2.2.1 [8, 8, 9] totemWorld r
        totemWorld_registered hr 8).2 (5672, 0, 9)⟩

end SpellAuras
